import Mathlib

/-! go-slider: slider-captcha issuance and rendering.

A shallow embedding of the three service variants of the repository
(src/new/main.go, src/old/main.go, src/old/server.go).

* The Go type int is the 64-bit two's-complement integer: values are of type Int, and
  every arithmetic result is wrapped with wrapInt.
* Go strings are byte sequences (GoString).
* A run-time panic is the error side of Except Panic.
* The random generator, the clock, the file system, the request and the memory that the
  runtime can obtain for a pixel buffer are explicit arguments of the handlers.
* Functions of the Go standard library (strconv, encoding/json, net/url, image, image/draw,
  image/png) are modelled by their documented behaviour; the resampling of the imaging
  library and the cipher of the repository, which is not among the source files, are
  arguments.
-/

namespace GoSlider

/-! ## Machine integers, strings, panics -/

/-- One byte of a Go string. -/
abbrev Byte := Fin 256

/-- Go strings are arbitrary byte sequences (not necessarily valid UTF-8). -/
abbrev GoString := List Byte

/-- The bytes of an ASCII literal. -/
def lit (s : String) : GoString := s.data.map (fun c => Fin.ofNat c.toNat)

/-- Smallest value of the Go type int (64 bit). -/
def minInt : Int := -9223372036854775808

/-- Largest value of the Go type int (64 bit). -/
def maxInt : Int := 9223372036854775807

/-- Membership in the range of the Go type int. -/
def isInt (x : Int) : Prop := minInt ≤ x ∧ x ≤ maxInt

instance (x : Int) : Decidable (isInt x) := by unfold isInt; infer_instance

/-- Two's-complement wrap-around of an exact result to 64 bits. -/
def wrapInt (x : Int) : Int :=
  (x + 9223372036854775808) % 18446744073709551616 - 9223372036854775808

/-- Go integer division truncates toward zero. -/
def goDiv (a b : Int) : Int := wrapInt (Int.tdiv a b)

/-- The ways in which the run time ends a handler without a return: the panics of
rand.Intn, of slice indexing, of the image constructors (huge or negative dimensions) and
of make (makeslice: len out of range), and the fatal error of the runtime when the
operating system grants no more memory. -/
inductive Panic where
  | intnInvalidArgument
  | indexOutOfRange
  | hugeImage
  | makesliceLenOutOfRange
  | outOfMemory
  deriving DecidableEq, Repr

/-- Go error values returned by the helpers. -/
inductive GoError where
  | readDirFailed (path : GoString)
  | getwdFailed
  | openFailed (path : GoString)
  | jsonSyntax
  | jsonType
  | jsonUnmodelled
  deriving DecidableEq, Repr

deriving instance DecidableEq for Except

/-- Go rand.Intn(n): panics when n ≤ 0, otherwise returns a value of [0, n).
The argument raw is the draw of the generator; r % n ranges over all of [0, n). -/
def Intn (raw : Nat) (n : Int) : Except Panic Int :=
  if n ≤ 0 then .error .intnInvalidArgument else .ok ((raw : Int) % n)

/-! ## Constants and records (src/new/main.go 34-60) -/

/-- Height of the reference canvas. -/
def bacH : Int := 200

/-- Width of the reference canvas. -/
def bacW : Int := 400

/-- The challenge record of src/new/main.go and src/old/main.go. -/
structure SliderInfo where
  BacW : Int
  BacH : Int
  SliderW : Int
  SliderH : Int
  Dx : Int
  Dy : Int
  Src : GoString
  Time : Int
  deriving DecidableEq, Repr

/-! ## getSliderSize (identical text in the three files) -/

/-- Transcription of getSliderSize, src/new/main.go 272-287. -/
def getSliderSize (w : Int) : Int :=
  if w < 200 then 30
  else if w < 300 then 40
  else if w < 400 then 50
  else 50

namespace OldMain

/-- Transcription of getSliderSize, src/old/main.go 305-320. -/
def getSliderSize (w : Int) : Int :=
  if w < 200 then 30
  else if w < 300 then 40
  else if w < 400 then 50
  else 50

end OldMain

namespace Server

/-- Transcription of getSliderSize, src/old/server.go 153-168. -/
def getSliderSize (w : Int) : Int :=
  if w < 200 then 30
  else if w < 300 then 40
  else if w < 400 then 50
  else 50

end Server

/-! ## strconv.Atoi and strconv.Itoa (Go standard library, by their documented behaviour) -/

/-- Value of a string of decimal digits read left to right, none when a byte is not a digit. -/
def digitsValue : GoString → Nat → Option Nat
  | [], acc => some acc
  | b :: rest, acc =>
    if 48 ≤ b.val ∧ b.val ≤ 57 then digitsValue rest (acc * 10 + (b.val - 48)) else none

/-- The optional sign in front of a number: whether it is a minus, and the rest. -/
def splitSign (s : GoString) : Bool × GoString :=
  match s with
  | b :: rest => if b.val = 45 then (true, rest) else if b.val = 43 then (false, rest) else (false, s)
  | [] => (false, s)

/-- Go strconv.Atoi: an optional sign, then at least one decimal digit and nothing else;
the value must fit the type int. The result none stands for a non-nil error. -/
def Atoi (s : GoString) : Option Int :=
  if (splitSign s).2 = [] then none
  else
    match digitsValue (splitSign s).2 0 with
    | none => none
    | some n =>
      if isInt (if (splitSign s).1 then -(n : Int) else (n : Int)) then
        some (if (splitSign s).1 then -(n : Int) else (n : Int))
      else none

/-- Decimal digits of a number, least significant first; fuel bounds the recursion. -/
def digitsRev : Nat → Nat → GoString
  | 0, _ => []
  | fuel + 1, n =>
    if n < 10 then [Fin.ofNat (48 + n)]
    else Fin.ofNat (48 + n % 10) :: digitsRev fuel (n / 10)

/-- Decimal representation of a natural number. -/
def natDigits (n : Nat) : GoString := (digitsRev (n + 1) n).reverse

/-- Go strconv.Itoa. -/
def Itoa (i : Int) : GoString :=
  if i < 0 then (45 : Byte) :: natDigits i.natAbs else natDigits i.natAbs

/-! ## The picture pool: readAllPngFiles and getPic -/

/-- One entry of a directory listing (os.FileInfo: Name and IsDir). -/
structure FileInfo where
  Name : GoString
  IsDir : Bool
  deriving DecidableEq, Repr

/-- The file system as ioutil.ReadDir sees it: none when the directory cannot be read,
else the entries of the directory, which ioutil.ReadDir returns sorted by file name. -/
abbrev FileSystem := GoString → Option (List FileInfo)

/-- Whether a listing is in the order of ioutil.ReadDir: file names increasing, compared
byte by byte. -/
def sortedByName (files : List FileInfo) : Prop :=
  files.Pairwise (fun a b => a.Name < b.Name)

instance (files : List FileInfo) : Decidable (sortedByName files) := by
  unfold sortedByName; infer_instance

/-- The regular expression of readAllPngFiles, one character other than newline followed
by the literal .png at the end of the name. -/
def matchPng (name : GoString) : Bool :=
  match name.reverse with
  | g :: n :: p :: dot :: c :: _ =>
    g.val = 103 && n.val = 110 && p.val = 112 && dot.val = 46 && c.val ≠ 10
  | _ => false

/-- Transcription of readAllPngFiles, src/new/main.go 310-331. -/
def readAllPngFiles (fs : FileSystem) (path : GoString) : Except GoError (List GoString) :=
  match fs path with
  | none => .error (.readDirFailed path)
  | some files =>
    .ok ((files.filter (fun file => !file.IsDir && matchPng file.Name)).map
      (fun file => path ++ lit "/" ++ file.Name))

/-- Transcription of getPic, src/new/main.go 290-307. The argument dir is
filepath.Dir of the executable path, r the draw of the generator. The result is the
pair (file, err) of the Go function, or a panic. -/
def getPic (dir : GoString) (fs : FileSystem) (r : Nat) : Except Panic (GoString × Option GoError) :=
  match readAllPngFiles fs (dir ++ lit "/img") with
  | .error e => .ok ([], some e)
  | .ok files => do
    let randInt ← Intn r (wrapInt ((files.length : Int) - 1))
    match files[randInt.toNat]? with
    | some file => pure (file, none)
    | none => .error .indexOutOfRange

namespace OldMain

/-- Transcription of getPic, src/old/main.go 361-377; cwd is the result of os.Getwd. -/
def getPic (cwd : Except GoError GoString) (fs : FileSystem) (r : Nat) :
    Except Panic (GoString × Option GoError) :=
  match cwd with
  | .error e => .ok ([], some e)
  | .ok path =>
    match readAllPngFiles fs (path ++ lit "/img") with
    | .error e => .ok ([], some e)
    | .ok files => do
      let randInt ← Intn r (wrapInt ((files.length : Int) - 1))
      match files[randInt.toNat]? with
      | some file => pure (file, none)
      | none => .error .indexOutOfRange

end OldMain

namespace Server

/-- Transcription of getPic, src/old/server.go 235-238. -/
def getPic (r : Nat) : Except Panic GoString := do
  let randInt ← Intn r 8
  pure (lit "pic" ++ Itoa (wrapInt (randInt + 1)) ++ lit ".png")

end Server

/-! ## The response envelope -/

/-- The payload of a successful getCode response: the map with keys x, y and sign. -/
structure CodeData where
  x : GoString
  y : GoString
  sign : GoString
  deriving DecidableEq, Repr

/-- The response envelope JsonRes; Data is none for the Go value nil. -/
structure JsonRes where
  Status : Int
  Data : Option CodeData
  Msg : String
  TimeStamp : Int
  deriving DecidableEq, Repr

/-- Transcription of responseJson, src/new/main.go 261-269 (apiResult in the old
variants); stamp is time.Now().Unix(). -/
def responseJson (stamp : Int) (status : Int) (data : Option CodeData) (msg : String) : JsonRes :=
  { Status := status, Data := data, Msg := msg, TimeStamp := stamp }

/-! ## Geometry selection of getCode -/

/-- Lines 97-102 of getCode: the form value of width (none when the field is absent,
which PostForm reports as the empty string) goes through strconv.Atoi, and only an
error of Atoi selects the default 400. -/
def getCode_width (form : Option GoString) : Int :=
  match Atoi (form.getD []) with
  | none => 400
  | some width => width


/-- The four numbers chosen by getCode before the picture is picked. -/
structure Plan where
  sliderInt : Int
  hight : Int
  dx : Int
  dy : Int
  deriving DecidableEq, Repr

/-- Background height, src/new/main.go 108: bacH * width / bacW in Go int arithmetic. -/
def getCode_hight (width : Int) : Int :=
  goDiv (wrapInt (bacH * width)) bacW

/-- Lines 104-113 of getCode in src/new/main.go (and 255-264 of src/old/main.go);
r1 and r2 are the two successive draws of the generator. -/
def getCode_plan (width : Int) (r1 r2 : Nat) : Except Panic Plan := do
  let sliderInt := getSliderSize width
  let hight := getCode_hight width
  let dx0 ← Intn r1 (wrapInt (width - wrapInt (2 * sliderInt)))
  let dx := wrapInt (dx0 + sliderInt)
  let dy ← Intn r2 (wrapInt (hight - sliderInt))
  pure { sliderInt := sliderInt, hight := hight, dx := dx, dy := dy }

namespace Server

/-- Lines 117-124 of getCode in src/old/server.go: Dx is drawn from [0, width - sliderInt). -/
def getCode_plan (width : Int) (r1 r2 : Nat) : Except Panic Plan := do
  let sliderInt := Server.getSliderSize width
  let hight := goDiv (wrapInt (bacH * width)) bacW
  let dx ← Intn r1 (wrapInt (width - sliderInt))
  let dy ← Intn r2 (wrapInt (hight - sliderInt))
  pure { sliderInt := sliderInt, hight := hight, dx := dx, dy := dy }

end Server

/-- Lines 97-131 of getCode in src/new/main.go: the record that is then serialised, or the
failure envelope written when getPic returns an error, or a panic. The value of the
rune literal passed as status on the failure paths is 48. -/
def getCode_slider (width : Int) (r1 r2 r3 : Nat) (dir : GoString) (fs : FileSystem)
    (now stamp : Int) : Except Panic (Except JsonRes SliderInfo) := do
  let p ← getCode_plan width r1 r2
  let src ← getPic dir fs r3
  match src.2 with
  | some _ =>
    pure (.error (responseJson stamp (Char.toNat '0') none "服务器图片无法加载，请及时联系管理人员"))
  | none =>
    pure (.ok { BacW := width, BacH := p.hight, SliderW := p.sliderInt, SliderH := p.sliderInt,
                Dx := p.dx, Dy := p.dy, Src := src.1, Time := now })

namespace OldMain

/-- Lines 255-264 of getCode in src/old/main.go. -/
def getCode_plan (width : Int) (r1 r2 : Nat) : Except Panic Plan := do
  let sliderInt := OldMain.getSliderSize width
  let hight := goDiv (wrapInt (bacH * width)) bacW
  let dx0 ← Intn r1 (wrapInt (width - wrapInt (2 * sliderInt)))
  let dx := wrapInt (dx0 + sliderInt)
  let dy ← Intn r2 (wrapInt (hight - sliderInt))
  pure { sliderInt := sliderInt, hight := hight, dx := dx, dy := dy }

/-- Lines 247-282 of getCode in src/old/main.go. -/
def getCode_slider (width : Int) (r1 r2 r3 : Nat) (cwd : Except GoError GoString)
    (fs : FileSystem) (now stamp : Int) : Except Panic (Except JsonRes SliderInfo) := do
  let p ← OldMain.getCode_plan width r1 r2
  let src ← OldMain.getPic cwd fs r3
  match src.2 with
  | some _ =>
    pure (.error (responseJson stamp (Char.toNat '0') none "服务器图片无法加载，请及时联系管理人员"))
  | none =>
    pure (.ok { BacW := width, BacH := p.hight, SliderW := p.sliderInt, SliderH := p.sliderInt,
                Dx := p.dx, Dy := p.dy, Src := src.1, Time := now })

end OldMain

namespace Server

/-- The challenge record of src/old/server.go (no Time field). -/
structure SliderInfo where
  BacW : Int
  BacH : Int
  SliderW : Int
  SliderH : Int
  Dx : Int
  Dy : Int
  Src : GoString
  deriving DecidableEq, Repr

/-- Lines 109-135 of getCode in src/old/server.go. -/
def getCode_slider (width : Int) (r1 r2 r3 : Nat) : Except Panic Server.SliderInfo := do
  let p ← Server.getCode_plan width r1 r2
  let src ← Server.getPic r3
  pure { BacW := width, BacH := p.hight, SliderW := p.sliderInt, SliderH := p.sliderInt,
         Dx := p.dx, Dy := p.dy, Src := src }

end Server

/-! ## encoding/json.Marshal of a SliderInfo (Go standard library, by its documented behaviour) -/

/-- Lower-case hexadecimal digit, the table of encoding/json. -/
def hexLower (n : Nat) : Byte := if n < 10 then Fin.ofNat (48 + n) else Fin.ofNat (87 + n)

/-- Continuation byte of UTF-8. -/
def isCont (b : Byte) : Bool := 128 ≤ b.val && b.val ≤ 191

/-- Length of the UTF-8 encoding that starts the string, as utf8.DecodeRune accepts it
(no overlong forms, no surrogates, nothing above U+10FFFF); none for an invalid or
truncated encoding, which Go reports as (RuneError, 1). -/
def runeLen : GoString → Option Nat
  | [] => none
  | b0 :: rest =>
    if b0.val < 128 then some 1
    else if 194 ≤ b0.val ∧ b0.val ≤ 223 then
      match rest with
      | b1 :: _ => if isCont b1 then some 2 else none
      | _ => none
    else if 224 ≤ b0.val ∧ b0.val ≤ 239 then
      match rest with
      | b1 :: b2 :: _ =>
        if (if b0.val = 224 then 160 else 128) ≤ b1.val ∧
            b1.val ≤ (if b0.val = 237 then 159 else 191) ∧ isCont b2 then some 3 else none
      | _ => none
    else if 240 ≤ b0.val ∧ b0.val ≤ 244 then
      match rest with
      | b1 :: b2 :: b3 :: _ =>
        if (if b0.val = 240 then 144 else 128) ≤ b1.val ∧
            b1.val ≤ (if b0.val = 244 then 143 else 191) ∧ isCont b2 ∧ isCont b3 then some 4
        else none
      | _ => none
    else none

/-- The loop of utf8.ValidString: every rune of the string is a valid encoding. The
first argument bounds the number of iterations. -/
def validLoop : Nat → GoString → Bool
  | 0, s => s.isEmpty
  | _ + 1, [] => true
  | fuel + 1, b :: rest =>
    match runeLen (b :: rest) with
    | some n => validLoop fuel (rest.drop (n - 1))
    | none => false

/-- Go utf8.ValidString. -/
def validUtf8 (s : GoString) : Bool := validLoop s.length s

/-- The bytes encoding/json writes for one ASCII byte of a string (HTML escaping on):
printable bytes other than the quote, the backslash and the characters of HTML are
copied, the rest is escaped. Releases before Go 1.22 write backspace and form feed as
\u0008 and \u000c, which read back as the same bytes. -/
def escapeAscii (b : Byte) : GoString :=
  if 32 ≤ b.val ∧ b.val ≠ 34 ∧ b.val ≠ 38 ∧ b.val ≠ 60 ∧ b.val ≠ 62 ∧ b.val ≠ 92 then [b]
  else if b.val = 92 ∨ b.val = 34 then [92, b]
  else if b.val = 8 then [92, 98]
  else if b.val = 12 then [92, 102]
  else if b.val = 10 then [92, 110]
  else if b.val = 13 then [92, 114]
  else if b.val = 9 then [92, 116]
  else [92, 117, 48, 48, hexLower (b.val / 16), hexLower (b.val % 16)]

/-- The loop of encoding/json over the bytes of a string: an ASCII byte is written by
escapeAscii, a valid multi-byte rune is copied (U+2028 and U+2029 are escaped), and a
byte that does not start a valid encoding is replaced by the escape of U+FFFD. The first
argument bounds the number of iterations. -/
def quoteLoop : Nat → GoString → GoString
  | 0, _ => []
  | _ + 1, [] => []
  | fuel + 1, b0 :: rest =>
    if b0.val < 128 then escapeAscii b0 ++ quoteLoop fuel rest
    else
      match runeLen (b0 :: rest) with
      | some n =>
        if (b0 :: rest).take 3 = [226, 128, 168] then lit "\\u2028" ++ quoteLoop fuel (rest.drop 2)
        else if (b0 :: rest).take 3 = [226, 128, 169] then
          lit "\\u2029" ++ quoteLoop fuel (rest.drop 2)
        else (b0 :: rest).take n ++ quoteLoop fuel (rest.drop (n - 1))
      | none => lit "\\ufffd" ++ quoteLoop fuel rest

/-- The body of a JSON string literal as encoding/json writes it. -/
def quoteBody (s : GoString) : GoString := quoteLoop s.length s

/-- A JSON string literal. -/
def quote (s : GoString) : GoString := (34 : Byte) :: quoteBody s ++ [34]

namespace Json

/-- Go json.Marshal on a SliderInfo: the fields in declaration order under their tags,
integers in decimal, the string quoted. No value of this type makes Marshal fail. -/
def Marshal (v : SliderInfo) : Except GoError GoString :=
  .ok (lit "\x7b\"BacW\":" ++ Itoa v.BacW ++ lit ",\"BacH\":" ++ Itoa v.BacH ++
    lit ",\"SliderW\":" ++ Itoa v.SliderW ++ lit ",\"SliderH\":" ++ Itoa v.SliderH ++
    lit ",\"Dx\":" ++ Itoa v.Dx ++ lit ",\"Dy\":" ++ Itoa v.Dy ++
    lit ",\"Src\":" ++ quote v.Src ++ lit ",\"Time\":" ++ Itoa v.Time ++ lit "\x7d")

end Json

/-- Value of a hexadecimal digit, none for another byte (ishex and unhex of net/url, getu4 of encoding/json). -/
def unhex (c : Byte) : Option Nat :=
  if 48 ≤ c.val ∧ c.val ≤ 57 then some (c.val - 48)
  else if 97 ≤ c.val ∧ c.val ≤ 102 then some (c.val - 97 + 10)
  else if 65 ≤ c.val ∧ c.val ≤ 70 then some (c.val - 65 + 10)
  else none

/-! ## encoding/json.Unmarshal into a SliderInfo (Go standard library, by its documented
behaviour)

The decoder is modelled on JSON texts whose top-level value is a scalar or an object
with scalar members; a text with a nested array or object is answered with the error
value jsonUnmodelled. Syntax is checked on the whole text before any field is assigned.
-/

namespace Json

/-- JSON white space: space, tab, carriage return, line feed. -/
def isSpace (b : Byte) : Bool := b.val = 32 || b.val = 9 || b.val = 13 || b.val = 10

/-- Drop leading white space. -/
def skipSpace : GoString → GoString
  | [] => []
  | b :: rest => if isSpace b then skipSpace rest else b :: rest

/-- Decimal digit. -/
def isDigit (b : Byte) : Bool := 48 ≤ b.val && b.val ≤ 57

/-- The longest prefix of digits, and what follows it. -/
def takeDigits : GoString → GoString × GoString
  | [] => ([], [])
  | b :: rest =>
    if isDigit b then (b :: (takeDigits rest).1, (takeDigits rest).2) else ([], b :: rest)

/-- The integer part of a number literal: a single 0, or a nonzero digit and more digits. -/
def scanIntPart : GoString → Option (GoString × GoString)
  | [] => none
  | b :: rest =>
    if b.val = 48 then some ([b], rest)
    else if isDigit b then some (b :: (takeDigits rest).1, (takeDigits rest).2)
    else none

/-- The optional fraction of a number literal: a point and at least one digit. -/
def scanFraction : GoString → Option (GoString × GoString)
  | [] => some ([], [])
  | b :: rest =>
    if b.val = 46 then
      if (takeDigits rest).1 = [] then none else some (b :: (takeDigits rest).1, (takeDigits rest).2)
    else some ([], b :: rest)

/-- The optional exponent of a number literal: e or E, an optional sign, at least one
digit. -/
def scanExponent : GoString → Option (GoString × GoString)
  | [] => some ([], [])
  | b :: rest =>
    if b.val = 101 ∨ b.val = 69 then
      match rest with
      | sign :: rest1 =>
        if sign.val = 43 ∨ sign.val = 45 then
          if (takeDigits rest1).1 = [] then none
          else some (b :: sign :: (takeDigits rest1).1, (takeDigits rest1).2)
        else if (takeDigits rest).1 = [] then none
        else some (b :: (takeDigits rest).1, (takeDigits rest).2)
      | [] => none
    else some ([], b :: rest)

/-- A JSON number literal at the head of the text: the literal and what follows it. -/
def scanNumber (s : GoString) : Option (GoString × GoString) :=
  let signed : GoString × GoString :=
    match s with
    | b :: rest => if b.val = 45 then ([b], rest) else ([], s)
    | [] => ([], s)
  match scanIntPart signed.2 with
  | none => none
  | some (ip, r1) =>
    match scanFraction r1 with
    | none => none
    | some (fp, r2) =>
      match scanExponent r2 with
      | none => none
      | some (ep, r3) => some (signed.1 ++ ip ++ fp ++ ep, r3)

/-- Go utf8.EncodeRune on a code point below 0x110000; a surrogate is written as
U+FFFD. -/
def encodeRune (cp : Nat) : GoString :=
  if cp < 128 then [Fin.ofNat cp]
  else if cp < 2048 then [Fin.ofNat (192 + cp / 64), Fin.ofNat (128 + cp % 64)]
  else if 55296 ≤ cp ∧ cp < 57344 then [239, 191, 189]
  else if cp < 65536 then
    [Fin.ofNat (224 + cp / 4096), Fin.ofNat (128 + cp / 64 % 64), Fin.ofNat (128 + cp % 64)]
  else
    [Fin.ofNat (240 + cp / 262144), Fin.ofNat (128 + cp / 4096 % 64),
     Fin.ofNat (128 + cp / 64 % 64), Fin.ofNat (128 + cp % 64)]

/-- Four hexadecimal digits at the head of the text: their value and what follows. -/
def hex4 : GoString → Option (Nat × GoString)
  | a :: b :: c :: d :: rest =>
    match unhex a, unhex b, unhex c, unhex d with
    | some x, some y, some z, some w => some (((x * 16 + y) * 16 + z) * 16 + w, rest)
    | _, _, _, _ => none
  | _ => none

/-- A second escape of the form backslash, u, four hexadecimal digits that denotes a
low surrogate: its value and what follows. -/
def lowSurrogate : GoString → Option (Nat × GoString)
  | bs :: u :: rest =>
    if bs.val = 92 ∧ u.val = 117 then
      match hex4 rest with
      | some (v, rest1) => if 56320 ≤ v ∧ v < 57344 then some (v, rest1) else none
      | none => none
    else none
  | _ => none

/-- The byte denoted by a one-letter escape. -/
def simpleEscape (e : Byte) : Option Byte :=
  if e.val = 34 ∨ e.val = 92 ∨ e.val = 47 then some e
  else if e.val = 98 then some 8
  else if e.val = 102 then some 12
  else if e.val = 110 then some 10
  else if e.val = 114 then some 13
  else if e.val = 116 then some 9
  else none

/-- Put decoded bytes in front of the result of the rest of the literal. -/
def prepend (p : GoString) (r : Option (GoString × GoString)) : Option (GoString × GoString) :=
  r.map (fun x => (p ++ x.1, x.2))

/-- A JSON string literal after its opening quote: the decoded string and what follows
the closing quote; none for a syntax error. Escapes are resolved, invalid UTF-8 is
replaced by U+FFFD, raw control characters are errors. The first argument bounds the
number of iterations. -/
def scanString : Nat → GoString → Option (GoString × GoString)
  | 0, _ => none
  | _ + 1, [] => none
  | fuel + 1, c :: rest =>
    if c.val = 34 then some ([], rest)
    else if c.val = 92 then
      match rest with
      | [] => none
      | e :: rest1 =>
        if e.val = 117 then
          match hex4 rest1 with
          | none => none
          | some (rr, rest2) =>
            if 55296 ≤ rr ∧ rr < 56320 then
              match lowSurrogate rest2 with
              | some (rr1, rest3) =>
                prepend (encodeRune ((rr - 55296) * 1024 + (rr1 - 56320) + 65536))
                  (scanString fuel rest3)
              | none => prepend [239, 191, 189] (scanString fuel rest2)
            else prepend (encodeRune rr) (scanString fuel rest2)
        else
          match simpleEscape e with
          | some b => prepend [b] (scanString fuel rest1)
          | none => none
    else if c.val < 32 then none
    else if c.val < 128 then prepend [c] (scanString fuel rest)
    else
      match runeLen (c :: rest) with
      | some n => prepend ((c :: rest).take n) (scanString fuel (rest.drop (n - 1)))
      | none => prepend [239, 191, 189] (scanString fuel rest)

/-- A scalar JSON value as the decoder sees it. -/
inductive Value where
  | null
  | bool (b : Bool)
  | number (text : GoString)
  | string (s : GoString)
  deriving DecidableEq, Repr

/-- A scalar JSON value at the head of the text, and what follows it; the first byte
decides which kind of value is read. -/
def parseValue (s : GoString) : Except GoError (Value × GoString) :=
  match s with
  | [] => .error .jsonSyntax
  | c :: rest =>
    if c.val = 34 then
      match scanString (rest.length + 1) rest with
      | some (str, rest1) => .ok (.string str, rest1)
      | none => .error .jsonSyntax
    else if c.val = 123 ∨ c.val = 91 then .error .jsonUnmodelled
    else if c.val = 110 then
      if s.take 4 = lit "null" then .ok (.null, s.drop 4) else .error .jsonSyntax
    else if c.val = 116 then
      if s.take 4 = lit "true" then .ok (.bool true, s.drop 4) else .error .jsonSyntax
    else if c.val = 102 then
      if s.take 5 = lit "false" then .ok (.bool false, s.drop 5) else .error .jsonSyntax
    else
      match scanNumber s with
      | some (text, rest1) => .ok (.number text, rest1)
      | none => .error .jsonSyntax

/-- The members of an object, the text standing at the opening quote of a key: key,
colon, value, then a comma and another member, or the closing brace. -/
def parseMembers : Nat → GoString → Except GoError (List (GoString × Value) × GoString)
  | 0, _ => .error .jsonSyntax
  | fuel + 1, s =>
    match s with
    | [] => .error .jsonSyntax
    | q :: rest =>
      if q.val ≠ 34 then .error .jsonSyntax
      else
        match scanString (rest.length + 1) rest with
        | none => .error .jsonSyntax
        | some (k, rest1) =>
          match skipSpace rest1 with
          | [] => .error .jsonSyntax
          | colon :: rest2 =>
            if colon.val ≠ 58 then .error .jsonSyntax
            else
              match parseValue (skipSpace rest2) with
              | .error e => .error e
              | .ok (v, rest3) =>
                match skipSpace rest3 with
                | [] => .error .jsonSyntax
                | sep :: rest4 =>
                  if sep.val = 125 then .ok ([(k, v)], rest4)
                  else if sep.val = 44 then
                    match parseMembers fuel (skipSpace rest4) with
                    | .error e => .error e
                    | .ok (ms, rest5) => .ok ((k, v) :: ms, rest5)
                  else .error .jsonSyntax

/-- Case folding of a key as encoding/json compares it with a field name: ASCII letters
in upper case, and the two letters outside ASCII that Unicode folds onto ASCII letters
(U+017F onto S, U+212A onto K). The first argument bounds the number of iterations. -/
def foldKey : Nat → GoString → GoString
  | 0, _ => []
  | _ + 1, [] => []
  | fuel + 1, a :: rest =>
    if 97 ≤ a.val ∧ a.val ≤ 122 then (a - 32) :: foldKey fuel rest
    else if (a :: rest).take 2 = [197, 191] then (83 : Byte) :: foldKey fuel (rest.drop 1)
    else if (a :: rest).take 3 = [226, 132, 170] then (75 : Byte) :: foldKey fuel (rest.drop 2)
    else a :: foldKey fuel rest

/-- Whether a key selects the field of the given name. -/
def keyIs (k : GoString) (name : String) : Bool :=
  foldKey k.length k = foldKey (lit name).length (lit name)

/-- Store a value in an int field: a number literal is read by strconv.ParseInt, and a
literal it rejects, a string or a boolean is a type error that leaves the field; null
leaves the field without error. -/
def storeInt (old : Int) (v : Value) : Int × Bool :=
  match v with
  | .null => (old, false)
  | .number text =>
    match Atoi text with
    | some n => (n, false)
    | none => (old, true)
  | _ => (old, true)

/-- Store a value in a string field. -/
def storeString (old : GoString) (v : Value) : GoString × Bool :=
  match v with
  | .null => (old, false)
  | .string str => (str, false)
  | _ => (old, true)

/-- One member of the object assigned to the record: the record after it, and whether a
type error occurred. A key that selects no field is skipped. -/
def assign (t : SliderInfo) (k : GoString) (v : Value) : SliderInfo × Bool :=
  if keyIs k "BacW" then ({ t with BacW := (storeInt t.BacW v).1 }, (storeInt t.BacW v).2)
  else if keyIs k "BacH" then ({ t with BacH := (storeInt t.BacH v).1 }, (storeInt t.BacH v).2)
  else if keyIs k "SliderW" then
    ({ t with SliderW := (storeInt t.SliderW v).1 }, (storeInt t.SliderW v).2)
  else if keyIs k "SliderH" then
    ({ t with SliderH := (storeInt t.SliderH v).1 }, (storeInt t.SliderH v).2)
  else if keyIs k "Dx" then ({ t with Dx := (storeInt t.Dx v).1 }, (storeInt t.Dx v).2)
  else if keyIs k "Dy" then ({ t with Dy := (storeInt t.Dy v).1 }, (storeInt t.Dy v).2)
  else if keyIs k "Src" then ({ t with Src := (storeString t.Src v).1 }, (storeString t.Src v).2)
  else if keyIs k "Time" then ({ t with Time := (storeInt t.Time v).1 }, (storeInt t.Time v).2)
  else (t, false)

/-- All members assigned in order; decoding goes on after a type error, and the error
is reported at the end. -/
def assignAll : SliderInfo → List (GoString × Value) → SliderInfo × Bool
  | t, [] => (t, false)
  | t, (k, v) :: ms =>
    ((assignAll (assign t k v).1 ms).1, (assign t k v).2 || (assignAll (assign t k v).1 ms).2)

/-- The members of the object that is the whole text, or the scalar that is. -/
def parseTop (data : GoString) : Except GoError (Option (List (GoString × Value))) :=
  match skipSpace data with
  | [] => .error .jsonSyntax
  | c :: rest =>
    if c.val = 123 then
      match skipSpace rest with
      | [] => .error .jsonSyntax
      | d :: rest1 =>
        if d.val = 125 then
          if skipSpace rest1 = [] then .ok (some []) else .error .jsonSyntax
        else
          match parseMembers (rest.length + 1) (d :: rest1) with
          | .error e => .error e
          | .ok (ms, rest2) => if skipSpace rest2 = [] then .ok (some ms) else .error .jsonSyntax
    else
      match parseValue (c :: rest) with
      | .error e => .error e
      | .ok (v, rest1) =>
        if skipSpace rest1 = [] then (if v = .null then .ok (some []) else .ok none)
        else .error .jsonSyntax

/-- Go json.Unmarshal(data, &target) for a target of type SliderInfo: the target after
the call and the error returned. -/
def Unmarshal (data : GoString) (target : SliderInfo) : SliderInfo × Option GoError :=
  match parseTop data with
  | .error e => (target, some e)
  | .ok none => (target, some .jsonType)
  | .ok (some ms) =>
    ((assignAll target ms).1, if (assignAll target ms).2 then some .jsonType else none)

end Json

/-! ## net/url escaping (Go standard library, by its documented behaviour) -/

/-- Upper-case hexadecimal digit, the table of net/url. -/
def hexUpper (n : Nat) : Byte := if n < 10 then Fin.ofNat (48 + n) else Fin.ofNat (55 + n)

/-- Bytes that url.QueryEscape leaves alone: letters, digits, and the marks - _ . ~ -/
def unreserved (c : Byte) : Bool :=
  (97 ≤ c.val && c.val ≤ 122) || (65 ≤ c.val && c.val ≤ 90) || (48 ≤ c.val && c.val ≤ 57) ||
    c.val = 45 || c.val = 95 || c.val = 46 || c.val = 126

/-- Go url.QueryEscape: a space becomes +, other bytes outside the unreserved set
become a percent sign and two upper-case hexadecimal digits. -/
def QueryEscape (s : GoString) : GoString :=
  s.flatMap (fun c =>
    if unreserved c then [c]
    else if c.val = 32 then [43]
    else [37, hexUpper (c.val / 16), hexUpper (c.val % 16)])

/-- Go url.QueryUnescape: + becomes a space, a percent sign must be followed by two
hexadecimal digits and becomes the byte they denote; none stands for the EscapeError. -/
def QueryUnescape : GoString → Option GoString
  | [] => some []
  | c :: rest =>
    if c.val = 37 then
      match rest with
      | h :: l :: rest2 =>
        match unhex h, unhex l with
        | some x, some y => (QueryUnescape rest2).map (fun t => Fin.ofNat (x * 16 + y) :: t)
        | _, _ => none
      | _ => none
    else if c.val = 43 then (QueryUnescape rest).map (fun t => (32 : Byte) :: t)
    else (QueryUnescape rest).map (fun t => c :: t)

/-- The value c.Query gives for the parameter s when the query string of the request
carries the raw text for it: the unescaped text, or the empty string when the escaping is
malformed (the parameter is then dropped by the URL parser). -/
def Query (raw : GoString) : GoString := (QueryUnescape raw).getD []

/-! ## The token cipher -/

/-- Modelled from the spec: AesEncryptCBC and AesDecryptCBC are functions of this
repository that are not among its source files; only their calls are (each takes the text
and the key and returns a string). The spec describes them as encryption with a symmetric
block cipher in CBC mode under the fixed key, with decoding the reverse of encoding. -/
structure Cipher where
  AesEncryptCBC : GoString → GoString → GoString
  AesDecryptCBC : GoString → GoString → GoString

/-- Modelled from the spec: decryption under a key reverses encryption under it. -/
def Cipher.Reverses (aes : Cipher) : Prop :=
  ∀ text k : GoString, aes.AesDecryptCBC (aes.AesEncryptCBC text k) k = text

/-- The fixed key, src/new/main.go 59. -/
def key : GoString := lit "ABCDEFGHIJKLMNO1"

/-! ## getCode -/

/-- Transcription of getCode, src/new/main.go 94-151. The arguments are the cipher, the
form value of width, the three draws of the generator (two in getCode, one in getPic),
the directory of the executable, the file system, and the clock at the two calls of
time.Now (now for the record, stamp for the envelope). The result is the envelope written
to the client, or a panic. -/
def getCode (aes : Cipher) (form : Option GoString) (r1 r2 r3 : Nat) (dir : GoString)
    (fs : FileSystem) (now stamp : Int) : Except Panic JsonRes := do
  let width := getCode_width form
  let planned ← getCode_slider width r1 r2 r3 dir fs now stamp
  match planned with
  | .error res => pure res
  | .ok slider =>
    match Json.Marshal slider with
    | .error _ => pure (responseJson stamp (Char.toNat '0') none "数据错误")
    | .ok source =>
      let sign := aes.AesEncryptCBC source key
      let s := QueryEscape sign
      pure (responseJson stamp 1
        (some { x := Itoa slider.Dx, y := Itoa slider.Dy, sign := s }) "调用成功")

/-! ## Decoding a token: myUnmarshal and getSliderInfo -/

/-- The zero value of SliderInfo. -/
def SliderInfo.zero : SliderInfo :=
  { BacW := 0, BacH := 0, SliderW := 0, SliderH := 0, Dx := 0, Dy := 0, Src := [], Time := 0 }

/-- A JSON decoder into a SliderInfo: from the input and the target before the call to
the target after the call and the error returned. -/
abbrev Unmarshaler := GoString → SliderInfo → SliderInfo × Option GoError

/-- Transcription of myUnmarshal, src/new/main.go 252-258; the JSON parser it hands
over to is the argument unmarshal. -/
def myUnmarshal (unmarshal : Unmarshaler) (input : GoString) (target : SliderInfo) :
    SliderInfo × Option GoError :=
  if input.length = 0 then (target, none)
  else unmarshal input target

/-- Transcription of getSliderInfo, src/new/main.go 236-249; s is the value of
c.Query for the parameter s. The result is the pair (slider, err). -/
def getSliderInfo (aes : Cipher) (unmarshal : Unmarshaler) (s : GoString) :
    SliderInfo × Option GoError :=
  let sign := aes.AesDecryptCBC s key
  let slider := SliderInfo.zero
  myUnmarshal unmarshal sign slider

/-! ## Images: image, image/draw, image/png (Go standard library, by their documented
behaviour) -/

/-- Go image.Point. -/
structure Point where
  X : Int
  Y : Int
  deriving DecidableEq, Repr

/-- Go image.Rectangle: the points with Min.X ≤ x < Max.X and Min.Y ≤ y < Max.Y. -/
structure Rectangle where
  Min : Point
  Max : Point
  deriving DecidableEq, Repr

/-- Go image.Rect: the rectangle with the given corners, put in canonical order. -/
def Rect (x0 y0 x1 y1 : Int) : Rectangle :=
  { Min := { X := if x0 > x1 then x1 else x0, Y := if y0 > y1 then y1 else y0 }
    Max := { X := if x0 > x1 then x0 else x1, Y := if y0 > y1 then y0 else y1 } }

namespace Rectangle

/-- Width of a rectangle. -/
def Dx (r : Rectangle) : Int := wrapInt (r.Max.X - r.Min.X)

/-- Height of a rectangle. -/
def Dy (r : Rectangle) : Int := wrapInt (r.Max.Y - r.Min.Y)

/-- Whether a rectangle holds no point. -/
def Empty (r : Rectangle) : Bool := r.Min.X ≥ r.Max.X || r.Min.Y ≥ r.Max.Y

/-- Whether the point (x, y) lies in the rectangle. -/
def Contains (r : Rectangle) (x y : Int) : Bool :=
  r.Min.X ≤ x && x < r.Max.X && r.Min.Y ≤ y && y < r.Max.Y

/-- Go Rectangle.Intersect: the largest rectangle inside both, the zero rectangle when
that is empty. -/
def Intersect (r s : Rectangle) : Rectangle :=
  let t : Rectangle :=
    { Min := { X := if r.Min.X < s.Min.X then s.Min.X else r.Min.X,
               Y := if r.Min.Y < s.Min.Y then s.Min.Y else r.Min.Y }
      Max := { X := if r.Max.X > s.Max.X then s.Max.X else r.Max.X,
               Y := if r.Max.Y > s.Max.Y then s.Max.Y else r.Max.Y } }
  if t.Empty then { Min := ⟨0, 0⟩, Max := ⟨0, 0⟩ } else t

/-- Go Rectangle.Add: translation by a point. -/
def Add (r : Rectangle) (p : Point) : Rectangle :=
  { Min := { X := wrapInt (r.Min.X + p.X), Y := wrapInt (r.Min.Y + p.Y) }
    Max := { X := wrapInt (r.Max.X + p.X), Y := wrapInt (r.Max.Y + p.Y) } }

end Rectangle

/-- One stored pixel: four 8-bit channels (only A is used by an image.Alpha). -/
structure Pixel where
  R : Byte
  G : Byte
  B : Byte
  A : Byte
  deriving DecidableEq, Repr

/-- The zero pixel of a freshly allocated image. -/
def Pixel.zero : Pixel := { R := 0, G := 0, B := 0, A := 0 }

/-- An in-memory image (image.NRGBA, image.RGBA or image.Alpha): its bounds and the
pixel stored at each point of them. -/
structure Image where
  Bounds : Rectangle
  pix : Int → Int → Pixel

/-- The largest size in bytes that make accepts on a 64-bit platform (maxAlloc of the Go
runtime, 2^48); above it make panics with makeslice: len out of range. -/
def maxAlloc : Int := 281474976710656

/-- Go mul3NonNeg of package image: the product x * y * z, or -1 when an argument is
negative, when x * y does not fit 64 unsigned bits, or when the product does not fit
the int. -/
def mul3NonNeg (x y z : Int) : Int :=
  if x < 0 ∨ y < 0 ∨ z < 0 then -1
  else if x * y ≥ 18446744073709551616 then -1
  else if x * y * z > maxInt then -1
  else x * y * z

/-- Go image.NewRGBA (bytesPerPixel = 4) and image.NewAlpha (bytesPerPixel = 1): the
length of the pixel buffer is mul3NonNeg of the bytes per pixel, the width and the height;
a negative length is the panic of pixelBufferLength, a length above maxAlloc the panic of
make, and a length above mem, the number of bytes the runtime can obtain for the buffer
when the handler runs, its fatal out-of-memory error. Otherwise the image is zeroed. -/
def newImage (mem : Int) (bytesPerPixel : Int) (r : Rectangle) : Except Panic Image :=
  let totalLength := mul3NonNeg bytesPerPixel r.Dx r.Dy
  if totalLength < 0 then .error .hugeImage
  else if totalLength > maxAlloc then .error .makesliceLenOutOfRange
  else if totalLength > mem then .error .outOfMemory
  else .ok { Bounds := r, pix := fun _ _ => Pixel.zero }

/-- Go image.NewRGBA. -/
def NewRGBA (mem : Int) (r : Rectangle) : Except Panic Image := newImage mem 4 r

/-- Go image.NewAlpha. -/
def NewAlpha (mem : Int) (r : Rectangle) : Except Panic Image := newImage mem 1 r

/-- One pixel of draw.Draw with op Src from an image.NRGBA into an image.RGBA
(drawNRGBASrc): the colour is converted to alpha-premultiplied form. -/
def drawNRGBASrc (_d s : Pixel) : Pixel :=
  let sa := s.A.val * 257
  { R := Fin.ofNat (s.R.val * sa / 255 / 256), G := Fin.ofNat (s.G.val * sa / 255 / 256),
    B := Fin.ofNat (s.B.val * sa / 255 / 256), A := Fin.ofNat (sa / 256) }

/-- One pixel of draw.Draw with op Over from an image.Alpha into an image.RGBA (the
generic loop drawRGBA, without mask): the source colour has all four 16-bit channels
equal to the alpha value times 257, and m = 65535. -/
def drawAlphaOver (d s : Pixel) : Pixel :=
  let m := 65535
  let sa := s.A.val * 257
  let a := (m - sa * m / m) * 257
  { R := Fin.ofNat ((d.R.val * a + sa * m) / m / 256),
    G := Fin.ofNat ((d.G.val * a + sa * m) / m / 256),
    B := Fin.ofNat ((d.B.val * a + sa * m) / m / 256),
    A := Fin.ofNat ((d.A.val * a + sa * m) / m / 256) }

/-- Go draw.Draw(dst, r, src, sp, op), with op given by its action on one pixel: r is
clipped to the bounds of dst and to the bounds of src moved by r.Min - sp; every point
of the clipped rectangle receives op of its old value and of the source pixel at the
point moved by sp - r.Min; other points keep their value. -/
def Draw (dst : Image) (r : Rectangle) (src : Image) (sp : Point) (op : Pixel → Pixel → Pixel) :
    Image :=
  let orig := r.Min
  let delta : Point := { X := wrapInt (orig.X - sp.X), Y := wrapInt (orig.Y - sp.Y) }
  let clipped := (r.Intersect dst.Bounds).Intersect (src.Bounds.Add delta)
  if clipped.Empty then dst
  else
    { Bounds := dst.Bounds
      pix := fun x y =>
        if clipped.Contains x y then
          op (dst.pix x y) (src.pix (wrapInt (x - delta.X)) (wrapInt (y - delta.Y)))
        else dst.pix x y }

/-- What a handler writes to the client. -/
inductive Response where
  | json (res : JsonRes)
  | png (img : Image)
  | nothing

/-- Go png.Encode: an image whose width or height is not in [1, 2^32) is rejected with
an error, which the handlers ignore, so that nothing is written; any other image is
written losslessly. -/
def pngEncode (m : Image) : Response :=
  if m.Bounds.Dx ≤ 0 ∨ m.Bounds.Dy ≤ 0 ∨ m.Bounds.Dx ≥ 4294967296 ∨ m.Bounds.Dy ≥ 4294967296 then
    .nothing
  else .png m

/-- The resampling function imaging.Resize(img, width, height, imaging.Lanczos) of the
library github.com/disintegration/imaging; it computes in floating point and is an
argument of the handlers. -/
abbrev Resizer := Image → Int → Int → Image

/-! ## The rendering handlers -/

/-- Lines 171-176 of responseSlider, src/new/main.go: what happens once the token is
decoded and the picture is loaded; mem is the memory that image.NewRGBA can obtain. -/
def responseSlider_draw (mem : Int) (Resize : Resizer) (img : Image) (slider : SliderInfo) :
    Except Panic Response := do
  let img := Resize img slider.BacW slider.BacH
  let rgba ← NewRGBA mem (Rect 0 0 slider.SliderW slider.SliderH)
  let rgba := Draw rgba rgba.Bounds img { X := slider.Dx, Y := slider.Dy } drawNRGBASrc
  pure (pngEncode rgba)

/-- Transcription of responseSlider, src/new/main.go 154-177; s is the value of
c.Query for the parameter s, getImg the loader of src/new/main.go 219-233 (os.Open and
png.Decode on the file system). -/
def responseSlider (mem : Int) (aes : Cipher) (unmarshal : Unmarshaler)
    (getImg : GoString → Except GoError Image) (Resize : Resizer) (stamp : Int) (s : GoString) :
    Except Panic Response :=
  match getSliderInfo aes unmarshal s with
  | (_, some _) => pure (.json (responseJson stamp 0 none "请求参数s签名不正确"))
  | (slider, none) =>
    match getImg slider.Src with
    | .error _ => pure (.json (responseJson stamp 0 none "文件查询不到"))
    | .ok img => responseSlider_draw mem Resize img slider

/-- The mask of responseSliderBac, lines 201-206: a new image.Alpha of the size of the
piece in which the two loops set alpha 100 at every point of [0, SliderW) x [0, SliderH)
(Set ignores points outside the bounds). -/
def sliderMask (mem : Int) (slider : SliderInfo) : Except Panic Image := do
  let alpha ← NewAlpha mem (Rect 0 0 slider.SliderW slider.SliderH)
  pure { Bounds := alpha.Bounds
         pix := fun x y =>
           if 0 ≤ x ∧ x < slider.SliderW ∧ 0 ≤ y ∧ y < slider.SliderH ∧
               alpha.Bounds.Contains x y then
             { R := 0, G := 0, B := 0, A := Fin.ofNat (100 % 256) }
           else alpha.pix x y }

/-- Lines 198-215 of responseSliderBac, src/new/main.go; mem is the memory that
image.NewAlpha and image.NewRGBA can obtain. -/
def responseSliderBac_draw (mem : Int) (Resize : Resizer) (img : Image) (slider : SliderInfo) :
    Except Panic Response := do
  let img := Resize img slider.BacW slider.BacH
  let alpha ← sliderMask mem slider
  let dist ← NewRGBA mem (Rect 0 0 slider.BacW slider.BacH)
  let siiderRect := Rect slider.Dx slider.Dy (wrapInt (slider.Dx + slider.SliderW))
    (wrapInt (slider.Dy + slider.SliderH))
  let dist := Draw dist dist.Bounds img { X := 0, Y := 0 } drawNRGBASrc
  let dist := Draw dist siiderRect alpha { X := 0, Y := 0 } drawAlphaOver
  pure (pngEncode dist)

/-- Transcription of responseSliderBac, src/new/main.go 180-216. -/
def responseSliderBac (mem : Int) (aes : Cipher) (unmarshal : Unmarshaler)
    (getImg : GoString → Except GoError Image) (Resize : Resizer) (stamp : Int) (s : GoString) :
    Except Panic Response :=
  match getSliderInfo aes unmarshal s with
  | (_, some _) => pure (.json (responseJson stamp 0 none "请求参数s签名不正确"))
  | (slider, none) =>
    match getImg slider.Src with
    | .error _ => pure (.json (responseJson stamp 0 none "文件查询不到"))
    | .ok img => responseSliderBac_draw mem Resize img slider

/-- Whether the notch rectangle [Dx, Dx+SliderW) x [Dy, Dy+SliderH) lies inside the
canvas [0, BacW) x [0, BacH). -/
def notchInCanvas (slider : SliderInfo) : Prop :=
  0 ≤ slider.Dx ∧ slider.Dx + slider.SliderW ≤ slider.BacW ∧
  0 ≤ slider.Dy ∧ slider.Dy + slider.SliderH ≤ slider.BacH

instance (slider : SliderInfo) : Decidable (notchInCanvas slider) := by
  unfold notchInCanvas; infer_instance

/-- The pixel an image.RGBA stores for the colour color.Alpha{100}, whose RGBA method
gives all four channels the alpha value: what the notch would hold if the mask replaced
the picture there (draw.Src) instead of being blended over it. -/
def maskAlone : Pixel := { R := 100, G := 100, B := 100, A := 100 }

/-- The blend of one channel in the words of the specification, mask + original *
(255 - 100) / 255, in the arithmetic of image/draw: both values on the 16-bit scale (an
8-bit value times 257), the upper eight bits of the sum stored. -/
def specBlendChannel (c : Byte) : Byte :=
  Fin.ofNat ((100 * 257 + c.val * 257 * (255 - 100) / 255) / 256)

/-- The source-over blend of the mask of alpha 100/255 over an original pixel, in the
words of the specification, channel by channel. -/
def specBlend (o : Pixel) : Pixel :=
  { R := specBlendChannel o.R, G := specBlendChannel o.G, B := specBlendChannel o.B,
    A := specBlendChannel o.A }

/-! ## Sample inputs -/

/-- A directory /app/img with two pictures, a text file and a sub-directory, listed in
the order of their names. -/
def samplePool : FileSystem := fun path =>
  if path = lit "/app/img" then
    some [⟨lit "a.png", false⟩, ⟨lit "b.png", false⟩, ⟨lit "notes.txt", false⟩, ⟨lit "old.png", true⟩]
  else none

/-- A directory /app/img with two pictures, listed in the order of their names:
caf\xe9s.png, a name in Latin-1 that is not valid UTF-8, comes before d.png. -/
def latin1Pool : FileSystem := fun path =>
  if path = lit "/app/img" then
    some [⟨lit "caf" ++ [233] ++ lit "s.png", false⟩, ⟨lit "d.png", false⟩]
  else none

/-- A directory /app/img that holds exactly one picture. -/
def singlePool : FileSystem := fun path =>
  if path = lit "/app/img" then some [⟨lit "a.png", false⟩] else none

/-- One gibibyte: the memory the runtime can obtain in the sample runs. -/
def sampleMem : Int := 1073741824

/-- A source picture of two by two pixels. -/
def sampleImage : Image :=
  { Bounds := Rect 0 0 2 2
    pix := fun x y => { R := Fin.ofNat (200 + x.toNat), G := Fin.ofNat (100 + y.toNat),
                        B := 50, A := 255 } }

/-- A stand-in for imaging.Resize on sample inputs: nearest-neighbour sampling to the
requested size (the library resamples with a Lanczos filter in floating point). -/
def sampleResize : Resizer := fun img width height =>
  { Bounds := Rect 0 0 width height
    pix := fun x y => img.pix (x * img.Bounds.Dx / width) (y * img.Bounds.Dy / height) }

/-- A decoded geometry whose notch sticks out of the canvas on the right and below. -/
def outsideNotch : SliderInfo :=
  { BacW := 400, BacH := 200, SliderW := 50, SliderH := 50, Dx := 380, Dy := 180,
    Src := lit "/app/img/a.png", Time := 1700000000 }

/-- A source picture of two by two pixels, all of them fully transparent. -/
def transparentImage : Image :=
  { Bounds := Rect 0 0 2 2
    pix := fun _ _ => { R := 201, G := 101, B := 50, A := 0 } }

/-- A decoded geometry whose notch of 50 x 50 pixels lies inside the canvas. -/
def insideNotch : SliderInfo :=
  { BacW := 400, BacH := 200, SliderW := 50, SliderH := 50, Dx := 284, Dy := 127,
    Src := lit "/app/img/a.png", Time := 1700000000 }

/-- A decoded geometry whose notch is empty: a piece of 0 x 0 pixels at (284, 127). -/
def emptyNotch : SliderInfo :=
  { BacW := 400, BacH := 200, SliderW := 0, SliderH := 0, Dx := 284, Dy := 127,
    Src := lit "/app/img/a.png", Time := 1700000000 }

/-- The envelope of a getCode request that finds no readable picture directory. -/
def failureEnvelope : JsonRes :=
  { Status := 48, Data := none, Msg := "服务器图片无法加载，请及时联系管理人员",
    TimeStamp := 1700000001 }

/-- A stand-in cipher for evaluating the handlers on sample inputs: it adds the first
byte of the key to every byte of the text, and subtracts it again. -/
def sampleCipher : Cipher :=
  { AesEncryptCBC := fun text k => text.map (fun b => b + k.headD 0)
    AesDecryptCBC := fun text k => text.map (fun b => b - k.headD 0) }

/-! # Theorems -/

set_option maxRecDepth 20000

theorem wrapInt_eq (x : Int) (h1 : -9223372036854775808 ≤ x) (h2 : x ≤ 9223372036854775807) :
    wrapInt x = x := by
  unfold wrapInt; omega

theorem wrapInt_range (x : Int) :
    -9223372036854775808 ≤ wrapInt x ∧ wrapInt x ≤ 9223372036854775807 := by
  unfold wrapInt; omega

theorem tdiv_400 (a : Int) :
    Int.tdiv a 400 = if 0 ≤ a then a / 400 else -((-a) / 400) := by
  split
  · rename_i h
    exact Int.tdiv_eq_ediv h (by decide)
  · rename_i h
    have h1 : a = -(-a) := by omega
    rw [h1, Int.neg_tdiv, Int.tdiv_eq_ediv (by omega) (by decide)]
    simp

theorem goDiv_400 (a : Int) (h1 : -9223372036854775808 ≤ a) (h2 : a ≤ 9223372036854775807) :
    goDiv a 400 = if 0 ≤ a then a / 400 else -((-a) / 400) := by
  unfold goDiv
  rw [tdiv_400]
  split <;> (apply wrapInt_eq <;> omega)

theorem Intn_ok (r : Nat) (n : Int) (h : 0 < n) :
    Intn r n = .ok ((r : Int) % n) ∧ 0 ≤ (r : Int) % n ∧ (r : Int) % n < n := by
  refine ⟨?_, Int.emod_nonneg _ (by omega), Int.emod_lt_of_pos _ h⟩
  unfold Intn
  rw [if_neg (by omega)]

theorem Intn_error (r : Nat) (n : Int) (h : n ≤ 0) : Intn r n = .error .intnInvalidArgument := by
  unfold Intn
  rw [if_pos h]

theorem getSliderSize_cases (w : Int) :
    (w < 200 ∧ getSliderSize w = 30) ∨ (200 ≤ w ∧ w < 300 ∧ getSliderSize w = 40) ∨
      (300 ≤ w ∧ getSliderSize w = 50) := by
  unfold getSliderSize
  split_ifs <;> omega

theorem getCode_hight_nonneg (w : Int) (h0 : 0 ≤ w) (hhi : 200 * w ≤ maxInt) :
    getCode_hight w = 200 * w / 400 := by
  unfold maxInt at hhi
  unfold getCode_hight bacH bacW
  rw [wrapInt_eq _ (by omega) (by omega), goDiv_400 _ (by omega) (by omega), if_pos (by omega)]

theorem getCode_plan_inv (w : Int) (r1 r2 : Nat) (p : Plan) (hw : isInt w)
    (h : getCode_plan w r1 r2 = .ok p) :
    p.sliderInt = getSliderSize w ∧ p.hight = getCode_hight w ∧ 62 ≤ w ∧
      p.sliderInt ≤ p.dx ∧ p.dx < w - p.sliderInt ∧ 0 ≤ p.dy ∧ p.dy < p.hight - p.sliderInt := by
  unfold isInt minInt maxInt at hw
  obtain ⟨hw1, hw2⟩ := hw
  have hs : getSliderSize w = 30 ∨ getSliderSize w = 40 ∨ getSliderSize w = 50 := by
    rcases getSliderSize_cases w with h | h | h <;> omega
  have hs30 : w < 200 → getSliderSize w = 30 := by
    rcases getSliderSize_cases w with h | h | h <;> omega
  have e1 : wrapInt (2 * getSliderSize w) = 2 * getSliderSize w := wrapInt_eq _ (by omega) (by omega)
  have hr := wrapInt_range (200 * w)
  have hh : getCode_hight w = if 0 ≤ wrapInt (200 * w) then wrapInt (200 * w) / 400
      else -((-wrapInt (200 * w)) / 400) := by
    unfold getCode_hight bacH bacW
    exact goDiv_400 _ hr.1 hr.2
  unfold getCode_plan at h
  dsimp only at h
  rw [e1] at h
  by_cases n1 : wrapInt (w - 2 * getSliderSize w) ≤ 0
  · rw [Intn_error _ _ n1] at h
    simp [bind, Except.bind] at h
  rw [(Intn_ok r1 _ (not_le.mp n1)).1] at h
  simp only [bind, Except.bind] at h
  by_cases n2 : wrapInt (getCode_hight w - getSliderSize w) ≤ 0
  · rw [Intn_error _ _ n2] at h
    simp at h
  rw [(Intn_ok r2 _ (not_le.mp n2)).1] at h
  simp only [pure, Except.pure, Except.ok.injEq] at h
  have hhr : -23058430092136940 ≤ getCode_hight w ∧ getCode_hight w ≤ 23058430092136940 := by
    rw [hh]; split <;> omega
  have e3 : wrapInt (getCode_hight w - getSliderSize w) = getCode_hight w - getSliderSize w :=
    wrapInt_eq _ (by omega) (by omega)
  have n2p : 0 < getCode_hight w - getSliderSize w := by rw [e3] at n2; omega
  have hbig : -9223372036854775808 ≤ w - 2 * getSliderSize w := by
    by_contra hc
    have h30 := hs30 (by omega)
    have hk : wrapInt (200 * w) = 200 * (w + 9223372036854775808) := by
      unfold wrapInt; omega
    rw [hk, if_pos (by omega)] at hh
    omega
  have e2 : wrapInt (w - 2 * getSliderSize w) = w - 2 * getSliderSize w :=
    wrapInt_eq _ hbig (by omega)
  have n1p : 0 < w - 2 * getSliderSize w := by rw [e2] at n1; omega
  have i1a := Int.emod_nonneg (r1 : Int) (ne_of_gt n1p)
  have i1b := Int.emod_lt_of_pos (r1 : Int) n1p
  have i2a := Int.emod_nonneg (r2 : Int) (ne_of_gt n2p)
  have i2b := Int.emod_lt_of_pos (r2 : Int) n2p
  have e4 : wrapInt ((r1 : Int) % (w - 2 * getSliderSize w) + getSliderSize w) =
      (r1 : Int) % (w - 2 * getSliderSize w) + getSliderSize w := wrapInt_eq _ (by omega) (by omega)
  have hsmall : 0 ≤ w → w ≤ 61 → wrapInt (200 * w) = 200 * w := fun h0 h1 =>
    wrapInt_eq _ (by omega) (by omega)
  rw [e2, e4, e3] at h
  subst h
  refine ⟨rfl, rfl, ?_, ?_, ?_, ?_, ?_⟩ <;> dsimp only <;> omega


theorem server_getCode_plan_inv (w : Int) (r1 r2 : Nat) (p : Plan) (hw : isInt w)
    (h : Server.getCode_plan w r1 r2 = .ok p) :
    p.sliderInt = getSliderSize w ∧ p.hight = getCode_hight w ∧ 62 ≤ w ∧
      0 ≤ p.dx ∧ p.dx < w - p.sliderInt ∧ 0 ≤ p.dy ∧ p.dy < p.hight - p.sliderInt := by
  unfold isInt minInt maxInt at hw
  obtain ⟨hw1, hw2⟩ := hw
  have hs : getSliderSize w = 30 ∨ getSliderSize w = 40 ∨ getSliderSize w = 50 := by
    rcases getSliderSize_cases w with h | h | h <;> omega
  have hs30 : w < 200 → getSliderSize w = 30 := by
    rcases getSliderSize_cases w with h | h | h <;> omega
  have hr := wrapInt_range (200 * w)
  have hh : getCode_hight w = if 0 ≤ wrapInt (200 * w) then wrapInt (200 * w) / 400
      else -((-wrapInt (200 * w)) / 400) := by
    unfold getCode_hight bacH bacW
    exact goDiv_400 _ hr.1 hr.2
  change (do
    let dx ← Intn r1 (wrapInt (w - getSliderSize w))
    let dy ← Intn r2 (wrapInt (getCode_hight w - getSliderSize w))
    pure ({ sliderInt := getSliderSize w, hight := getCode_hight w, dx := dx, dy := dy } : Plan)) =
      Except.ok p at h
  by_cases n1 : wrapInt (w - getSliderSize w) ≤ 0
  · rw [Intn_error _ _ n1] at h
    simp [bind, Except.bind] at h
  rw [(Intn_ok r1 _ (not_le.mp n1)).1] at h
  simp only [bind, Except.bind] at h
  by_cases n2 : wrapInt (getCode_hight w - getSliderSize w) ≤ 0
  · rw [Intn_error _ _ n2] at h
    simp at h
  rw [(Intn_ok r2 _ (not_le.mp n2)).1] at h
  simp only [pure, Except.pure, Except.ok.injEq] at h
  have hhr : -23058430092136940 ≤ getCode_hight w ∧ getCode_hight w ≤ 23058430092136940 := by
    rw [hh]; split <;> omega
  have e3 : wrapInt (getCode_hight w - getSliderSize w) = getCode_hight w - getSliderSize w :=
    wrapInt_eq _ (by omega) (by omega)
  have n2p : 0 < getCode_hight w - getSliderSize w := by rw [e3] at n2; omega
  have hbig : -9223372036854775808 ≤ w - getSliderSize w := by
    by_contra hc
    have h30 := hs30 (by omega)
    have hk : wrapInt (200 * w) = 200 * (w + 9223372036854775808) := by
      unfold wrapInt; omega
    rw [hk, if_pos (by omega)] at hh
    omega
  have e2 : wrapInt (w - getSliderSize w) = w - getSliderSize w :=
    wrapInt_eq _ hbig (by omega)
  have n1p : 0 < w - getSliderSize w := by rw [e2] at n1; omega
  have i1a := Int.emod_nonneg (r1 : Int) (ne_of_gt n1p)
  have i1b := Int.emod_lt_of_pos (r1 : Int) n1p
  have i2a := Int.emod_nonneg (r2 : Int) (ne_of_gt n2p)
  have i2b := Int.emod_lt_of_pos (r2 : Int) n2p
  have hsmall : 0 ≤ w → w ≤ 61 → wrapInt (200 * w) = 200 * w := fun h0 h1 =>
    wrapInt_eq _ (by omega) (by omega)
  rw [e2, e3] at h
  subst h
  refine ⟨rfl, rfl, ?_, ?_, ?_, ?_, ?_⟩ <;> dsimp only <;> omega

theorem getCode_slider_inv (w : Int) (r1 r2 r3 : Nat) (dir : GoString) (fs : FileSystem)
    (now stamp : Int) (G : SliderInfo)
    (h : getCode_slider w r1 r2 r3 dir fs now stamp = .ok (.ok G)) :
    ∃ p, getCode_plan w r1 r2 = .ok p ∧ G.BacW = w ∧ G.BacH = p.hight ∧
      G.SliderW = p.sliderInt ∧ G.SliderH = p.sliderInt ∧ G.Dx = p.dx ∧ G.Dy = p.dy ∧
      G.Time = now := by
  unfold getCode_slider at h
  cases hp : getCode_plan w r1 r2 with
  | error e => rw [hp] at h; simp [bind, Except.bind] at h
  | ok p =>
    rw [hp] at h
    cases hg : getPic dir fs r3 with
    | error e => rw [hg] at h; simp [bind, Except.bind] at h
    | ok src =>
      rw [hg] at h
      simp only [bind, Except.bind] at h
      cases he : src.2 with
      | some e => rw [he] at h; simp [pure, Except.pure] at h
      | none =>
        rw [he] at h
        simp only [pure, Except.pure, Except.ok.injEq] at h
        subst h
        exact ⟨p, rfl, rfl, rfl, rfl, rfl, rfl, rfl, rfl⟩

theorem oldMain_getCode_slider_inv (w : Int) (r1 r2 r3 : Nat) (cwd : Except GoError GoString)
    (fs : FileSystem) (now stamp : Int) (G : SliderInfo)
    (h : OldMain.getCode_slider w r1 r2 r3 cwd fs now stamp = .ok (.ok G)) :
    ∃ p, getCode_plan w r1 r2 = .ok p ∧ G.BacW = w ∧ G.BacH = p.hight ∧
      G.SliderW = p.sliderInt ∧ G.SliderH = p.sliderInt ∧ G.Dx = p.dx ∧ G.Dy = p.dy := by
  unfold OldMain.getCode_slider at h
  have hsame : OldMain.getCode_plan w r1 r2 = getCode_plan w r1 r2 := rfl
  rw [hsame] at h
  cases hp : getCode_plan w r1 r2 with
  | error e => rw [hp] at h; simp [bind, Except.bind] at h
  | ok p =>
    rw [hp] at h
    cases hg : OldMain.getPic cwd fs r3 with
    | error e => rw [hg] at h; simp [bind, Except.bind] at h
    | ok src =>
      rw [hg] at h
      simp only [bind, Except.bind] at h
      cases he : src.2 with
      | some e => rw [he] at h; simp [pure, Except.pure] at h
      | none =>
        rw [he] at h
        simp only [pure, Except.pure, Except.ok.injEq] at h
        subst h
        exact ⟨p, rfl, rfl, rfl, rfl, rfl, rfl, rfl⟩

theorem server_getCode_slider_inv (w : Int) (r1 r2 r3 : Nat) (G : Server.SliderInfo)
    (h : Server.getCode_slider w r1 r2 r3 = .ok G) :
    ∃ p, Server.getCode_plan w r1 r2 = .ok p ∧ G.BacW = w ∧ G.BacH = p.hight ∧
      G.SliderW = p.sliderInt ∧ G.SliderH = p.sliderInt ∧ G.Dx = p.dx ∧ G.Dy = p.dy := by
  unfold Server.getCode_slider at h
  cases hp : Server.getCode_plan w r1 r2 with
  | error e => rw [hp] at h; simp [bind, Except.bind] at h
  | ok p =>
    rw [hp] at h
    cases hg : Server.getPic r3 with
    | error e => rw [hg] at h; simp [bind, Except.bind] at h
    | ok src =>
      rw [hg] at h
      simp only [bind, Except.bind, pure, Except.pure, Except.ok.injEq] at h
      subst h
      exact ⟨p, rfl, rfl, rfl, rfl, rfl, rfl, rfl⟩

theorem Rect_pos (w h : Int) (hw : 0 < w) (hh : 0 < h) :
    Rect 0 0 w h = { Min := ⟨0, 0⟩, Max := ⟨w, h⟩ } := by
  unfold Rect
  rw [if_neg (by omega), if_neg (by omega), if_neg (by omega), if_neg (by omega)]

theorem Rect_le (x0 y0 x1 y1 : Int) (hx : x0 ≤ x1) (hy : y0 ≤ y1) :
    Rect x0 y0 x1 y1 = { Min := ⟨x0, y0⟩, Max := ⟨x1, y1⟩ } := by
  unfold Rect
  rw [if_neg (by omega), if_neg (by omega), if_neg (by omega), if_neg (by omega)]

/-- The length of the pixel buffer of an image of w x h pixels, when it fits the int. -/
theorem mul3NonNeg_eq (bpp w h : Int) (hb : 0 < bpp ∧ bpp ≤ 4)
    (hw : 0 ≤ w ∧ w < 4294967296) (hh : 0 ≤ h) (hfit : bpp * w * h ≤ maxInt) :
    mul3NonNeg bpp w h = bpp * w * h := by
  have h1 : bpp * w ≤ 4 * 4294967296 := mul_le_mul hb.2 (by omega) (by omega) (by omega)
  unfold mul3NonNeg
  rw [if_neg (by omega), if_neg (by omega), if_neg (by omega)]

theorem Rect_Dx (w h : Int) (hw : 0 ≤ w ∧ w < 4294967296) (hh : 0 ≤ h ∧ h < 4294967296) :
    (Rect 0 0 w h).Dx = w ∧ (Rect 0 0 w h).Dy = h := by
  rw [Rect_le 0 0 w h hw.1 hh.1]
  constructor
  · show wrapInt (w - 0) = w
    rw [wrapInt_eq (w - 0) (by omega) (by omega)]
    omega
  · show wrapInt (h - 0) = h
    rw [wrapInt_eq (h - 0) (by omega) (by omega)]
    omega

/-- The image constructors return the zeroed image when the pixel buffer is within what make
accepts and what the runtime can obtain. -/
theorem newImage_ok (mem bpp w h : Int) (hb : 0 < bpp ∧ bpp ≤ 4)
    (hw : 0 ≤ w ∧ w < 4294967296) (hh : 0 ≤ h ∧ h < 4294967296)
    (hfit : bpp * w * h ≤ min mem maxAlloc) :
    newImage mem bpp (Rect 0 0 w h) =
      .ok { Bounds := Rect 0 0 w h, pix := fun _ _ => Pixel.zero } := by
  have hnn : 0 ≤ bpp * w * h := mul_nonneg (mul_nonneg (by omega) hw.1) hh.1
  have hA : maxAlloc = 281474976710656 := rfl
  have hfit' : bpp * w * h ≤ maxInt := by
    unfold maxInt
    omega
  unfold newImage
  dsimp only
  rw [(Rect_Dx w h hw hh).1, (Rect_Dx w h hw hh).2, mul3NonNeg_eq bpp w h hb hw hh.1 hfit',
    if_neg (by omega), if_neg (by omega), if_neg (by omega)]

theorem newImage_cases (mem bpp : Int) (r : Rectangle) :
    (∃ e, newImage mem bpp r = .error e) ∨
      newImage mem bpp r = .ok { Bounds := r, pix := fun _ _ => Pixel.zero } := by
  unfold newImage
  dsimp only
  split
  · exact Or.inl ⟨_, rfl⟩
  · split
    · exact Or.inl ⟨_, rfl⟩
    · split
      · exact Or.inl ⟨_, rfl⟩
      · exact Or.inr rfl

theorem Draw_Bounds (dst : Image) (r : Rectangle) (src : Image) (sp : Point)
    (op : Pixel → Pixel → Pixel) : (Draw dst r src sp op).Bounds = dst.Bounds := by
  unfold Draw
  dsimp only
  split <;> rfl

theorem pngEncode_ok (m : Image) (w h : Int) (hb : m.Bounds = Rect 0 0 w h)
    (hw : 0 < w ∧ w < 4294967296) (hh : 0 < h ∧ h < 4294967296) : pngEncode m = .png m := by
  unfold pngEncode
  rw [hb, (Rect_Dx w h ⟨by omega, hw.2⟩ ⟨by omega, hh.2⟩).1,
    (Rect_Dx w h ⟨by omega, hw.2⟩ ⟨by omega, hh.2⟩).2, if_neg (by omega)]

theorem pngEncode_cases (m : Image) : pngEncode m = .nothing ∨ pngEncode m = .png m := by
  unfold pngEncode
  split
  · exact Or.inl rfl
  · exact Or.inr rfl

/-- A point lies in the intersection of two rectangles exactly when it lies in both. -/
theorem Intersect_Contains (r s : Rectangle) (x y : Int) :
    (r.Intersect s).Contains x y = (r.Contains x y && s.Contains x y) := by
  rcases r with ⟨⟨a, b⟩, ⟨c, d⟩⟩
  rcases s with ⟨⟨a', b'⟩, ⟨c', d'⟩⟩
  rw [Bool.eq_iff_iff]
  unfold Rectangle.Intersect Rectangle.Empty
  simp only [ge_iff_le, gt_iff_lt, Bool.or_eq_true, decide_eq_true_eq]
  split_ifs <;>
    simp only [Rectangle.Contains, Bool.and_eq_true, decide_eq_true_eq] <;> omega

theorem Empty_Contains (r : Rectangle) (x y : Int) (h : r.Empty = true) :
    r.Contains x y = false := by
  rcases r with ⟨⟨a, b⟩, ⟨c, d⟩⟩
  unfold Rectangle.Empty at h
  simp only [ge_iff_le, Bool.or_eq_true, decide_eq_true_eq] at h
  rw [Bool.eq_false_iff]
  simp only [Rectangle.Contains, ne_eq, Bool.and_eq_true, decide_eq_true_eq]
  omega

/-- The pixel of draw.Draw at any point: the operation is applied at the points that lie
in the rectangle, in the bounds of the destination and in the moved bounds of the source. -/
theorem Draw_pix_all (dst : Image) (r : Rectangle) (src : Image) (sp : Point)
    (op : Pixel → Pixel → Pixel) (x y : Int) :
    (Draw dst r src sp op).pix x y =
      if (r.Contains x y && dst.Bounds.Contains x y &&
          (src.Bounds.Add { X := wrapInt (r.Min.X - sp.X), Y := wrapInt (r.Min.Y - sp.Y) }).Contains
            x y) = true then
        op (dst.pix x y)
          (src.pix (wrapInt (x - wrapInt (r.Min.X - sp.X))) (wrapInt (y - wrapInt (r.Min.Y - sp.Y))))
      else dst.pix x y := by
  rw [← Intersect_Contains, ← Intersect_Contains]
  unfold Draw
  dsimp only
  split
  · rename_i he
    rw [Empty_Contains _ x y he]
    rfl
  · rfl


/-- One axis of the clip of responseSlider: the points of the piece whose source point
lies on the canvas, for every position D of the int type. -/
theorem piece_axis (D B S x : Int) (hD : isInt D) (hB : 0 < B ∧ B < 4294967296)
    (hS : 0 < S ∧ S < 4294967296) :
    ((0 ≤ x ∧ x < S) ∧ wrapInt (0 + wrapInt (0 - D)) ≤ x ∧ x < wrapInt (B + wrapInt (0 - D)) ↔
      0 ≤ x ∧ x < S ∧ 0 ≤ D + x ∧ D + x < B) ∧
    (0 ≤ x → x < S → 0 ≤ D + x → D + x < B → wrapInt (x - wrapInt (0 - D)) = D + x) := by
  unfold isInt minInt maxInt at hD
  unfold wrapInt
  constructor
  · constructor <;> intro h <;> omega
  · intro h1 h2 h3 h4
    omega

/-- One axis of the clip of the mask in responseSliderBac: the points of the canvas that
lie in the notch, for every position D of the int type. -/
theorem notch_axis (D B S x : Int) (hD : isInt D) (hB : 0 < B ∧ B < 4294967296)
    (hS : 0 < S ∧ S < 4294967296) :
    (((if D > wrapInt (D + S) then wrapInt (D + S) else D) ≤ x ∧
        x < (if D > wrapInt (D + S) then D else wrapInt (D + S))) ∧ (0 ≤ x ∧ x < B) ∧
      wrapInt (0 + wrapInt ((if D > wrapInt (D + S) then wrapInt (D + S) else D) - 0)) ≤ x ∧
      x < wrapInt (S + wrapInt ((if D > wrapInt (D + S) then wrapInt (D + S) else D) - 0)) ↔
      0 ≤ x ∧ x < B ∧ D ≤ x ∧ x < D + S) ∧
    (0 ≤ x → x < B → D ≤ x → x < D + S →
      wrapInt (x - wrapInt ((if D > wrapInt (D + S) then wrapInt (D + S) else D) - 0)) = x - D) := by
  unfold isInt minInt maxInt at hD
  by_cases hov : D + S ≤ 9223372036854775807
  · have e : wrapInt (D + S) = D + S := wrapInt_eq _ (by omega) hov
    rw [e, if_neg (by omega), if_neg (by omega)]
    unfold wrapInt
    constructor
    · constructor <;> intro h <;> omega
    · intro h1 h2 h3 h4
      omega
  · have e : wrapInt (D + S) = D + S - 18446744073709551616 := by
      unfold wrapInt
      omega
    rw [e, if_pos (by omega), if_pos (by omega)]
    unfold wrapInt
    constructor
    · constructor <;> intro h <;> omega
    · intro h1 h2 h3 h4
      omega


/-- The image that responseSlider writes when the pixel buffer of the piece can be
allocated. -/
theorem responseSlider_draw_eq (mem : Int) (Resize : Resizer) (img : Image) (G : SliderInfo)
    (hW : 0 < G.SliderW ∧ G.SliderW < 4294967296) (hH : 0 < G.SliderH ∧ G.SliderH < 4294967296)
    (hfit : 4 * G.SliderW * G.SliderH ≤ min mem maxAlloc) :
    responseSlider_draw mem Resize img G =
      .ok (.png (Draw (Image.mk (Rect 0 0 G.SliderW G.SliderH) fun _ _ => Pixel.zero)
        (Rect 0 0 G.SliderW G.SliderH) (Resize img G.BacW G.BacH) { X := G.Dx, Y := G.Dy }
        drawNRGBASrc)) := by
  unfold responseSlider_draw NewRGBA
  rw [newImage_ok mem 4 _ _ (by omega) ⟨by omega, hW.2⟩ ⟨by omega, hH.2⟩ hfit]
  simp only [bind, Except.bind, pure, Except.pure]
  rw [pngEncode_ok _ G.SliderW G.SliderH (Draw_Bounds _ _ _ _ _) hW hH]

/-- Every pixel of the piece that responseSlider draws: the canvas pixel at the point
moved by (Dx, Dy) where that point lies on the canvas, a transparent pixel elsewhere. -/
theorem piece_pixel (R : Image) (G : SliderInfo)
    (hW : 0 < G.SliderW ∧ G.SliderW < 4294967296) (hH : 0 < G.SliderH ∧ G.SliderH < 4294967296)
    (hBW : 0 < G.BacW ∧ G.BacW < 4294967296) (hBH : 0 < G.BacH ∧ G.BacH < 4294967296)
    (hDx : isInt G.Dx) (hDy : isInt G.Dy) (hres : R.Bounds = Rect 0 0 G.BacW G.BacH)
    (x y : Int) :
    (Draw (Image.mk (Rect 0 0 G.SliderW G.SliderH) fun _ _ => Pixel.zero)
      (Rect 0 0 G.SliderW G.SliderH) R { X := G.Dx, Y := G.Dy } drawNRGBASrc).pix x y =
    if 0 ≤ x ∧ x < G.SliderW ∧ 0 ≤ y ∧ y < G.SliderH ∧
        0 ≤ G.Dx + x ∧ G.Dx + x < G.BacW ∧ 0 ≤ G.Dy + y ∧ G.Dy + y < G.BacH then
      drawNRGBASrc Pixel.zero (R.pix (G.Dx + x) (G.Dy + y))
    else Pixel.zero := by
  obtain ⟨hx1, hx2⟩ := piece_axis G.Dx G.BacW G.SliderW x hDx hBW hW
  obtain ⟨hy1, hy2⟩ := piece_axis G.Dy G.BacH G.SliderH y hDy hBH hH
  rw [Draw_pix_all, hres, Rect_pos _ _ hW.1 hH.1, Rect_pos _ _ hBW.1 hBH.1]
  simp only [Rectangle.Contains, Rectangle.Add, Bool.and_eq_true, decide_eq_true_eq]
  split_ifs with h1 h2 h2
  · rw [hx2 h2.1 h2.2.1 h2.2.2.2.2.1 h2.2.2.2.2.2.1,
      hy2 h2.2.2.1 h2.2.2.2.1 h2.2.2.2.2.2.2.1 h2.2.2.2.2.2.2.2]
  · obtain ⟨⟨⟨⟨⟨a1, a2⟩, a3⟩, a4⟩, _⟩, ⟨⟨b1, b2⟩, b3⟩, b4⟩ := h1
    have X := hx1.mp ⟨⟨a1, a2⟩, b1, b2⟩
    have Y := hy1.mp ⟨⟨a3, a4⟩, b3, b4⟩
    exact absurd ⟨X.1, X.2.1, Y.1, Y.2.1, X.2.2.1, X.2.2.2, Y.2.2.1, Y.2.2.2⟩ h2
  · obtain ⟨c1, c2, c3, c4, c5, c6, c7, c8⟩ := h2
    have X := hx1.mpr ⟨c1, c2, c5, c6⟩
    have Y := hy1.mpr ⟨c3, c4, c7, c8⟩
    exact absurd ⟨⟨⟨⟨X.1, Y.1.1⟩, Y.1.2⟩, ⟨X.1, Y.1.1⟩, Y.1.2⟩, ⟨X.2, Y.2.1⟩, Y.2.2⟩ h1
  · rfl


/-- The image that responseSliderBac writes when the pixel buffers of the mask and of the
canvas can be allocated. -/
theorem responseSliderBac_draw_eq (mem : Int) (Resize : Resizer) (img : Image) (G : SliderInfo)
    (hW : 0 ≤ G.SliderW ∧ G.SliderW < 4294967296) (hH : 0 ≤ G.SliderH ∧ G.SliderH < 4294967296)
    (hBW : 0 < G.BacW ∧ G.BacW < 4294967296) (hBH : 0 < G.BacH ∧ G.BacH < 4294967296)
    (hmask : G.SliderW * G.SliderH ≤ min mem maxAlloc)
    (hfit : 4 * G.BacW * G.BacH ≤ min mem maxAlloc) :
    responseSliderBac_draw mem Resize img G = .ok (.png (Draw
      (Draw (Image.mk (Rect 0 0 G.BacW G.BacH) fun _ _ => Pixel.zero)
        (Rect 0 0 G.BacW G.BacH) (Resize img G.BacW G.BacH) { X := 0, Y := 0 } drawNRGBASrc)
      (Rect G.Dx G.Dy (wrapInt (G.Dx + G.SliderW)) (wrapInt (G.Dy + G.SliderH)))
      (Image.mk (Rect 0 0 G.SliderW G.SliderH) fun x y =>
        if 0 ≤ x ∧ x < G.SliderW ∧ 0 ≤ y ∧ y < G.SliderH ∧
            (Rect 0 0 G.SliderW G.SliderH).Contains x y then
          { R := 0, G := 0, B := 0, A := Fin.ofNat (100 % 256) }
        else Pixel.zero)
      { X := 0, Y := 0 } drawAlphaOver)) := by
  unfold responseSliderBac_draw sliderMask NewRGBA NewAlpha
  rw [newImage_ok mem 1 _ _ (by omega) hW hH (by rw [one_mul]; exact hmask),
    newImage_ok mem 4 _ _ (by omega) ⟨by omega, hBW.2⟩ ⟨by omega, hBH.2⟩ hfit]
  simp only [bind, Except.bind, pure, Except.pure]
  rw [pngEncode_ok _ G.BacW G.BacH (by rw [Draw_Bounds, Draw_Bounds]) hBW hBH]

/-- The image that responseSliderBac writes, when it writes one. -/
theorem responseSliderBac_draw_inv (mem : Int) (Resize : Resizer) (img : Image) (G : SliderInfo)
    (m : Image) (h : responseSliderBac_draw mem Resize img G = .ok (.png m)) :
    m = (Draw
      (Draw (Image.mk (Rect 0 0 G.BacW G.BacH) fun _ _ => Pixel.zero)
        (Rect 0 0 G.BacW G.BacH) (Resize img G.BacW G.BacH) { X := 0, Y := 0 } drawNRGBASrc)
      (Rect G.Dx G.Dy (wrapInt (G.Dx + G.SliderW)) (wrapInt (G.Dy + G.SliderH)))
      (Image.mk (Rect 0 0 G.SliderW G.SliderH) fun x y =>
        if 0 ≤ x ∧ x < G.SliderW ∧ 0 ≤ y ∧ y < G.SliderH ∧
            (Rect 0 0 G.SliderW G.SliderH).Contains x y then
          { R := 0, G := 0, B := 0, A := Fin.ofNat (100 % 256) }
        else Pixel.zero)
      { X := 0, Y := 0 } drawAlphaOver) := by
  unfold responseSliderBac_draw sliderMask NewRGBA NewAlpha at h
  rcases newImage_cases mem 1 (Rect 0 0 G.SliderW G.SliderH) with ⟨e, e1⟩ | e1
  · rw [e1] at h
    simp [bind, Except.bind] at h
  rcases newImage_cases mem 4 (Rect 0 0 G.BacW G.BacH) with ⟨e, e2⟩ | e2
  · rw [e1, e2] at h
    simp [bind, Except.bind, pure, Except.pure] at h
  rw [e1, e2] at h
  simp only [bind, Except.bind, pure, Except.pure, Except.ok.injEq] at h
  rcases pngEncode_cases (Draw
      (Draw (Image.mk (Rect 0 0 G.BacW G.BacH) fun _ _ => Pixel.zero)
        (Rect 0 0 G.BacW G.BacH) (Resize img G.BacW G.BacH) { X := 0, Y := 0 } drawNRGBASrc)
      (Rect G.Dx G.Dy (wrapInt (G.Dx + G.SliderW)) (wrapInt (G.Dy + G.SliderH)))
      (Image.mk (Rect 0 0 G.SliderW G.SliderH) fun x y =>
        if 0 ≤ x ∧ x < G.SliderW ∧ 0 ≤ y ∧ y < G.SliderH ∧
            (Rect 0 0 G.SliderW G.SliderH).Contains x y then
          { R := 0, G := 0, B := 0, A := Fin.ofNat (100 % 256) }
        else Pixel.zero)
      { X := 0, Y := 0 } drawAlphaOver) with e3 | e3
  · rw [e3] at h
    exact absurd h (by simp)
  · rw [e3] at h
    exact (Response.png.inj h).symm

/-- The pixel of draw.Draw at any point, with the clip given as a proposition. -/
theorem Draw_pix_of (dst : Image) (r : Rectangle) (src : Image) (sp : Point)
    (op : Pixel → Pixel → Pixel) (x y : Int) (P : Prop) [Decidable P]
    (hP : (r.Contains x y && dst.Bounds.Contains x y &&
      (src.Bounds.Add { X := wrapInt (r.Min.X - sp.X), Y := wrapInt (r.Min.Y - sp.Y) }).Contains
        x y) = true ↔ P) :
    (Draw dst r src sp op).pix x y =
      if P then
        op (dst.pix x y)
          (src.pix (wrapInt (x - wrapInt (r.Min.X - sp.X))) (wrapInt (y - wrapInt (r.Min.Y - sp.Y))))
      else dst.pix x y := by
  rw [Draw_pix_all]
  by_cases h : P
  · rw [if_pos h, if_pos (hP.mpr h)]
  · rw [if_neg h, if_neg (fun hc => h (hP.mp hc))]

/-- Every pixel of the canvas after the picture is drawn on it. -/
theorem canvas_pixel (R : Image) (BacW BacH : Int)
    (hBW : 0 < BacW ∧ BacW < 4294967296) (hBH : 0 < BacH ∧ BacH < 4294967296)
    (hres : R.Bounds = Rect 0 0 BacW BacH) (x y : Int) :
    (Draw (Image.mk (Rect 0 0 BacW BacH) fun _ _ => Pixel.zero)
      (Rect 0 0 BacW BacH) R { X := 0, Y := 0 } drawNRGBASrc).pix x y =
    if 0 ≤ x ∧ x < BacW ∧ 0 ≤ y ∧ y < BacH then drawNRGBASrc Pixel.zero (R.pix x y)
    else Pixel.zero := by
  have h := piece_pixel R
    { BacW := BacW, BacH := BacH, SliderW := BacW, SliderH := BacH, Dx := 0, Dy := 0,
      Src := [], Time := 0 } hBW hBH hBW hBH (show isInt (0 : Int) by decide)
    (show isInt (0 : Int) by decide) hres x y
  simp only [zero_add] at h
  rw [h]
  by_cases hc : 0 ≤ x ∧ x < BacW ∧ 0 ≤ y ∧ y < BacH
  · rw [if_pos hc, if_pos ⟨hc.1, hc.2.1, hc.2.2.1, hc.2.2.2, hc.1, hc.2.1, hc.2.2.1, hc.2.2.2⟩]
  · rw [if_neg hc, if_neg (fun hd => hc ⟨hd.1, hd.2.1, hd.2.2.1, hd.2.2.2.1⟩)]

/-- Every pixel of the background that responseSliderBac draws: on the canvas, the
picture pixel, with the mask blended over it at the points of the notch; a transparent
pixel off the canvas. -/
theorem background_pixel (Resize : Resizer) (img : Image) (G : SliderInfo)
    (hW : 0 < G.SliderW ∧ G.SliderW < 4294967296) (hH : 0 < G.SliderH ∧ G.SliderH < 4294967296)
    (hBW : 0 < G.BacW ∧ G.BacW < 4294967296) (hBH : 0 < G.BacH ∧ G.BacH < 4294967296)
    (hDx : isInt G.Dx) (hDy : isInt G.Dy)
    (hres : (Resize img G.BacW G.BacH).Bounds = Rect 0 0 G.BacW G.BacH) (x y : Int) :
    (Draw
      (Draw (Image.mk (Rect 0 0 G.BacW G.BacH) fun _ _ => Pixel.zero)
        (Rect 0 0 G.BacW G.BacH) (Resize img G.BacW G.BacH) { X := 0, Y := 0 } drawNRGBASrc)
      (Rect G.Dx G.Dy (wrapInt (G.Dx + G.SliderW)) (wrapInt (G.Dy + G.SliderH)))
      (Image.mk (Rect 0 0 G.SliderW G.SliderH) fun x y =>
        if 0 ≤ x ∧ x < G.SliderW ∧ 0 ≤ y ∧ y < G.SliderH ∧
            (Rect 0 0 G.SliderW G.SliderH).Contains x y then
          { R := 0, G := 0, B := 0, A := Fin.ofNat (100 % 256) }
        else Pixel.zero)
      { X := 0, Y := 0 } drawAlphaOver).pix x y =
    if 0 ≤ x ∧ x < G.BacW ∧ 0 ≤ y ∧ y < G.BacH then
      if G.Dx ≤ x ∧ x < G.Dx + G.SliderW ∧ G.Dy ≤ y ∧ y < G.Dy + G.SliderH then
        drawAlphaOver (drawNRGBASrc Pixel.zero ((Resize img G.BacW G.BacH).pix x y))
          { R := 0, G := 0, B := 0, A := Fin.ofNat (100 % 256) }
      else drawNRGBASrc Pixel.zero ((Resize img G.BacW G.BacH).pix x y)
    else Pixel.zero := by
  obtain ⟨nx1, nx2⟩ := notch_axis G.Dx G.BacW G.SliderW x hDx hBW hW
  obtain ⟨ny1, ny2⟩ := notch_axis G.Dy G.BacH G.SliderH y hDy hBH hH
  rw [Rect_pos _ _ hW.1 hH.1]
  rw [Draw_pix_of _ _ _ _ _ x y
    ((0 ≤ x ∧ x < G.BacW ∧ G.Dx ≤ x ∧ x < G.Dx + G.SliderW) ∧
      (0 ≤ y ∧ y < G.BacH ∧ G.Dy ≤ y ∧ y < G.Dy + G.SliderH)) (by
    rw [Draw_Bounds, Rect_pos _ _ hBW.1 hBH.1]
    simp only [Rect, Rectangle.Contains, Rectangle.Add, Bool.and_eq_true, decide_eq_true_eq]
    constructor
    · rintro ⟨⟨⟨⟨⟨a1, a2⟩, a3⟩, a4⟩, ⟨⟨b1, b2⟩, b3⟩, b4⟩, ⟨⟨c1, c2⟩, c3⟩, c4⟩
      exact ⟨nx1.mp ⟨⟨a1, a2⟩, ⟨b1, b2⟩, c1, c2⟩, ny1.mp ⟨⟨a3, a4⟩, ⟨b3, b4⟩, c3, c4⟩⟩
    · rintro ⟨hx, hy⟩
      have X := nx1.mpr hx
      have Y := ny1.mpr hy
      exact ⟨⟨⟨⟨X.1, Y.1.1⟩, Y.1.2⟩, ⟨X.2.1, Y.2.1.1⟩, Y.2.1.2⟩,
        ⟨X.2.2, Y.2.2.1⟩, Y.2.2.2⟩),
    canvas_pixel _ _ _ hBW hBH hres]
  simp only [Rect]
  by_cases hx : 0 ≤ x ∧ x < G.BacW ∧ G.Dx ≤ x ∧ x < G.Dx + G.SliderW
  · by_cases hy : 0 ≤ y ∧ y < G.BacH ∧ G.Dy ≤ y ∧ y < G.Dy + G.SliderH
    · have hc1 : 0 ≤ x ∧ x < G.BacW ∧ 0 ≤ y ∧ y < G.BacH := ⟨hx.1, hx.2.1, hy.1, hy.2.1⟩
      have hc2 : G.Dx ≤ x ∧ x < G.Dx + G.SliderW ∧ G.Dy ≤ y ∧ y < G.Dy + G.SliderH :=
        ⟨hx.2.2.1, hx.2.2.2, hy.2.2.1, hy.2.2.2⟩
      have hm : 0 ≤ x - G.Dx ∧ x - G.Dx < G.SliderW ∧ 0 ≤ y - G.Dy ∧ y - G.Dy < G.SliderH ∧
          (Rectangle.mk ⟨0, 0⟩ ⟨G.SliderW, G.SliderH⟩).Contains (x - G.Dx) (y - G.Dy) = true := by
        refine ⟨by omega, by omega, by omega, by omega, ?_⟩
        simp only [Rectangle.Contains, Bool.and_eq_true, decide_eq_true_eq]
        omega
      rw [if_pos ⟨hx, hy⟩]
      simp only [nx2 hx.1 hx.2.1 hx.2.2.1 hx.2.2.2, ny2 hy.1 hy.2.1 hy.2.2.1 hy.2.2.2,
        if_pos hc1, if_pos hc2, if_pos hm]
    · rw [if_neg (fun hc => hy hc.2)]
      split_ifs with h1 h2
      · exact absurd ⟨h1.2.2.1, h1.2.2.2, h2.2.2.1, h2.2.2.2⟩ hy
      · rfl
      · rfl
  · rw [if_neg (fun hc => hx hc.1)]
    split_ifs with h1 h2
    · exact absurd ⟨h1.1, h1.2.1, h2.1, h2.2.1⟩ hx
    · rfl
    · rfl

/-! ## Helper lemmas: escaping and decoding -/

theorem unhex_hexLower : ∀ n : Fin 16, unhex (hexLower n.val) = some n.val := by decide
theorem unhex_hexUpper : ∀ n : Fin 16, unhex (hexUpper n.val) = some n.val := by decide

theorem unhex_hexUpper_nat (n : Nat) (h : n < 16) : unhex (hexUpper n) = some n :=
  unhex_hexUpper ⟨n, h⟩

theorem unhex_hexLower_nat (n : Nat) (h : n < 16) : unhex (hexLower n) = some n :=
  unhex_hexLower ⟨n, h⟩

theorem unreserved_plain : ∀ c : Byte, unreserved c = true → c.val ≠ 37 ∧ c.val ≠ 43 := by
  decide

theorem byte_ofNat_val (c : Byte) : (Fin.ofNat (c.val / 16 * 16 + c.val % 16) : Byte) = c := by
  apply Fin.ext
  have h := c.isLt
  show (c.val / 16 * 16 + c.val % 16) % 256 = c.val
  omega

theorem QueryUnescape_chunk (c : Byte) (X : GoString) :
    QueryUnescape ((if unreserved c then [c]
      else if c.val = 32 then [43]
      else [37, hexUpper (c.val / 16), hexUpper (c.val % 16)]) ++ X) =
    (QueryUnescape X).map (fun t => c :: t) := by
  by_cases hu : unreserved c = true
  · obtain ⟨h1, h2⟩ := unreserved_plain c hu
    rw [if_pos hu, QueryUnescape.eq_def]
    simp only [List.cons_append, List.nil_append, h1, h2, if_false]
  · rw [if_neg hu]
    by_cases hs : c.val = 32
    · rw [if_pos hs]
      have hc : c = 32 := Fin.ext hs
      subst hc
      rw [QueryUnescape.eq_def]
      rfl
    · rw [if_neg hs]
      have hlt := c.isLt
      rw [QueryUnescape.eq_def]
      simp only [List.cons_append, List.nil_append,
        unhex_hexUpper_nat (c.val / 16) (by omega), unhex_hexUpper_nat (c.val % 16) (by omega),
        byte_ofNat_val]
      rfl

theorem QueryUnescape_QueryEscape (s : GoString) : QueryUnescape (QueryEscape s) = some s := by
  induction s with
  | nil => rfl
  | cons c s ih =>
    unfold QueryEscape at ih ⊢
    rw [List.flatMap_cons, QueryUnescape_chunk, ih]
    rfl

theorem digit_val (n : Nat) (h : n < 10) : ((Fin.ofNat (48 + n) : Byte)).val = 48 + n := by
  show (48 + n) % 256 = 48 + n
  omega

theorem digitsValue_append (A B : GoString) (acc : Nat) :
    digitsValue (A ++ B) acc = (digitsValue A acc).bind (digitsValue B) := by
  induction A generalizing acc with
  | nil => rfl
  | cons a A ih =>
    simp only [List.cons_append, digitsValue]
    split
    · exact ih _
    · rfl

theorem digitsValue_digitsRev (f n : Nat) (h : n < f) :
    digitsValue (digitsRev f n).reverse 0 = some n := by
  induction f generalizing n with
  | zero => omega
  | succ f ih =>
    unfold digitsRev
    split
    · rename_i h10
      simp only [List.reverse_cons, List.reverse_nil, List.nil_append, digitsValue,
        digit_val n h10]
      rw [if_pos (by omega)]
      congr 1
      omega
    · rename_i h10
      rw [List.reverse_cons, digitsValue_append, ih (n / 10) (by omega)]
      simp only [Option.some_bind, digitsValue, digit_val (n % 10) (by omega)]
      rw [if_pos (by omega)]
      congr 1
      omega

theorem digitsRev_isDigit (f n : Nat) : ∀ b ∈ digitsRev f n, Json.isDigit b = true := by
  induction f generalizing n with
  | zero => intro b hb; simp [digitsRev] at hb
  | succ f ih =>
    intro b hb
    unfold digitsRev at hb
    split at hb
    · rename_i h10
      simp only [List.mem_singleton] at hb
      subst hb
      simp only [Json.isDigit, digit_val n h10, Bool.and_eq_true, decide_eq_true_eq]
      omega
    · rcases List.mem_cons.mp hb with hb | hb
      · subst hb
        simp only [Json.isDigit, digit_val (n % 10) (by omega), Bool.and_eq_true,
          decide_eq_true_eq]
        omega
      · exact ih _ b hb

/-- The decimal text of a positive number starts with a nonzero digit. -/
theorem digitsRev_last (f n : Nat) (h : n < f) (hn : 0 < n) :
    ∃ init last, digitsRev f n = init ++ [last] ∧ last.val ≠ 48 ∧ Json.isDigit last = true := by
  induction f generalizing n with
  | zero => omega
  | succ f ih =>
    unfold digitsRev
    split
    · rename_i h10
      refine ⟨[], _, rfl, ?_, ?_⟩
      · rw [digit_val n h10]; omega
      · simp only [Json.isDigit, digit_val n h10, Bool.and_eq_true, decide_eq_true_eq]
        omega
    · rename_i h10
      obtain ⟨init, last, e, h1, h2⟩ := ih (n / 10) (by omega) (by omega)
      exact ⟨_ :: init, last, by rw [e]; rfl, h1, h2⟩

theorem natDigits_zero : natDigits 0 = [48] := rfl

theorem natDigits_pos (n : Nat) (hn : 0 < n) :
    ∃ h t, natDigits n = h :: t ∧ h.val ≠ 48 ∧ Json.isDigit h = true ∧
      ∀ b ∈ t, Json.isDigit b = true := by
  obtain ⟨init, last, e, h1, h2⟩ := digitsRev_last (n + 1) n (by omega) hn
  refine ⟨last, init.reverse, ?_, h1, h2, ?_⟩
  · unfold natDigits
    rw [e]
    simp
  · intro b hb
    have := digitsRev_isDigit (n + 1) n b
    rw [e] at this
    exact this (by simp [List.mem_reverse.mp hb])

theorem natDigits_value (n : Nat) : digitsValue (natDigits n) 0 = some n :=
  digitsValue_digitsRev (n + 1) n (by omega)

theorem takeDigits_append (l : GoString) (c : Byte) (rest : GoString)
    (hl : ∀ b ∈ l, Json.isDigit b = true) (hc : Json.isDigit c = false) :
    Json.takeDigits (l ++ c :: rest) = (l, c :: rest) := by
  induction l with
  | nil =>
    simp only [List.nil_append, Json.takeDigits, hc]
    rfl
  | cons a l ih =>
    have ha := hl a (List.mem_cons_self _ _)
    have ih' := ih (fun b hb => hl b (List.mem_cons_of_mem _ hb))
    show Json.takeDigits (a :: (l ++ c :: rest)) = _
    rw [Json.takeDigits, if_pos ha, ih']

theorem Atoi_Itoa (v : Int) (hv : isInt v) : Atoi (Itoa v) = some v := by
  unfold Itoa
  by_cases hneg : v < 0
  · rw [if_pos hneg]
    have hpos : 0 < v.natAbs := by omega
    obtain ⟨h, t, e, -, -, -⟩ := natDigits_pos v.natAbs hpos
    have hval := natDigits_value v.natAbs
    unfold Atoi
    simp only [splitSign, show ((45 : Byte)).val = 45 from rfl, if_true]
    rw [hval, e]
    simp only [reduceCtorEq, if_false, if_true]
    rw [if_pos (by rw [show -((v.natAbs : Nat) : Int) = v by omega]; exact hv)]
    congr 1
    omega
  · rw [if_neg hneg]
    have hval := natDigits_value v.natAbs
    have hd : ∃ h t, natDigits v.natAbs = h :: t ∧ Json.isDigit h = true := by
      by_cases h0 : v.natAbs = 0
      · rw [h0]; exact ⟨48, [], rfl, rfl⟩
      · obtain ⟨h, t, e, -, h2, -⟩ := natDigits_pos v.natAbs (by omega)
        exact ⟨h, t, e, h2⟩
    obtain ⟨h, t, e, hdig⟩ := hd
    simp only [Json.isDigit, Bool.and_eq_true, decide_eq_true_eq] at hdig
    unfold Atoi
    rw [e] at hval ⊢
    simp only [splitSign, show ¬ h.val = 45 by omega, show ¬ h.val = 43 by omega, if_false,
      reduceCtorEq]
    rw [hval]
    simp only [Bool.false_eq_true, if_false]
    rw [if_pos (by rw [show ((v.natAbs : Nat) : Int) = v by omega]; exact hv)]
    congr 1
    omega


theorem natDigits_cons (n : Nat) :
    ∃ h t, natDigits n = h :: t ∧ Json.isDigit h = true := by
  by_cases h0 : n = 0
  · rw [h0]; exact ⟨48, [], rfl, rfl⟩
  · obtain ⟨h, t, e, -, h2, -⟩ := natDigits_pos n (by omega)
    exact ⟨h, t, e, h2⟩

theorem scanIntPart_natDigits (n : Nat) (c : Byte) (rest : GoString)
    (hc : Json.isDigit c = false) :
    Json.scanIntPart (natDigits n ++ c :: rest) = some (natDigits n, c :: rest) := by
  by_cases h0 : n = 0
  · rw [h0, natDigits_zero]
    rfl
  · obtain ⟨h, t, e, h1, h2, h3⟩ := natDigits_pos n (by omega)
    rw [e]
    show Json.scanIntPart (h :: (t ++ c :: rest)) = _
    rw [Json.scanIntPart, if_neg h1, if_pos h2, takeDigits_append t c rest h3 hc]

theorem scanNumber_digits (sign : GoString) (n : Nat) (c : Byte) (rest : GoString)
    (hs : sign = [] ∨ sign = [45]) (hc : c.val = 44 ∨ c.val = 125) :
    Json.scanNumber (sign ++ natDigits n ++ c :: rest) = some (sign ++ natDigits n, c :: rest) := by
  have hcd : Json.isDigit c = false := by
    simp only [Json.isDigit, Bool.and_eq_false_iff, decide_eq_false_iff_not]
    omega
  have hfrac : Json.scanFraction (c :: rest) = some ([], c :: rest) := by
    rw [Json.scanFraction, if_neg (by omega)]
  have hexp : Json.scanExponent (c :: rest) = some ([], c :: rest) := by
    rw [Json.scanExponent.eq_def]
    simp only
    rw [if_neg (by omega)]
  have hint := scanIntPart_natDigits n c rest hcd
  obtain ⟨h, t, e, hd⟩ := natDigits_cons n
  simp only [Json.isDigit, Bool.and_eq_true, decide_eq_true_eq] at hd
  rcases hs with hs | hs
  · subst hs
    unfold Json.scanNumber
    simp only [List.nil_append]
    rw [e] at hint ⊢
    simp only [List.cons_append, show ¬ h.val = 45 by omega, if_false]
    rw [show h :: (t ++ c :: rest) = (h :: t) ++ c :: rest from rfl, hint]
    simp only [hfrac, hexp, List.append_nil, List.nil_append]
  · subst hs
    unfold Json.scanNumber
    simp only [List.cons_append, List.nil_append, show ((45 : Byte)).val = 45 from rfl, if_true,
      List.append_assoc]
    rw [hint]
    simp only [hfrac, hexp, List.append_nil, List.singleton_append]

theorem Itoa_eq (v : Int) :
    ∃ sign, (sign = [] ∨ sign = [45]) ∧ Itoa v = sign ++ natDigits v.natAbs := by
  unfold Itoa
  by_cases h : v < 0
  · exact ⟨[45], Or.inr rfl, by rw [if_pos h]; rfl⟩
  · exact ⟨[], Or.inl rfl, by rw [if_neg h]; rfl⟩

/-- The first byte of a decimal text is a digit or the minus sign. -/
theorem Itoa_cons (v : Int) :
    ∃ h t, Itoa v = h :: t ∧ (h.val = 45 ∨ (48 ≤ h.val ∧ h.val ≤ 57)) := by
  obtain ⟨sign, hs, e⟩ := Itoa_eq v
  obtain ⟨h, t, e2, hd⟩ := natDigits_cons v.natAbs
  simp only [Json.isDigit, Bool.and_eq_true, decide_eq_true_eq] at hd
  rcases hs with hs | hs
  · subst hs
    exact ⟨h, t, by rw [e, e2]; rfl, Or.inr hd⟩
  · subst hs
    exact ⟨45, natDigits v.natAbs, by rw [e]; rfl, Or.inl rfl⟩

theorem parseValue_Itoa (v : Int) (c : Byte) (rest : GoString)
    (hc : c.val = 44 ∨ c.val = 125) :
    Json.parseValue (Itoa v ++ c :: rest) = .ok (.number (Itoa v), c :: rest) := by
  obtain ⟨sign, hs, e⟩ := Itoa_eq v
  have hnum := scanNumber_digits sign v.natAbs c rest hs hc
  rw [← e] at hnum
  obtain ⟨h, t, e2, hh⟩ := Itoa_cons v
  rw [e2] at hnum ⊢
  rw [show (h :: t) ++ c :: rest = h :: (t ++ c :: rest) from rfl] at hnum ⊢
  unfold Json.parseValue
  simp only [show ¬ h.val = 34 by omega, show ¬ (h.val = 123 ∨ h.val = 91) by omega,
    show ¬ h.val = 110 by omega, show ¬ h.val = 116 by omega, show ¬ h.val = 102 by omega,
    if_false, hnum]


theorem runeLen_spec (s : GoString) (n : Nat) (h : runeLen s = some n) :
    1 ≤ n ∧ n ≤ 4 ∧ n ≤ s.length ∧ ∀ Y, runeLen (s.take n ++ Y) = some n := by
  rcases s with _ | ⟨b0, _ | ⟨b1, _ | ⟨b2, _ | ⟨b3, r⟩⟩⟩⟩
  all_goals rw [runeLen.eq_def] at h
  all_goals simp only at h
  all_goals try split_ifs at h
  all_goals try (simp only [reduceCtorEq] at h)
  all_goals simp only [Option.some.injEq] at h
  all_goals subst h
  all_goals refine ⟨by omega, by omega, by simp, fun Y => ?_⟩
  all_goals rw [runeLen.eq_def]
  all_goals first | (simp [*]; done) | omega

theorem prepend_some (p s rest : GoString) :
    Json.prepend p (some (s, rest)) = some (p ++ s, rest) := rfl

theorem byte_ofNat_self (b : Byte) : (Fin.ofNat b.val : Byte) = b := by
  apply Fin.ext
  show b.val % 256 = b.val
  omega

theorem scanString_escapeAscii (b : Byte) (hb : b.val < 128) (f : Nat) (X : GoString) :
    Json.scanString (f + 1) (escapeAscii b ++ X) = Json.prepend [b] (Json.scanString f X) := by
  unfold escapeAscii
  split_ifs with h1 h2 h3 h4 h5 h6 h7
  · rw [Json.scanString.eq_def]
    simp only [List.cons_append, List.nil_append]
    rw [if_neg (by omega), if_neg (by omega), if_neg (by omega), if_pos hb]
  · rw [Json.scanString.eq_def]
    simp only [List.cons_append, List.nil_append, show ((92 : Byte)).val = 92 from rfl, if_true]
    have hne : ¬ b.val = 117 := by omega
    have : Json.simpleEscape b = some b := by
      unfold Json.simpleEscape
      rw [if_pos (by omega)]
    simp only [hne, if_false, this]
    rw [if_neg (by decide)]
  · have hc : b = 8 := Fin.ext h3
    subst hc
    rw [Json.scanString.eq_def]
    rfl
  · have hc : b = 12 := Fin.ext h4
    subst hc
    rw [Json.scanString.eq_def]
    rfl
  · have hc : b = 10 := Fin.ext h5
    subst hc
    rw [Json.scanString.eq_def]
    rfl
  · have hc : b = 13 := Fin.ext h6
    subst hc
    rw [Json.scanString.eq_def]
    rfl
  · have hc : b = 9 := Fin.ext h7
    subst hc
    rw [Json.scanString.eq_def]
    rfl
  · rw [Json.scanString.eq_def]
    simp only [List.cons_append, List.nil_append, show ((92 : Byte)).val = 92 from rfl,
      show ((117 : Byte)).val = 117 from rfl, if_true]
    have hx : Json.hex4 (48 :: 48 :: hexLower (b.val / 16) :: hexLower (b.val % 16) :: X) =
        some (b.val, X) := by
      unfold Json.hex4
      simp only [unhex_hexLower_nat (b.val / 16) (by omega),
        unhex_hexLower_nat (b.val % 16) (by omega), show unhex 48 = some 0 from rfl]
      congr 2
      omega
    have hns : ¬ (55296 ≤ b.val ∧ b.val < 56320) := by omega
    have he : Json.encodeRune b.val = [b] := by
      unfold Json.encodeRune
      rw [if_pos hb, byte_ofNat_self]
    simp only [hx, hns, if_false, he]
    rw [if_neg (by decide)]


theorem scanString_rune (b : Byte) (r : GoString) (n : Nat) (hb : ¬ b.val < 128)
    (hn : runeLen (b :: r) = some n) (f : Nat) (X : GoString) :
    Json.scanString (f + 1) ((b :: r).take n ++ X) =
      Json.prepend ((b :: r).take n) (Json.scanString f X) := by
  obtain ⟨h1, h4, hlen, hY⟩ := runeLen_spec (b :: r) n hn
  obtain ⟨m, rfl⟩ : ∃ m, n = m + 1 := ⟨n - 1, by omega⟩
  have hY' := hY X
  simp only [List.take_succ_cons, List.cons_append] at hY' ⊢
  simp only [List.length_cons] at hlen
  rw [Json.scanString.eq_def]
  simp only
  rw [if_neg (by omega), if_neg (by omega), if_neg (by omega), if_neg hb, hY']
  simp only [List.take_succ_cons, Nat.add_sub_cancel]
  rw [List.take_left' (by rw [List.length_take]; omega),
    List.drop_left' (by rw [List.length_take]; omega)]

theorem scanString_u2028 (f : Nat) (X : GoString) :
    Json.scanString (f + 1) (lit "\\u2028" ++ X) =
      Json.prepend [226, 128, 168] (Json.scanString f X) := by
  rw [Json.scanString.eq_def]
  rfl

theorem scanString_u2029 (f : Nat) (X : GoString) :
    Json.scanString (f + 1) (lit "\\u2029" ++ X) =
      Json.prepend [226, 128, 169] (Json.scanString f X) := by
  rw [Json.scanString.eq_def]
  rfl

theorem take3_eq (s : GoString) (a b c : Byte) (h : s.take 3 = [a, b, c]) :
    s = a :: b :: c :: s.drop 3 := by
  rcases s with _ | ⟨x, _ | ⟨y, _ | ⟨z, r⟩⟩⟩
  · simp at h
  · simp at h
  · simp at h
  · simp only [List.take_succ_cons, List.take_zero, List.cons.injEq, and_true] at h
    obtain ⟨rfl, rfl, rfl⟩ := h
    rfl

theorem runeLen_u2028 (X : GoString) : runeLen (226 :: 128 :: 168 :: X) = some 3 := by
  rw [runeLen.eq_def]
  rfl

theorem runeLen_u2029 (X : GoString) : runeLen (226 :: 128 :: 169 :: X) = some 3 := by
  rw [runeLen.eq_def]
  rfl

/-- Reading back what encoding/json wrote for a valid UTF-8 string gives the string. -/
theorem scanString_quoteLoop (f1 : Nat) :
    ∀ (s : GoString) (f2 : Nat) (rest : GoString), s.length ≤ f1 → s.length < f2 →
      validLoop f1 s = true →
      Json.scanString f2 (quoteLoop f1 s ++ 34 :: rest) = some (s, rest) := by
  induction f1 with
  | zero =>
    intro s f2 rest h1 h2 _
    have hs : s = [] := List.length_eq_zero.mp (by omega)
    subst hs
    obtain ⟨g, rfl⟩ : ∃ g, f2 = g + 1 := ⟨f2 - 1, by simp at h2; omega⟩
    rw [Json.scanString.eq_def]
    rfl
  | succ f1 ih =>
    intro s f2 rest h1 h2 hv
    obtain ⟨g, rfl⟩ : ∃ g, f2 = g + 1 := ⟨f2 - 1, by omega⟩
    rcases s with _ | ⟨b, r⟩
    · rw [Json.scanString.eq_def]
      rfl
    · simp only [List.length_cons] at h1 h2
      rw [validLoop] at hv
      rw [quoteLoop]
      by_cases hb : b.val < 128
      · have hn : runeLen (b :: r) = some 1 := by
          rw [runeLen.eq_def]
          simp only [hb, if_true]
        rw [hn] at hv
        simp only [Nat.sub_self, List.drop_zero] at hv
        rw [if_pos hb, List.append_assoc, scanString_escapeAscii b hb,
          ih r g rest (by omega) (by omega) hv]
        rfl
      · rw [if_neg hb]
        cases hn : runeLen (b :: r) with
        | none => rw [hn] at hv; simp at hv
        | some n =>
          rw [hn] at hv
          simp only at hv ⊢
          obtain ⟨n1, n4, nlen, -⟩ := runeLen_spec (b :: r) n hn
          simp only [List.length_cons] at nlen
          by_cases hls : (b :: r).take 3 = [226, 128, 168]
          · have e := take3_eq (b :: r) _ _ _ hls
            have hn3 : n = 3 := by
              rw [e, runeLen_u2028] at hn
              exact (Option.some.inj hn).symm
            subst hn3
            simp only [List.drop_succ_cons, List.cons.injEq] at e
            rw [if_pos hls, List.append_assoc, scanString_u2028,
              ih (r.drop 2) g rest (by rw [List.length_drop]; omega)
                (by rw [List.length_drop]; omega) hv, prepend_some]
            rw [e.1]
            conv_rhs => rw [e.2]
            rfl
          · rw [if_neg hls]
            by_cases hps : (b :: r).take 3 = [226, 128, 169]
            · have e := take3_eq (b :: r) _ _ _ hps
              have hn3 : n = 3 := by
                rw [e, runeLen_u2029] at hn
                exact (Option.some.inj hn).symm
              subst hn3
              simp only [List.drop_succ_cons, List.cons.injEq] at e
              rw [if_pos hps, List.append_assoc, scanString_u2029,
                ih (r.drop 2) g rest (by rw [List.length_drop]; omega)
                  (by rw [List.length_drop]; omega) hv, prepend_some]
              rw [e.1]
              conv_rhs => rw [e.2]
              rfl
            · rw [if_neg hps, List.append_assoc, scanString_rune b r n hb hn,
                ih (r.drop (n - 1)) g rest (by rw [List.length_drop]; omega)
                  (by rw [List.length_drop]; omega) hv, prepend_some]
              obtain ⟨m, rfl⟩ : ∃ m, n = m + 1 := ⟨n - 1, by omega⟩
              simp only [List.take_succ_cons, Nat.add_sub_cancel, List.cons_append,
                List.take_append_drop]

theorem scanString_quote (s rest : GoString) (f2 : Nat) (hf : s.length < f2)
    (hv : validUtf8 s = true) :
    Json.scanString f2 (quoteBody s ++ 34 :: rest) = some (s, rest) :=
  scanString_quoteLoop s.length s f2 rest (le_refl _) hf hv


theorem escapeAscii_length (b : Byte) : 1 ≤ (escapeAscii b).length := by
  unfold escapeAscii
  split_ifs <;> simp

theorem quoteLoop_length (f : Nat) :
    ∀ s : GoString, s.length ≤ f → s.length ≤ (quoteLoop f s).length := by
  induction f with
  | zero => intro s h; omega
  | succ f ih =>
    intro s h
    rcases s with _ | ⟨b, r⟩
    · simp
    · simp only [List.length_cons] at h
      rw [quoteLoop]
      by_cases hb : b.val < 128
      · rw [if_pos hb]
        have := escapeAscii_length b
        have := ih r (by omega)
        simp only [List.length_append, List.length_cons]
        omega
      · rw [if_neg hb]
        cases hn : runeLen (b :: r) with
        | none =>
          have := ih r (by omega)
          simp only [List.length_append, List.length_cons, show (lit "\\ufffd").length = 6 from rfl]
          omega
        | some n =>
          obtain ⟨n1, n4, nlen, -⟩ := runeLen_spec (b :: r) n hn
          simp only [List.length_cons] at nlen
          have h2 := ih (r.drop 2) (by rw [List.length_drop]; omega)
          have h3 := ih (r.drop (n - 1)) (by rw [List.length_drop]; omega)
          rw [List.length_drop] at h2 h3
          simp only
          split_ifs
          · simp only [List.length_append, List.length_cons,
              show (lit "\\u2028").length = 6 from rfl]
            omega
          · simp only [List.length_append, List.length_cons,
              show (lit "\\u2029").length = 6 from rfl]
            omega
          · simp only [List.length_append, List.length_cons, List.length_take]
            omega

theorem parseValue_quote (s rest : GoString) (hv : validUtf8 s = true) :
    Json.parseValue (quote s ++ rest) = .ok (.string s, rest) := by
  unfold quote
  simp only [List.cons_append, List.append_assoc, List.singleton_append, List.nil_append]
  unfold Json.parseValue
  simp only [show ((34 : Byte)).val = 34 from rfl, if_true]
  have hl := quoteLoop_length s.length s (le_refl _)
  rw [scanString_quote s rest _ (by
    unfold quoteBody
    simp only [List.length_append, List.length_cons]
    omega) hv]

theorem skipSpace_cons (c : Byte) (X : GoString) (hc : Json.isSpace c = false) :
    Json.skipSpace (c :: X) = c :: X := by
  rw [Json.skipSpace, hc]
  rfl

/-- One member of an object that is followed by a comma and the next key. -/
theorem parseMembers_comma (f : Nat) (k vtext : GoString) (v : Json.Value) (h : Byte)
    (vrest rest : GoString)
    (hk : quoteBody k = k) (hkv : validUtf8 k = true) (hvt : vtext = h :: vrest)
    (hh : Json.isSpace h = false)
    (hv : Json.parseValue (vtext ++ 44 :: 34 :: rest) = .ok (v, 44 :: 34 :: rest)) :
    Json.parseMembers (f + 1) (34 :: (k ++ 34 :: 58 :: (vtext ++ 44 :: 34 :: rest))) =
      match Json.parseMembers f (34 :: rest) with
      | .error e => .error e
      | .ok (ms, rest5) => .ok ((k, v) :: ms, rest5) := by
  rw [Json.parseMembers]
  simp only [show ((34 : Byte)).val = 34 from rfl, ne_eq, not_true_eq_false, if_false]
  have hs := scanString_quote k (58 :: (vtext ++ 44 :: 34 :: rest))
    ((k ++ 34 :: 58 :: (vtext ++ 44 :: 34 :: rest)).length + 1)
    (by simp only [List.length_append, List.length_cons]; omega) hkv
  rw [hk] at hs
  rw [hs]
  simp only
  rw [skipSpace_cons 58 _ rfl]
  simp only [show ((58 : Byte)).val = 58 from rfl, ne_eq, not_true_eq_false, if_false]
  have hsv : Json.skipSpace (vtext ++ 44 :: 34 :: rest) = vtext ++ 44 :: 34 :: rest := by
    rw [hvt]
    exact skipSpace_cons h _ hh
  rw [hsv, hv]
  simp only
  rw [skipSpace_cons 44 _ rfl]
  simp only [show ((44 : Byte)).val = 44 from rfl]
  rw [if_pos trivial, skipSpace_cons 34 _ rfl]
  exact if_neg (by decide)

/-- The last member of an object, followed by the closing brace. -/
theorem parseMembers_close (f : Nat) (k vtext : GoString) (v : Json.Value) (h : Byte)
    (vrest rest : GoString)
    (hk : quoteBody k = k) (hkv : validUtf8 k = true) (hvt : vtext = h :: vrest)
    (hh : Json.isSpace h = false)
    (hv : Json.parseValue (vtext ++ 125 :: rest) = .ok (v, 125 :: rest)) :
    Json.parseMembers (f + 1) (34 :: (k ++ 34 :: 58 :: (vtext ++ 125 :: rest))) =
      .ok ([(k, v)], rest) := by
  rw [Json.parseMembers]
  simp only [show ((34 : Byte)).val = 34 from rfl, ne_eq, not_true_eq_false, if_false]
  have hs := scanString_quote k (58 :: (vtext ++ 125 :: rest))
    ((k ++ 34 :: 58 :: (vtext ++ 125 :: rest)).length + 1)
    (by simp only [List.length_append, List.length_cons]; omega) hkv
  rw [hk] at hs
  rw [hs]
  simp only
  rw [skipSpace_cons 58 _ rfl]
  simp only [show ((58 : Byte)).val = 58 from rfl, ne_eq, not_true_eq_false, if_false]
  have hsv : Json.skipSpace (vtext ++ 125 :: rest) = vtext ++ 125 :: rest := by
    rw [hvt]
    exact skipSpace_cons h _ hh
  rw [hsv, hv]
  simp only
  rw [skipSpace_cons 125 _ rfl]
  simp only [show ((125 : Byte)).val = 125 from rfl, if_true]

/-- The text of json.Marshal, member by member. -/
theorem Marshal_eq (G : SliderInfo) :
    Json.Marshal G = .ok (123 :: 34 :: (lit "BacW" ++ 34 :: 58 :: (Itoa G.BacW ++ 44 :: 34 ::
      (lit "BacH" ++ 34 :: 58 :: (Itoa G.BacH ++ 44 :: 34 ::
      (lit "SliderW" ++ 34 :: 58 :: (Itoa G.SliderW ++ 44 :: 34 ::
      (lit "SliderH" ++ 34 :: 58 :: (Itoa G.SliderH ++ 44 :: 34 ::
      (lit "Dx" ++ 34 :: 58 :: (Itoa G.Dx ++ 44 :: 34 ::
      (lit "Dy" ++ 34 :: 58 :: (Itoa G.Dy ++ 44 :: 34 ::
      (lit "Src" ++ 34 :: 58 :: (quote G.Src ++ 44 :: 34 ::
      (lit "Time" ++ 34 :: 58 :: (Itoa G.Time ++ 125 :: []))))))))))))))))) := by
  unfold Json.Marshal
  rw [show lit "\x7b\"BacW\":" = 123 :: 34 :: (lit "BacW" ++ [34, 58]) from rfl,
    show lit ",\"BacH\":" = 44 :: 34 :: (lit "BacH" ++ [34, 58]) from rfl,
    show lit ",\"SliderW\":" = 44 :: 34 :: (lit "SliderW" ++ [34, 58]) from rfl,
    show lit ",\"SliderH\":" = 44 :: 34 :: (lit "SliderH" ++ [34, 58]) from rfl,
    show lit ",\"Dx\":" = 44 :: 34 :: (lit "Dx" ++ [34, 58]) from rfl,
    show lit ",\"Dy\":" = 44 :: 34 :: (lit "Dy" ++ [34, 58]) from rfl,
    show lit ",\"Src\":" = 44 :: 34 :: (lit "Src" ++ [34, 58]) from rfl,
    show lit ",\"Time\":" = 44 :: 34 :: (lit "Time" ++ [34, 58]) from rfl,
    show lit "\x7d" = [125] from rfl]
  simp only [List.append_assoc, List.cons_append, List.nil_append, List.singleton_append]

theorem parse_int_member (v : Int) (c : Byte) (rest : GoString) (hc : c.val = 44 ∨ c.val = 125) :
    ∃ h vrest, Itoa v = h :: vrest ∧ Json.isSpace h = false ∧
      Json.parseValue (Itoa v ++ c :: rest) = .ok (.number (Itoa v), c :: rest) := by
  obtain ⟨h, t, e, hh⟩ := Itoa_cons v
  refine ⟨h, t, e, ?_, parseValue_Itoa v c rest hc⟩
  simp only [Json.isSpace, Bool.or_eq_false_iff, decide_eq_false_iff_not]
  omega

theorem members_int_comma (f : Nat) (k : GoString) (v : Int) (rest : GoString)
    (ms : List (GoString × Json.Value)) (rest5 : GoString)
    (hk : quoteBody k = k) (hkv : validUtf8 k = true)
    (h : Json.parseMembers f (34 :: rest) = .ok (ms, rest5)) :
    Json.parseMembers (f + 1) (34 :: (k ++ 34 :: 58 :: (Itoa v ++ 44 :: 34 :: rest))) =
      .ok ((k, .number (Itoa v)) :: ms, rest5) := by
  obtain ⟨h1, t1, e1, s1, p1⟩ := parse_int_member v 44 (34 :: rest) (Or.inl rfl)
  rw [parseMembers_comma f k (Itoa v) _ h1 t1 rest hk hkv e1 s1 p1, h]

theorem members_int_close (f : Nat) (k : GoString) (v : Int)
    (hk : quoteBody k = k) (hkv : validUtf8 k = true) :
    Json.parseMembers (f + 1) (34 :: (k ++ 34 :: 58 :: (Itoa v ++ 125 :: []))) =
      .ok ([(k, .number (Itoa v))], []) := by
  obtain ⟨h1, t1, e1, s1, p1⟩ := parse_int_member v 125 [] (Or.inr rfl)
  rw [parseMembers_close f k (Itoa v) _ h1 t1 [] hk hkv e1 s1 p1]

theorem members_string_comma (f : Nat) (k s rest : GoString)
    (ms : List (GoString × Json.Value)) (rest5 : GoString)
    (hk : quoteBody k = k) (hkv : validUtf8 k = true) (hs : validUtf8 s = true)
    (h : Json.parseMembers f (34 :: rest) = .ok (ms, rest5)) :
    Json.parseMembers (f + 1) (34 :: (k ++ 34 :: 58 :: (quote s ++ 44 :: 34 :: rest))) =
      .ok ((k, .string s) :: ms, rest5) := by
  rw [parseMembers_comma f k (quote s) (.string s) 34 (quoteBody s ++ [34]) rest hk hkv
    (by unfold quote; rfl) rfl
    (parseValue_quote s _ hs), h]

theorem parseMembers_Marshal (G : SliderInfo) (hv : validUtf8 G.Src = true) (f : Nat)
    (hf : 8 ≤ f) :
    Json.parseMembers f (34 :: (lit "BacW" ++ 34 :: 58 :: (Itoa G.BacW ++ 44 :: 34 ::
      (lit "BacH" ++ 34 :: 58 :: (Itoa G.BacH ++ 44 :: 34 ::
      (lit "SliderW" ++ 34 :: 58 :: (Itoa G.SliderW ++ 44 :: 34 ::
      (lit "SliderH" ++ 34 :: 58 :: (Itoa G.SliderH ++ 44 :: 34 ::
      (lit "Dx" ++ 34 :: 58 :: (Itoa G.Dx ++ 44 :: 34 ::
      (lit "Dy" ++ 34 :: 58 :: (Itoa G.Dy ++ 44 :: 34 ::
      (lit "Src" ++ 34 :: 58 :: (quote G.Src ++ 44 :: 34 ::
      (lit "Time" ++ 34 :: 58 :: (Itoa G.Time ++ 125 :: []))))))))))))))))) =
    .ok ([(lit "BacW", .number (Itoa G.BacW)), (lit "BacH", .number (Itoa G.BacH)),
      (lit "SliderW", .number (Itoa G.SliderW)), (lit "SliderH", .number (Itoa G.SliderH)),
      (lit "Dx", .number (Itoa G.Dx)), (lit "Dy", .number (Itoa G.Dy)),
      (lit "Src", .string G.Src), (lit "Time", .number (Itoa G.Time))], []) := by
  obtain ⟨g, rfl⟩ : ∃ g, f = g + 8 := ⟨f - 8, by omega⟩
  exact members_int_comma (g + 7) _ _ _ _ _ rfl rfl
    (members_int_comma (g + 6) _ _ _ _ _ rfl rfl
    (members_int_comma (g + 5) _ _ _ _ _ rfl rfl
    (members_int_comma (g + 4) _ _ _ _ _ rfl rfl
    (members_int_comma (g + 3) _ _ _ _ _ rfl rfl
    (members_int_comma (g + 2) _ _ _ _ _ rfl rfl
    (members_string_comma (g + 1) _ _ _ _ _ rfl rfl hv
    (members_int_close g _ _ rfl rfl)))))))

theorem storeInt_Itoa (old v : Int) (hv : isInt v) :
    Json.storeInt old (.number (Itoa v)) = (v, false) := by
  unfold Json.storeInt
  simp only [Atoi_Itoa v hv]

/-- The eight members that json.Marshal writes, assigned to the zero record. -/
theorem assignAll_Marshal (G : SliderInfo) (h1 : isInt G.BacW) (h2 : isInt G.BacH)
    (h3 : isInt G.SliderW) (h4 : isInt G.SliderH) (h5 : isInt G.Dx) (h6 : isInt G.Dy)
    (h7 : isInt G.Time) :
    Json.assignAll SliderInfo.zero
      [(lit "BacW", .number (Itoa G.BacW)), (lit "BacH", .number (Itoa G.BacH)),
      (lit "SliderW", .number (Itoa G.SliderW)), (lit "SliderH", .number (Itoa G.SliderH)),
      (lit "Dx", .number (Itoa G.Dx)), (lit "Dy", .number (Itoa G.Dy)),
      (lit "Src", .string G.Src), (lit "Time", .number (Itoa G.Time))] = (G, false) := by
  have a1 : ∀ t v, Json.assign t (lit "BacW") v =
      ({ t with BacW := (Json.storeInt t.BacW v).1 }, (Json.storeInt t.BacW v).2) :=
    fun _ _ => rfl
  have a2 : ∀ t v, Json.assign t (lit "BacH") v =
      ({ t with BacH := (Json.storeInt t.BacH v).1 }, (Json.storeInt t.BacH v).2) :=
    fun _ _ => rfl
  have a3 : ∀ t v, Json.assign t (lit "SliderW") v =
      ({ t with SliderW := (Json.storeInt t.SliderW v).1 }, (Json.storeInt t.SliderW v).2) :=
    fun _ _ => rfl
  have a4 : ∀ t v, Json.assign t (lit "SliderH") v =
      ({ t with SliderH := (Json.storeInt t.SliderH v).1 }, (Json.storeInt t.SliderH v).2) :=
    fun _ _ => rfl
  have a5 : ∀ t v, Json.assign t (lit "Dx") v =
      ({ t with Dx := (Json.storeInt t.Dx v).1 }, (Json.storeInt t.Dx v).2) :=
    fun _ _ => rfl
  have a6 : ∀ t v, Json.assign t (lit "Dy") v =
      ({ t with Dy := (Json.storeInt t.Dy v).1 }, (Json.storeInt t.Dy v).2) :=
    fun _ _ => rfl
  have a7 : ∀ t v, Json.assign t (lit "Src") v =
      ({ t with Src := (Json.storeString t.Src v).1 }, (Json.storeString t.Src v).2) :=
    fun _ _ => rfl
  have a8 : ∀ t v, Json.assign t (lit "Time") v =
      ({ t with Time := (Json.storeInt t.Time v).1 }, (Json.storeInt t.Time v).2) :=
    fun _ _ => rfl
  simp only [Json.assignAll, a1, a2, a3, a4, a5, a6, a7, a8, storeInt_Itoa _ _ h1,
    storeInt_Itoa _ _ h2, storeInt_Itoa _ _ h3, storeInt_Itoa _ _ h4, storeInt_Itoa _ _ h5,
    storeInt_Itoa _ _ h6, storeInt_Itoa _ _ h7, Json.storeString, Bool.or_false]

/-- Decoding what json.Marshal wrote gives the record back when Src is valid UTF-8 and
the integers are in the range of int. -/
theorem Unmarshal_Marshal (G : SliderInfo) (source : GoString)
    (hm : Json.Marshal G = .ok source) (hv : validUtf8 G.Src = true)
    (h1 : isInt G.BacW) (h2 : isInt G.BacH) (h3 : isInt G.SliderW) (h4 : isInt G.SliderH)
    (h5 : isInt G.Dx) (h6 : isInt G.Dy) (h7 : isInt G.Time) :
    source ≠ [] ∧ Json.Unmarshal source SliderInfo.zero = (G, none) := by
  rw [Marshal_eq] at hm
  have hs := (Except.ok.inj hm).symm
  subst hs
  refine ⟨by simp, ?_⟩
  unfold Json.Unmarshal Json.parseTop
  rw [skipSpace_cons 123 _ rfl]
  simp only [show ((123 : Byte)).val = 123 from rfl, if_true]
  rw [skipSpace_cons 34 _ rfl]
  simp only [show ((34 : Byte)).val = 34 from rfl]
  rw [if_neg (by decide), parseMembers_Marshal G hv _ (by
    simp only [List.length_cons, List.length_append]
    omega)]
  simp only [Json.skipSpace, if_true, assignAll_Marshal G h1 h2 h3 h4 h5 h6 h7]
  rfl


theorem Query_QueryEscape (s : GoString) : Query (QueryEscape s) = s := by
  unfold Query
  rw [QueryUnescape_QueryEscape]
  rfl

theorem sampleCipher_reverses : sampleCipher.Reverses := by
  intro text k
  simp only [sampleCipher, List.map_map]
  conv_rhs => rw [← List.map_id text]
  apply List.map_congr_left
  intro b _
  simp only [Function.comp_apply, id_eq]
  exact add_sub_cancel_right b _

theorem Atoi_isInt (s : GoString) (v : Int) (h : Atoi s = some v) : isInt v := by
  unfold Atoi at h
  by_cases he : (splitSign s).2 = []
  · rw [if_pos he] at h
    exact absurd h (by simp)
  · rw [if_neg he] at h
    cases hd : digitsValue (splitSign s).2 0 with
    | none => rw [hd] at h; exact absurd h (by simp)
    | some n =>
      rw [hd] at h
      simp only at h
      by_cases hi : isInt (if (splitSign s).1 = true then -(n : Int) else (n : Int))
      · rw [if_pos hi] at h
        rw [← Option.some.inj h]
        exact hi
      · rw [if_neg hi] at h
        exact absurd h (by simp)

theorem getCode_width_isInt (form : Option GoString) : isInt (getCode_width form) := by
  unfold getCode_width
  cases h : Atoi (form.getD []) with
  | none => decide
  | some v => exact Atoi_isInt _ v h

/-- Every integer field of a record that getCode produces is in the range of int. -/
theorem getCode_slider_isInt (w : Int) (r1 r2 r3 : Nat) (dir : GoString) (fs : FileSystem)
    (now stamp : Int) (G : SliderInfo) (hw : isInt w) (hnow : isInt now)
    (h : getCode_slider w r1 r2 r3 dir fs now stamp = .ok (.ok G)) :
    isInt G.BacW ∧ isInt G.BacH ∧ isInt G.SliderW ∧ isInt G.SliderH ∧ isInt G.Dx ∧
      isInt G.Dy ∧ isInt G.Time := by
  obtain ⟨p, hp, b1, b2, b3, b4, b5, b6, b7⟩ := getCode_slider_inv w r1 r2 r3 dir fs now stamp G h
  obtain ⟨a1, a2, a3, a4, a5, a6, a7⟩ := getCode_plan_inv w r1 r2 p hw hp
  have hs : getSliderSize w = 30 ∨ getSliderSize w = 40 ∨ getSliderSize w = 50 := by
    rcases getSliderSize_cases w with c | c | c <;> omega
  have hh : -9223372036854775808 ≤ getCode_hight w ∧ getCode_hight w ≤ 9223372036854775807 := by
    unfold getCode_hight goDiv
    exact wrapInt_range _
  rw [b1, b2, b3, b4, b5, b6, b7]
  unfold isInt minInt maxInt at *
  rw [a2] at a7
  rw [a1] at a4 a5 a7
  rw [a1, a2]
  refine ⟨hw, hh, ?_, ?_, ?_, ?_, hnow⟩ <;> omega

/-- The envelope of a successful getCode carries the escaped, encrypted JSON text of the
record. -/
theorem getCode_sign (aes : Cipher) (form : Option GoString) (r1 r2 r3 : Nat) (dir : GoString)
    (fs : FileSystem) (now stamp : Int) (G : SliderInfo) (res : JsonRes) (d : CodeData)
    (hG : getCode_slider (getCode_width form) r1 r2 r3 dir fs now stamp = .ok (.ok G))
    (hres : getCode aes form r1 r2 r3 dir fs now stamp = .ok res) (hd : res.Data = some d) :
    ∃ source, Json.Marshal G = .ok source ∧
      d.sign = QueryEscape (aes.AesEncryptCBC source key) := by
  unfold getCode at hres
  dsimp only at hres
  rw [hG] at hres
  simp only [bind, Except.bind, Json.Marshal, pure, Except.pure, Except.ok.injEq] at hres
  subst hres
  simp only [responseJson, Option.some.injEq] at hd
  subst hd
  exact ⟨_, rfl, rfl⟩

/-! ## Helper lemmas: the background image and the blend -/

/-- A non-empty rectangle that lies in another one is its intersection with it. -/
theorem Intersect_eq_left (r s : Rectangle)
    (hne : r.Min.X < r.Max.X ∧ r.Min.Y < r.Max.Y)
    (hsub : s.Min.X ≤ r.Min.X ∧ s.Min.Y ≤ r.Min.Y ∧ r.Max.X ≤ s.Max.X ∧ r.Max.Y ≤ s.Max.Y) :
    r.Intersect s = r := by
  have h1 : ¬ r.Min.X < s.Min.X := by omega
  have h2 : ¬ r.Min.Y < s.Min.Y := by omega
  have h3 : ¬ r.Max.X > s.Max.X := by omega
  have h4 : ¬ r.Max.Y > s.Max.Y := by omega
  have h5 : ¬ (r.Min.X ≥ r.Max.X ∨ r.Min.Y ≥ r.Max.Y) := by omega
  unfold Rectangle.Intersect
  simp only [if_neg h1, if_neg h2, if_neg h3, if_neg h4, Rectangle.Empty, Bool.or_eq_true,
    decide_eq_true_eq, if_neg h5]

/-- The pixel that draw.Draw writes at a point of the clipped rectangle. -/
theorem Draw_pix (dst : Image) (r : Rectangle) (src : Image) (sp : Point)
    (op : Pixel → Pixel → Pixel) (c : Rectangle) (x y : Int)
    (hc : (r.Intersect dst.Bounds).Intersect
      (src.Bounds.Add { X := wrapInt (r.Min.X - sp.X), Y := wrapInt (r.Min.Y - sp.Y) }) = c)
    (hne : c.Empty = false) (hin : c.Contains x y = true) :
    (Draw dst r src sp op).pix x y =
      op (dst.pix x y)
        (src.pix (wrapInt (x - wrapInt (r.Min.X - sp.X))) (wrapInt (y - wrapInt (r.Min.Y - sp.Y)))) := by
  unfold Draw
  simp only [hc, hne, Bool.false_eq_true, if_false, hin, if_true]

/-- The pixel of the written background at the corner of a non-empty notch that lies in
the canvas: the converted pixel of the resized picture, with the mask drawn over it. -/
theorem notch_pixel (R : Image) (G : SliderInfo) (hBW : G.BacW ≤ maxInt) (hBH : G.BacH ≤ maxInt)
    (hW : 0 < G.SliderW) (hH : 0 < G.SliderH) (hin : notchInCanvas G)
    (hres : R.Bounds = Rect 0 0 G.BacW G.BacH) :
    (Draw
      (Draw { Bounds := Rect 0 0 G.BacW G.BacH, pix := fun _ _ => Pixel.zero }
        (Rect 0 0 G.BacW G.BacH) R { X := 0, Y := 0 } drawNRGBASrc)
      (Rect G.Dx G.Dy (wrapInt (G.Dx + G.SliderW)) (wrapInt (G.Dy + G.SliderH)))
      { Bounds := Rect 0 0 G.SliderW G.SliderH
        pix := fun x y =>
          if 0 ≤ x ∧ x < G.SliderW ∧ 0 ≤ y ∧ y < G.SliderH ∧
              (Rect 0 0 G.SliderW G.SliderH).Contains x y then
            { R := 0, G := 0, B := 0, A := Fin.ofNat (100 % 256) }
          else Pixel.zero }
      { X := 0, Y := 0 } drawAlphaOver).pix G.Dx G.Dy =
    drawAlphaOver (drawNRGBASrc Pixel.zero (R.pix G.Dx G.Dy))
      { R := 0, G := 0, B := 0, A := Fin.ofNat (100 % 256) } := by
  obtain ⟨i1, i2, i3, i4⟩ := hin
  unfold maxInt at hBW hBH
  have w0 : wrapInt (0 - 0) = 0 := by decide
  have w00 : wrapInt 0 = 0 := by decide
  have wx : wrapInt (G.Dx + G.SliderW) = G.Dx + G.SliderW := wrapInt_eq _ (by omega) (by omega)
  have wy : wrapInt (G.Dy + G.SliderH) = G.Dy + G.SliderH := wrapInt_eq _ (by omega) (by omega)
  have hR : Rect 0 0 G.BacW G.BacH = (Rectangle.mk ⟨0, 0⟩ ⟨G.BacW, G.BacH⟩) :=
    Rect_le _ _ _ _ (by omega) (by omega)
  have hA : Rect 0 0 G.SliderW G.SliderH = (Rectangle.mk ⟨0, 0⟩ ⟨G.SliderW, G.SliderH⟩) :=
    Rect_le _ _ _ _ (by omega) (by omega)
  have hS : Rect G.Dx G.Dy (G.Dx + G.SliderW) (G.Dy + G.SliderH) =
      (Rectangle.mk ⟨G.Dx, G.Dy⟩ ⟨G.Dx + G.SliderW, G.Dy + G.SliderH⟩) :=
    Rect_le _ _ _ _ (by omega) (by omega)
  rw [wx, wy, hS, hA, hR]
  rw [hR] at hres
  -- the first draw: the whole canvas is copied
  have c1 : (Rectangle.Intersect (Rectangle.mk ⟨0, 0⟩ ⟨G.BacW, G.BacH⟩)
      (Image.Bounds (Image.mk (Rectangle.mk ⟨0, 0⟩ ⟨G.BacW, G.BacH⟩) fun _ _ => Pixel.zero))).Intersect
      (R.Bounds.Add { X := wrapInt ((0 : Int) - 0), Y := wrapInt ((0 : Int) - 0) }) =
      (Rectangle.mk ⟨0, 0⟩ ⟨G.BacW, G.BacH⟩) := by
    rw [hres, w0]
    have ha : Rectangle.Add (Rectangle.mk ⟨0, 0⟩ ⟨G.BacW, G.BacH⟩) { X := 0, Y := 0 } =
        (Rectangle.mk ⟨0, 0⟩ ⟨G.BacW, G.BacH⟩) := by
      unfold Rectangle.Add
      simp only [add_zero]
      rw [wrapInt_eq 0 (by omega) (by omega), wrapInt_eq G.BacW (by omega) (by omega),
        wrapInt_eq G.BacH (by omega) (by omega)]
    rw [ha, Intersect_eq_left (Rectangle.mk ⟨0, 0⟩ ⟨G.BacW, G.BacH⟩)
        (Rectangle.mk ⟨0, 0⟩ ⟨G.BacW, G.BacH⟩) (by simp only; omega) (by simp only; omega),
      Intersect_eq_left _ _ (by simp only; omega) (by simp only; omega)]
  have p1 := Draw_pix (Image.mk (Rectangle.mk ⟨0, 0⟩ ⟨G.BacW, G.BacH⟩) fun _ _ => Pixel.zero) (Rectangle.mk ⟨0, 0⟩ ⟨G.BacW, G.BacH⟩) R
      { X := 0, Y := 0 } drawNRGBASrc _ G.Dx G.Dy c1
      (by simp only [Rectangle.Empty, ge_iff_le, Bool.or_eq_false_iff, decide_eq_false_iff_not,
            not_le]; omega)
      (by simp only [Rectangle.Contains, Bool.and_eq_true, decide_eq_true_eq]; omega)
  simp only [w0, w00, sub_zero] at p1
  rw [wrapInt_eq G.Dx (by omega) (by omega), wrapInt_eq G.Dy (by omega) (by omega)] at p1
  -- the second draw: the notch receives the mask
  have dx0 : wrapInt (G.Dx - 0) = G.Dx := by
    rw [sub_zero]; exact wrapInt_eq _ (by omega) (by omega)
  have dy0 : wrapInt (G.Dy - 0) = G.Dy := by
    rw [sub_zero]; exact wrapInt_eq _ (by omega) (by omega)
  have c2 : (Rectangle.Intersect
      (Rectangle.mk ⟨G.Dx, G.Dy⟩ ⟨G.Dx + G.SliderW, G.Dy + G.SliderH⟩)
      (Draw (Image.mk (Rectangle.mk ⟨0, 0⟩ ⟨G.BacW, G.BacH⟩) fun _ _ => Pixel.zero)
        (Rectangle.mk ⟨0, 0⟩ ⟨G.BacW, G.BacH⟩) R { X := 0, Y := 0 } drawNRGBASrc).Bounds).Intersect
      (Rectangle.Add (Rectangle.mk ⟨0, 0⟩ ⟨G.SliderW, G.SliderH⟩)
        { X := wrapInt (G.Dx - 0), Y := wrapInt (G.Dy - 0) }) =
      (Rectangle.mk ⟨G.Dx, G.Dy⟩ ⟨G.Dx + G.SliderW, G.Dy + G.SliderH⟩) := by
    rw [Draw_Bounds, dx0, dy0]
    have ha : Rectangle.Add (Rectangle.mk ⟨0, 0⟩ ⟨G.SliderW, G.SliderH⟩)
        { X := G.Dx, Y := G.Dy } =
        (Rectangle.mk ⟨G.Dx, G.Dy⟩ ⟨G.SliderW + G.Dx, G.SliderH + G.Dy⟩) := by
      unfold Rectangle.Add
      simp only [zero_add]
      rw [wrapInt_eq G.Dx (by omega) (by omega), wrapInt_eq G.Dy (by omega) (by omega),
        wrapInt_eq (G.SliderW + G.Dx) (by omega) (by omega),
        wrapInt_eq (G.SliderH + G.Dy) (by omega) (by omega)]
    rw [ha, Intersect_eq_left (Rectangle.mk ⟨G.Dx, G.Dy⟩ ⟨G.Dx + G.SliderW, G.Dy + G.SliderH⟩)
        (Rectangle.mk ⟨0, 0⟩ ⟨G.BacW, G.BacH⟩) (by simp only; omega) (by simp only; omega),
      Intersect_eq_left _ _ (by simp only; omega) (by simp only; omega)]
  have p2 := Draw_pix
      (Draw (Image.mk (Rectangle.mk ⟨0, 0⟩ ⟨G.BacW, G.BacH⟩) fun _ _ => Pixel.zero)
        (Rectangle.mk ⟨0, 0⟩ ⟨G.BacW, G.BacH⟩) R { X := 0, Y := 0 } drawNRGBASrc)
      (Rectangle.mk ⟨G.Dx, G.Dy⟩ ⟨G.Dx + G.SliderW, G.Dy + G.SliderH⟩)
      { Bounds := (Rectangle.mk ⟨0, 0⟩ ⟨G.SliderW, G.SliderH⟩)
        pix := fun x y =>
          if 0 ≤ x ∧ x < G.SliderW ∧ 0 ≤ y ∧ y < G.SliderH ∧
              Rectangle.Contains (Rectangle.mk ⟨0, 0⟩ ⟨G.SliderW, G.SliderH⟩) x y then
            { R := 0, G := 0, B := 0, A := Fin.ofNat (100 % 256) }
          else Pixel.zero }
      { X := 0, Y := 0 } drawAlphaOver _ G.Dx G.Dy c2
      (by simp only [Rectangle.Empty, ge_iff_le, Bool.or_eq_false_iff, decide_eq_false_iff_not,
            not_le]; omega)
      (by simp only [Rectangle.Contains, Bool.and_eq_true, decide_eq_true_eq]; omega)
  rw [p2, p1]
  simp only [dx0, dy0, sub_self]
  rw [w00]
  rw [if_pos (by
    refine ⟨le_refl _, hW, le_refl _, hH, ?_⟩
    simp only [Rectangle.Contains, Bool.and_eq_true, decide_eq_true_eq]
    omega)]

/-- The arithmetic of draw.Over for the mask of alpha 100 is the blend of the
specification, on every channel value. -/
theorem blend_channel (c : Byte) :
    (Fin.ofNat ((c.val * ((65535 - (Fin.ofNat (100 % 256) : Byte).val * 257 * 65535 / 65535) * 257) +
      (Fin.ofNat (100 % 256) : Byte).val * 257 * 65535) / 65535 / 256) : Byte) =
      specBlendChannel c := by
  revert c
  decide

theorem drawAlphaOver_mask (o : Pixel) :
    drawAlphaOver o { R := 0, G := 0, B := 0, A := Fin.ofNat (100 % 256) } = specBlend o := by
  unfold drawAlphaOver specBlend
  simp only [blend_channel]

theorem specBlendChannel_ge (c : Byte) : 100 ≤ (specBlendChannel c).val := by
  revert c
  decide

theorem specBlendChannel_eq_100 (c : Byte) : specBlendChannel c = 100 ↔ c = 0 := by
  revert c
  decide

theorem specBlend_ne_zero (o : Pixel) : specBlend o ≠ Pixel.zero := by
  intro h
  have hA : (specBlend o).A = (0 : Byte) := by rw [h]; rfl
  have := specBlendChannel_ge o.A
  unfold specBlend at hA
  simp only at hA
  rw [hA] at this
  exact absurd this (by decide)

theorem specBlend_eq_maskAlone (o : Pixel) : specBlend o = maskAlone ↔ o = Pixel.zero := by
  constructor
  · intro h
    unfold specBlend maskAlone at h
    simp only [Pixel.mk.injEq, specBlendChannel_eq_100] at h
    obtain ⟨h1, h2, h3, h4⟩ := h
    cases o
    simp only at h1 h2 h3 h4
    subst h1 h2 h3 h4
    rfl
  · intro h
    subst h
    decide

theorem premul_alpha (a : Byte) : (Fin.ofNat (a.val * 257 / 256) : Byte) = 0 ↔ a = 0 := by
  revert a
  decide

/-- The pixel that draw.Src stores for a picture pixel is zero exactly when the picture
pixel is fully transparent. -/
theorem drawNRGBASrc_eq_zero (d s : Pixel) : drawNRGBASrc d s = Pixel.zero ↔ s.A = 0 := by
  unfold drawNRGBASrc Pixel.zero
  simp only [Pixel.mk.injEq]
  constructor
  · intro h
    exact (premul_alpha s.A).mp h.2.2.2
  · intro h
    rw [h]
    simp
    rfl

theorem opaque_channel (c : Byte) :
    (Fin.ofNat (c.val * ((255 : Byte).val * 257) / 255 / 256) : Byte) = c := by
  revert c
  decide

/-- The pixel that draw.Src stores for an opaque picture pixel is that pixel. -/
theorem drawNRGBASrc_opaque (d s : Pixel) (h : s.A = 255) : drawNRGBASrc d s = s := by
  cases s
  simp only at h
  subst h
  unfold drawNRGBASrc
  simp only [opaque_channel]
  rfl

/-- A piece of 2^30 x 2^30 pixels is refused by make, whatever the memory: its pixel
buffer of 2^62 bytes is above maxAlloc. -/
theorem NewRGBA_makeslice (mem : Int) :
    NewRGBA mem (Rect 0 0 1073741824 1073741824) = .error .makesliceLenOutOfRange := by
  unfold NewRGBA newImage
  rfl

/-! ## Helper lemmas: the draw of getPic -/

/-- The index that getPic draws in a pool of at least two files is below the last one. -/
theorem getPic_index (files : List GoString) (r : Nat) (hn : 2 ≤ files.length)
    (hmax : (files.length : Int) ≤ maxInt) :
    ∃ i file, i < files.length - 1 ∧ files[i]? = some file ∧
      (do
        let randInt ← Intn r (wrapInt ((files.length : Int) - 1))
        match files[randInt.toNat]? with
        | some file => pure (file, none)
        | none => Except.error Panic.indexOutOfRange :
        Except Panic (GoString × Option GoError)) = .ok (file, none) := by
  unfold maxInt at hmax
  have e : wrapInt ((files.length : Int) - 1) = (files.length : Int) - 1 :=
    wrapInt_eq _ (by omega) (by omega)
  obtain ⟨i1, i2, i3⟩ := Intn_ok r ((files.length : Int) - 1) (by omega)
  have hlt : ((r : Int) % ((files.length : Int) - 1)).toNat < files.length - 1 := by omega
  have hlt' : ((r : Int) % ((files.length : Int) - 1)).toNat < files.length := by omega
  refine ⟨_, files[((r : Int) % ((files.length : Int) - 1)).toNat], hlt,
    List.getElem?_eq_getElem hlt', ?_⟩
  rw [e, i1]
  simp only [bind, Except.bind, List.getElem?_eq_getElem hlt']
  rfl

/-- In a list without repetition, an entry below the last index is not the last entry. -/
theorem not_last_of_index (files : List GoString) (i : Nat) (file : GoString)
    (hi : i < files.length - 1) (hf : files[i]? = some file) (hnd : files.Nodup)
    (hne : files ≠ []) : file ≠ files.getLast hne := by
  intro hc
  have hi' : i < files.length := by omega
  rw [List.getElem?_eq_getElem hi'] at hf
  have hf' := Option.some.inj hf
  rw [List.getLast_eq_getElem, ← hf'] at hc
  have := (List.Nodup.getElem_inj_iff hnd).mp hc
  omega

/-! ## Helper lemmas: the arguments of rand.Intn in getCode -/

/-- The two arguments that getCode passes to rand.Intn, when 200 * w fits the int. -/
theorem getCode_plan_args (w : Int) (hlo : minInt ≤ 200 * w) (hhi : 200 * w ≤ maxInt) :
    wrapInt (w - wrapInt (2 * getSliderSize w)) = w - 2 * getSliderSize w ∧
    wrapInt (getCode_hight w - getSliderSize w) = Int.tdiv (200 * w) 400 - getSliderSize w := by
  unfold minInt at hlo
  unfold maxInt at hhi
  have hs : getSliderSize w = 30 ∨ getSliderSize w = 40 ∨ getSliderSize w = 50 := by
    rcases getSliderSize_cases w with h | h | h <;> omega
  have e1 : wrapInt (2 * getSliderSize w) = 2 * getSliderSize w := wrapInt_eq _ (by omega) (by omega)
  have e2 : wrapInt (w - 2 * getSliderSize w) = w - 2 * getSliderSize w :=
    wrapInt_eq _ (by omega) (by omega)
  have e0 : wrapInt (200 * w) = 200 * w := wrapInt_eq _ hlo hhi
  have hh : getCode_hight w = Int.tdiv (200 * w) 400 := by
    unfold getCode_hight bacH bacW goDiv
    rw [e0]
    apply wrapInt_eq <;> (rw [tdiv_400]; split <;> omega)
  have e3 : wrapInt (Int.tdiv (200 * w) 400 - getSliderSize w) =
      Int.tdiv (200 * w) 400 - getSliderSize w := by
    apply wrapInt_eq <;> (rw [tdiv_400]; split <;> omega)
  rw [e1, e2, hh, e3]
  exact ⟨rfl, rfl⟩

/-- Both arguments are positive exactly from width 62 on. -/
theorem getCode_plan_args_pos (w : Int) :
    (0 < w - 2 * getSliderSize w ∧ 0 < Int.tdiv (200 * w) 400 - getSliderSize w) ↔ 62 ≤ w := by
  rw [tdiv_400]
  rcases getSliderSize_cases w with h | h | h <;> (split <;> constructor <;> intro hx <;> omega)

/-- Geometry selection succeeds when both arguments of rand.Intn are positive. -/
theorem getCode_plan_ok (w : Int) (r1 r2 : Nat)
    (h1 : 0 < wrapInt (w - wrapInt (2 * getSliderSize w)))
    (h2 : 0 < wrapInt (getCode_hight w - getSliderSize w)) :
    ∃ p, getCode_plan w r1 r2 = .ok p := by
  unfold getCode_plan
  dsimp only
  rw [(Intn_ok r1 _ h1).1]
  simp only [bind, Except.bind]
  rw [(Intn_ok r2 _ h2).1]
  exact ⟨_, rfl⟩

/-- Geometry selection panics when an argument of rand.Intn is not positive. -/
theorem getCode_plan_panics (w : Int) (r1 r2 : Nat)
    (h : wrapInt (w - wrapInt (2 * getSliderSize w)) ≤ 0 ∨
      wrapInt (getCode_hight w - getSliderSize w) ≤ 0) :
    getCode_plan w r1 r2 = .error .intnInvalidArgument := by
  unfold getCode_plan
  dsimp only
  by_cases h1 : wrapInt (w - wrapInt (2 * getSliderSize w)) ≤ 0
  · rw [Intn_error _ _ h1]
    rfl
  · rw [(Intn_ok r1 _ (not_le.mp h1)).1]
    simp only [bind, Except.bind]
    rw [Intn_error _ _ (h.resolve_left h1)]

/-! ## C1 -/

/-- C1 (as amended): for every width w with 62 ≤ w whose product 200*w fits the Go int,
and for every pair of draws of the generator, the geometry selection of getCode succeeds
and yields pieceSize ≤ Dx < w - pieceSize and 0 ≤ Dy < BacH - pieceSize, where
pieceSize = getSliderSize w and BacH = 200*w/400. -/
theorem getCode_plan_bounds (w : Int) (r1 r2 : Nat) (hlo : 62 ≤ w) (hhi : 200 * w ≤ maxInt) :
    ∃ p, getCode_plan w r1 r2 = .ok p ∧ p.sliderInt = getSliderSize w ∧
      p.hight = 200 * w / 400 ∧
      p.sliderInt ≤ p.dx ∧ p.dx < w - p.sliderInt ∧ 0 ≤ p.dy ∧ p.dy < p.hight - p.sliderInt := by
  have hw : isInt w := by unfold isInt minInt; unfold maxInt at *; constructor <;> omega
  have hh := getCode_hight_nonneg w (by omega) hhi
  unfold maxInt at hhi
  have hs2 : 2 * getSliderSize w < w ∧ getSliderSize w < 200 * w / 400 ∧
      0 < getSliderSize w ∧ getSliderSize w ≤ 50 := by
    rcases getSliderSize_cases w with h | h | h <;> omega
  have e1 : wrapInt (2 * getSliderSize w) = 2 * getSliderSize w := wrapInt_eq _ (by omega) (by omega)
  have e2 : wrapInt (w - 2 * getSliderSize w) = w - 2 * getSliderSize w :=
    wrapInt_eq _ (by omega) (by omega)
  have e3 : wrapInt (200 * w / 400 - getSliderSize w) = 200 * w / 400 - getSliderSize w :=
    wrapInt_eq _ (by omega) (by omega)
  have hok : ∃ p, getCode_plan w r1 r2 = .ok p := by
    unfold getCode_plan
    dsimp only
    rw [hh, e1, e2, e3, (Intn_ok r1 _ (by omega)).1]
    simp only [bind, Except.bind]
    rw [(Intn_ok r2 _ (by omega)).1]
    exact ⟨_, rfl⟩
  obtain ⟨p, hp⟩ := hok
  obtain ⟨a1, a2, -, a4, a5, a6, a7⟩ := getCode_plan_inv w r1 r2 p hw hp
  exact ⟨p, hp, a1, by rw [a2, hh], a4, a5, a6, a7⟩

/-- Witness of getCode_plan_bounds at width 400. -/
theorem getCode_plan_bounds_witness :
    (62 : Int) ≤ 400 ∧ 200 * (400 : Int) ≤ maxInt ∧
    ∃ p, getCode_plan 400 1234 777 = .ok p ∧ p.sliderInt = getSliderSize 400 ∧
      p.hight = 200 * 400 / 400 ∧
      p.sliderInt ≤ p.dx ∧ p.dx < 400 - p.sliderInt ∧ 0 ≤ p.dy ∧ p.dy < p.hight - p.sliderInt :=
  ⟨by decide, by decide, getCode_plan_bounds 400 1234 777 (by decide) (by decide)⟩

/-- C1 (as stated) fails: width 60 satisfies w ≥ 2*getSliderSize(w), and so does width 61,
but for every draw the selection panics in rand.Intn (argument 60 - 2*30 = 0 for width 60,
argument 30 - 30 = 0 for the height of width 61): no geometry is produced. -/
theorem getCode_plan_fails_at_60 :
    2 * getSliderSize 60 ≤ 60 ∧ 2 * getSliderSize 61 ≤ 61 ∧
    (∀ r1 r2 : Nat, getCode_plan 60 r1 r2 = .error .intnInvalidArgument) ∧
    (∀ r1 r2 : Nat, getCode_plan 61 r1 r2 = .error .intnInvalidArgument) := by
  refine ⟨by decide, by decide, fun r1 r2 => rfl, fun r1 r2 => ?_⟩
  unfold getCode_plan
  dsimp only
  have h1 : wrapInt (61 - wrapInt (2 * getSliderSize 61)) = 1 := by decide
  have h2 : wrapInt (getCode_hight 61 - getSliderSize 61) = 0 := by decide
  rw [h1, h2, (Intn_ok r1 1 (by decide)).1]
  rfl


/-! ## C2 -/

/-- C2 (as amended): for every SliderInfo G that getCode produces and whose Src is valid
UTF-8, and for a cipher whose decryption reverses its encryption under the same key, the
token of the getCode response (JSON text, AesEncryptCBC under the fixed key,
url.QueryEscape) decodes (query unescape, AesDecryptCBC, myUnmarshal) to a record equal to
G in every field, with a nil error. -/
theorem getSliderInfo_getCode_roundtrip (aes : Cipher) (hr : aes.Reverses)
    (form : Option GoString) (r1 r2 r3 : Nat) (dir : GoString) (fs : FileSystem)
    (now stamp : Int) (G : SliderInfo) (res : JsonRes) (d : CodeData) (hnow : isInt now)
    (hG : getCode_slider (getCode_width form) r1 r2 r3 dir fs now stamp = .ok (.ok G))
    (hres : getCode aes form r1 r2 r3 dir fs now stamp = .ok res) (hd : res.Data = some d)
    (hutf : validUtf8 G.Src = true) :
    getSliderInfo aes Json.Unmarshal (Query d.sign) = (G, none) := by
  obtain ⟨source, hm, hsign⟩ := getCode_sign aes form r1 r2 r3 dir fs now stamp G res d hG hres hd
  obtain ⟨h1, h2, h3, h4, h5, h6, h7⟩ :=
    getCode_slider_isInt _ r1 r2 r3 dir fs now stamp G (getCode_width_isInt form) hnow hG
  obtain ⟨hne, hun⟩ := Unmarshal_Marshal G source hm hutf h1 h2 h3 h4 h5 h6 h7
  unfold getSliderInfo myUnmarshal
  dsimp only
  rw [hsign, Query_QueryEscape, hr source key, if_neg (by
    intro h0
    exact hne (List.length_eq_zero.mp h0)), hun]

/-- Witness of getSliderInfo_getCode_roundtrip: width 400, the sample pool and the sample
cipher; the token of the response decodes to the record that was planned. -/
theorem getSliderInfo_getCode_roundtrip_witness :
    isInt 1700000000 ∧ validUtf8 (lit "/app/img/a.png") = true ∧
    getSliderInfo sampleCipher Json.Unmarshal
      (Query (QueryEscape (sampleCipher.AesEncryptCBC
        (lit ("\x7b\"BacW\":400,\"BacH\":200,\"SliderW\":50,\"SliderH\":50,\"Dx\":84,\"Dy\":27," ++
          "\"Src\":\"/app/img/a.png\",\"Time\":1700000000\x7d")) key))) =
      ({ BacW := 400, BacH := 200, SliderW := 50, SliderH := 50, Dx := 84, Dy := 27,
         Src := lit "/app/img/a.png", Time := 1700000000 }, none) :=
  ⟨by decide, by decide,
    getSliderInfo_getCode_roundtrip sampleCipher sampleCipher_reverses (some (lit "400")) 1234 777
      8 (lit "/app") samplePool 1700000000 1700000001
      { BacW := 400, BacH := 200, SliderW := 50, SliderH := 50, Dx := 84, Dy := 27,
        Src := lit "/app/img/a.png", Time := 1700000000 }
      { Status := 1
        Data := some
          { x := lit "84", y := lit "27"
            sign := QueryEscape (sampleCipher.AesEncryptCBC
              (lit ("\x7b\"BacW\":400,\"BacH\":200,\"SliderW\":50,\"SliderH\":50,\"Dx\":84,\"Dy\":27," ++
                "\"Src\":\"/app/img/a.png\",\"Time\":1700000000\x7d")) key) }
        Msg := "调用成功", TimeStamp := 1700000001 }
      { x := lit "84", y := lit "27"
        sign := QueryEscape (sampleCipher.AesEncryptCBC
          (lit ("\x7b\"BacW\":400,\"BacH\":200,\"SliderW\":50,\"SliderH\":50,\"Dx\":84,\"Dy\":27," ++
            "\"Src\":\"/app/img/a.png\",\"Time\":1700000000\x7d")) key) }
      (by decide) (by decide) (by decide) rfl (by decide)⟩

/-- C2 (as stated) fails: with the pictures caf\xe9s.png (a Latin-1 file name, not valid
UTF-8) and d.png in the pool, listed in the order of their names as ioutil.ReadDir returns
them, getPic picks caf\xe9s.png and getCode produces a record G whose Src holds the byte
233; json.Marshal writes the escape of U+FFFD for that byte, so the token decodes, with a
nil error, to a record whose Src holds the bytes 239 191 189 instead: it differs from G.
The sample cipher used reverses its encryption. -/
theorem getSliderInfo_getCode_latin1 :
    sampleCipher.Reverses ∧
    (∃ files, latin1Pool (lit "/app/img") = some files ∧ sortedByName files) ∧
    getPic (lit "/app") latin1Pool 8 =
      .ok (lit "/app/img/caf" ++ [233] ++ lit "s.png", none) ∧
    ∃ G d, getCode_slider (getCode_width (some (lit "400"))) 1234 777 8 (lit "/app") latin1Pool
        1700000000 1700000001 = .ok (.ok G) ∧
      getCode sampleCipher (some (lit "400")) 1234 777 8 (lit "/app") latin1Pool 1700000000
        1700000001 = .ok { Status := 1, Data := some d, Msg := "调用成功",
                           TimeStamp := 1700000001 } ∧
      G.Src = lit "/app/img/caf" ++ [233] ++ lit "s.png" ∧
      getSliderInfo sampleCipher Json.Unmarshal (Query d.sign) =
        ({ G with Src := lit "/app/img/caf" ++ [239, 191, 189] ++ lit "s.png" }, none) ∧
      getSliderInfo sampleCipher Json.Unmarshal (Query d.sign) ≠ (G, none) := by
  refine ⟨sampleCipher_reverses, ⟨_, rfl, by decide⟩, by decide,
    { BacW := 400, BacH := 200, SliderW := 50, SliderH := 50, Dx := 84, Dy := 27,
      Src := lit "/app/img/caf" ++ [233] ++ lit "s.png", Time := 1700000000 },
    { x := lit "84", y := lit "27"
      sign := QueryEscape (sampleCipher.AesEncryptCBC
        (lit ("\x7b\"BacW\":400,\"BacH\":200,\"SliderW\":50,\"SliderH\":50,\"Dx\":84,\"Dy\":27," ++
          "\"Src\":\"/app/img/caf\\ufffds.png\",\"Time\":1700000000\x7d")) key) },
    by decide, by decide, rfl, by decide, by decide⟩

/-! ## C3 -/

/-- C3: for every integer width w, getSliderSize w is 30 when w < 200, 40 when
200 ≤ w < 300 and 50 when w ≥ 300 (150 gives 30, 250 gives 40, 350, 400 and 1000 give 50);
it is a function of the width alone, and the three copies of the function in
src/new/main.go, src/old/main.go and src/old/server.go agree. -/
theorem getSliderSize_tiers (w : Int) :
    (w < 200 → getSliderSize w = 30) ∧
    (200 ≤ w → w < 300 → getSliderSize w = 40) ∧
    (300 ≤ w → getSliderSize w = 50) ∧
    getSliderSize 150 = 30 ∧ getSliderSize 250 = 40 ∧ getSliderSize 350 = 50 ∧
    getSliderSize 400 = 50 ∧ getSliderSize 1000 = 50 ∧
    OldMain.getSliderSize w = getSliderSize w ∧ Server.getSliderSize w = getSliderSize w := by
  refine ⟨?_, ?_, ?_, by decide, by decide, by decide, by decide, by decide, rfl, rfl⟩
  · intro h
    rcases getSliderSize_cases w with c | c | c <;> omega
  · intro h1 h2
    rcases getSliderSize_cases w with c | c | c <;> omega
  · intro h
    rcases getSliderSize_cases w with c | c | c <;> omega

/-- Witness of getSliderSize_tiers in the middle tier. -/
theorem getSliderSize_tiers_witness :
    (200 : Int) ≤ 250 ∧ (250 : Int) < 300 ∧ getSliderSize 250 = 40 :=
  ⟨by decide, by decide, (getSliderSize_tiers 250).2.1 (by decide) (by decide)⟩

/-! ## C4 -/

/-- C4 (as amended): for every requested width w whose product 200*w does not overflow the
Go int, the height that getCode stores in BacH equals floor(200*w/400), the value of the Go
expression bacH * width / bacW; widths 400, 200 and 100 give 200, 100 and 50. -/
theorem getCode_BacH_floor (w : Int) (r1 r2 r3 : Nat) (dir : GoString) (fs : FileSystem)
    (now stamp : Int) (G : SliderInfo) (hlo : minInt ≤ 200 * w) (hhi : 200 * w ≤ maxInt)
    (h : getCode_slider w r1 r2 r3 dir fs now stamp = .ok (.ok G)) :
    G.BacH = getCode_hight w ∧ G.BacH = ⌊((200 * w : Int) : ℚ) / 400⌋ ∧
    getCode_hight 400 = 200 ∧ getCode_hight 200 = 100 ∧ getCode_hight 100 = 50 := by
  have hw : isInt w := by unfold isInt; unfold minInt maxInt at *; constructor <;> omega
  obtain ⟨p, hp, -, b2, -⟩ := getCode_slider_inv w r1 r2 r3 dir fs now stamp G h
  obtain ⟨-, a2, a3, -⟩ := getCode_plan_inv w r1 r2 p hw hp
  have hh := getCode_hight_nonneg w (by omega) hhi
  refine ⟨by rw [b2, a2], ?_, by decide, by decide, by decide⟩
  rw [b2, a2, hh]
  have := Rat.floor_intCast_div_natCast (200 * w) 400
  simpa using this.symm

/-- Witness of getCode_BacH_floor at width 400. -/
theorem getCode_BacH_floor_witness :
    minInt ≤ 200 * (400 : Int) ∧ 200 * (400 : Int) ≤ maxInt ∧
    (200 : Int) = ⌊((200 * 400 : Int) : ℚ) / 400⌋ :=
  ⟨by decide, by decide,
    (getCode_BacH_floor 400 1234 777 8 (lit "/app") samplePool 1700000000 1700000001
      { BacW := 400, BacH := 200, SliderW := 50, SliderH := 50, Dx := 84, Dy := 27,
        Src := lit "/app/img/a.png", Time := 1700000000 }
      (by decide) (by decide) (by decide)).2.1⟩

/-- C4 (as stated) fails: the width 92233720368547958 is a value strconv.Atoi accepts, the
product 200 * width wraps around in the 64-bit Go int to 39984, and getCode stores
BacH = 99, whereas floor(200*w/400) is 46116860184273979. -/
theorem getCode_BacH_overflow :
    Atoi (lit "92233720368547958") = some 92233720368547958 ∧
    (∃ G, getCode_slider 92233720368547958 0 0 0 (lit "/app") samplePool 0 0 = .ok (.ok G) ∧
      G.BacH = 99) ∧
    ⌊((200 * 92233720368547958 : Int) : ℚ) / 400⌋ = 46116860184273979 := by
  refine ⟨by decide,
    ⟨{ BacW := 92233720368547958, BacH := 99, SliderW := 50, SliderH := 50, Dx := 50, Dy := 0,
       Src := lit "/app/img/a.png", Time := 0 }, by decide, rfl⟩, ?_⟩
  have := Rat.floor_intCast_div_natCast (200 * 92233720368547958) 400
  simpa using this

/-! ## C5 -/

/-- C5: every SliderInfo that getCode produces, in each of the three variants
(src/new/main.go, src/old/main.go, src/old/server.go), for every width of the Go type int
and every draw of the generator for which it produces one, satisfies
0 ≤ Dx ≤ BacW - SliderW and 0 ≤ Dy ≤ BacH - SliderH. -/
theorem getCode_notch_inside (w : Int) (r1 r2 r3 : Nat) (hw : isInt w) :
    (∀ dir fs now stamp G, getCode_slider w r1 r2 r3 dir fs now stamp = .ok (.ok G) →
      0 ≤ G.Dx ∧ G.Dx ≤ G.BacW - G.SliderW ∧ 0 ≤ G.Dy ∧ G.Dy ≤ G.BacH - G.SliderH) ∧
    (∀ cwd fs now stamp G, OldMain.getCode_slider w r1 r2 r3 cwd fs now stamp = .ok (.ok G) →
      0 ≤ G.Dx ∧ G.Dx ≤ G.BacW - G.SliderW ∧ 0 ≤ G.Dy ∧ G.Dy ≤ G.BacH - G.SliderH) ∧
    (∀ G, Server.getCode_slider w r1 r2 r3 = .ok G →
      0 ≤ G.Dx ∧ G.Dx ≤ G.BacW - G.SliderW ∧ 0 ≤ G.Dy ∧ G.Dy ≤ G.BacH - G.SliderH) := by
  have hs : 0 < getSliderSize w := by
    rcases getSliderSize_cases w with c | c | c <;> omega
  refine ⟨?_, ?_, ?_⟩
  · intro dir fs now stamp G h
    obtain ⟨p, hp, b1, b2, b3, b4, b5, b6, -⟩ := getCode_slider_inv w r1 r2 r3 dir fs now stamp G h
    obtain ⟨a1, -, -, a4, a5, a6, a7⟩ := getCode_plan_inv w r1 r2 p hw hp
    rw [b1, b2, b3, b4, b5, b6]
    omega
  · intro cwd fs now stamp G h
    obtain ⟨p, hp, b1, b2, b3, b4, b5, b6⟩ :=
      oldMain_getCode_slider_inv w r1 r2 r3 cwd fs now stamp G h
    obtain ⟨a1, -, -, a4, a5, a6, a7⟩ := getCode_plan_inv w r1 r2 p hw hp
    rw [b1, b2, b3, b4, b5, b6]
    omega
  · intro G h
    obtain ⟨p, hp, b1, b2, b3, b4, b5, b6⟩ := server_getCode_slider_inv w r1 r2 r3 G h
    obtain ⟨a1, -, -, a4, a5, a6, a7⟩ := server_getCode_plan_inv w r1 r2 p hw hp
    rw [b1, b2, b3, b4, b5, b6]
    omega

/-- Witness of getCode_notch_inside: width 400 in the three variants. -/
theorem getCode_notch_inside_witness :
    isInt 400 ∧
    ((0 : Int) ≤ 84 ∧ (84 : Int) ≤ 400 - 50 ∧ (0 : Int) ≤ 27 ∧ (27 : Int) ≤ 200 - 50) ∧
    ((0 : Int) ≤ 184 ∧ (184 : Int) ≤ 400 - 50 ∧ (0 : Int) ≤ 27 ∧ (27 : Int) ≤ 200 - 50) :=
  ⟨by decide,
    (getCode_notch_inside 400 1234 777 8 (by decide)).1 (lit "/app") samplePool 1700000000
      1700000001
      { BacW := 400, BacH := 200, SliderW := 50, SliderH := 50, Dx := 84, Dy := 27,
        Src := lit "/app/img/a.png", Time := 1700000000 } (by decide),
    (getCode_notch_inside 400 1234 777 8 (by decide)).2.2
      { BacW := 400, BacH := 200, SliderW := 50, SliderH := 50, Dx := 184, Dy := 27,
        Src := lit "pic1.png" } (by decide)⟩


/-! ## C6 -/

/-- C6 (what the code does): for a pool that holds exactly one candidate image, getPic
calls rand.Intn(len(files) - 1) = rand.Intn(0), which panics, for every draw of the
generator, in src/new/main.go and in src/old/main.go alike; the file is not returned. -/
theorem getPic_single_panics (dir : GoString) (fs : FileSystem) (r : Nat) (file : GoString)
    (h : readAllPngFiles fs (dir ++ lit "/img") = .ok [file]) :
    getPic dir fs r = .error .intnInvalidArgument ∧
    OldMain.getPic (.ok dir) fs r = .error .intnInvalidArgument := by
  have hI : Intn r (wrapInt ((([file] : List GoString).length : Int) - 1)) =
      .error .intnInvalidArgument :=
    Intn_error _ _ (by show wrapInt ((1 : Int) - 1) ≤ 0; decide)
  constructor
  · unfold getPic
    rw [h]
    dsimp only
    rw [hI]
    rfl
  · unfold OldMain.getPic
    dsimp only
    rw [h]
    dsimp only
    rw [hI]
    rfl

/-- Witness of getPic_single_panics: the directory /app/img with the one file a.png. -/
theorem getPic_single_panics_witness :
    readAllPngFiles singlePool (lit "/app" ++ lit "/img") = .ok [lit "/app/img/a.png"] ∧
    getPic (lit "/app") singlePool 7 = .error .intnInvalidArgument ∧
    OldMain.getPic (.ok (lit "/app")) singlePool 7 = .error .intnInvalidArgument :=
  ⟨by decide, getPic_single_panics (lit "/app") singlePool 7 (lit "/app/img/a.png") (by decide)⟩

/-! ## C7 -/

/-- C7: when the plaintext that AesDecryptCBC hands to myUnmarshal is empty,
getSliderInfo returns the zero-valued SliderInfo and a nil error, whatever the JSON parser
would do: the parser is not consulted. -/
theorem getSliderInfo_empty (aes : Cipher) (unmarshal : Unmarshaler) (s : GoString)
    (h : aes.AesDecryptCBC s key = []) :
    getSliderInfo aes unmarshal s = (SliderInfo.zero, none) ∧
    myUnmarshal unmarshal [] SliderInfo.zero = (SliderInfo.zero, none) := by
  constructor
  · unfold getSliderInfo myUnmarshal
    dsimp only
    rw [h]
    rfl
  · rfl

/-- Witness of getSliderInfo_empty: the empty token under the sample cipher, with a
parser that would reject every input. -/
theorem getSliderInfo_empty_witness :
    sampleCipher.AesDecryptCBC [] key = [] ∧
    getSliderInfo sampleCipher (fun _ t => (t, some .jsonSyntax)) [] = (SliderInfo.zero, none) :=
  ⟨by decide,
    (getSliderInfo_empty sampleCipher (fun _ t => (t, some .jsonSyntax)) [] (by decide)).1⟩

/-! ## C8 -/

/-- C8 (as amended): getCode plans with width 400 when the form value of width is absent
or is rejected by strconv.Atoi (empty, not a decimal integer, or out of the range of int);
every value that Atoi accepts is used as the width unchanged, zero and negative values
included. -/
theorem getCode_width_default :
    getCode_width none = 400 ∧
    (∀ s : GoString, Atoi s = none → getCode_width (some s) = 400) ∧
    (∀ (s : GoString) (v : Int), Atoi s = some v → getCode_width (some s) = v) ∧
    getCode_width (some (lit "")) = 400 ∧ getCode_width (some (lit "abc")) = 400 ∧
    getCode_width (some (lit "12px")) = 400 ∧ getCode_width (some (lit "3.5")) = 400 ∧
    getCode_width (some (lit "9223372036854775808")) = 400 ∧
    getCode_width (some (lit "250")) = 250 := by
  refine ⟨by decide, ?_, ?_, by decide, by decide, by decide, by decide, by decide, by decide⟩
  · intro s h
    unfold getCode_width
    simp only [Option.getD_some]
    rw [h]
  · intro s v h
    unfold getCode_width
    simp only [Option.getD_some]
    rw [h]

/-- Witness of getCode_width_default: a value that is not a number, and one that is. -/
theorem getCode_width_default_witness :
    Atoi (lit "abc") = none ∧ getCode_width (some (lit "abc")) = 400 ∧
    Atoi (lit "250") = some 250 ∧ getCode_width (some (lit "250")) = 250 :=
  ⟨by decide, getCode_width_default.2.1 (lit "abc") (by decide),
    by decide, getCode_width_default.2.2.1 (lit "250") 250 (by decide)⟩

/-- C8 (as stated) fails: the form values 0 and -5 are not positive integers, yet
getCode plans with width 0 and -5, not 400 (and then panics in rand.Intn, for every
draw of the generator). -/
theorem getCode_width_zero_negative :
    getCode_width (some (lit "0")) = 0 ∧ getCode_width (some (lit "-5")) = -5 ∧
    (∀ r1 r2 : Nat, getCode_plan (getCode_width (some (lit "0"))) r1 r2 =
      .error .intnInvalidArgument) ∧
    (∀ r1 r2 : Nat, getCode_plan (getCode_width (some (lit "-5"))) r1 r2 =
      .error .intnInvalidArgument) :=
  ⟨by decide, by decide, fun _ _ => rfl, fun _ _ => rfl⟩

/-! ## C9 -/

/-- C9 (what the code does): whenever getCode writes an envelope whose data is null (the
failure paths, where the status argument is the rune literal of the digit zero), the
integer field status is 48, not 0; and whenever data is present the status is 1. -/
theorem getCode_failure_status (aes : Cipher) (form : Option GoString) (r1 r2 r3 : Nat)
    (dir : GoString) (fs : FileSystem) (now stamp : Int) (res : JsonRes)
    (h : getCode aes form r1 r2 r3 dir fs now stamp = .ok res) :
    (res.Data = none → res.Status = 48) ∧ (res.Data ≠ none → res.Status = 1) := by
  unfold getCode at h
  dsimp only at h
  cases hs : getCode_slider (getCode_width form) r1 r2 r3 dir fs now stamp with
  | error e => rw [hs] at h; simp [bind, Except.bind] at h
  | ok planned =>
    rw [hs] at h
    simp only [bind, Except.bind] at h
    cases planned with
    | ok slider =>
      simp only [Json.Marshal, pure, Except.pure, Except.ok.injEq] at h
      subst h
      simp [responseJson]
    | error env =>
      simp only [pure, Except.pure, Except.ok.injEq] at h
      subst h
      unfold getCode_slider at hs
      cases hp : getCode_plan (getCode_width form) r1 r2 with
      | error e => rw [hp] at hs; simp [bind, Except.bind] at hs
      | ok p =>
        rw [hp] at hs
        cases hg : getPic dir fs r3 with
        | error e => rw [hg] at hs; simp [bind, Except.bind] at hs
        | ok src =>
          rw [hg] at hs
          simp only [bind, Except.bind] at hs
          cases he : src.2 with
          | none => rw [he] at hs; simp [pure, Except.pure] at hs
          | some e =>
            rw [he] at hs
            simp only [pure, Except.pure, Except.ok.injEq, Except.error.injEq] at hs
            subst hs
            simp [responseJson]

/-- Witness of getCode_failure_status: width 400 while the picture directory cannot be
read; the envelope carries status 48 and data null. -/
theorem getCode_failure_status_witness :
    getCode sampleCipher (some (lit "400")) 1234 777 8 (lit "/srv") samplePool 1700000000
        1700000001 = .ok failureEnvelope ∧
    failureEnvelope.Data = none ∧ failureEnvelope.Status = 48 :=
  ⟨by decide, rfl,
    (getCode_failure_status sampleCipher (some (lit "400")) 1234 777 8 (lit "/srv") samplePool
      1700000000 1700000001 failureEnvelope (by decide)).1 rfl⟩

/-! ## C10 -/

/-- C10 (as amended): responseSlider and responseSliderBac do not compare the decoded
geometry with the canvas. For every decoded geometry, whether or not its notch rectangle
lies in the canvas, with piece and canvas sides between 1 and 2^32 - 1 and pixel buffers
(4 * SliderW * SliderH and 4 * BacW * BacH bytes) within what make accepts and the runtime
can obtain, once imaging.Resize has returned the picture of BacW x BacH pixels, they write
a PNG image and no error. The piece has SliderW x SliderH pixels: the point (x, y) holds
the canvas pixel at (Dx + x, Dy + y) when that point lies on the canvas and stays
transparent otherwise. The background has BacW x BacH pixels: the picture, with the mask
drawn over the points of the notch that lie on the canvas (draw.Draw clips the rest). -/
theorem responseSlider_no_bounds_check (mem : Int) (Resize : Resizer) (img : Image)
    (G : SliderInfo)
    (hW : 0 < G.SliderW ∧ G.SliderW < 4294967296) (hH : 0 < G.SliderH ∧ G.SliderH < 4294967296)
    (hBW : 0 < G.BacW ∧ G.BacW < 4294967296) (hBH : 0 < G.BacH ∧ G.BacH < 4294967296)
    (hDx : isInt G.Dx) (hDy : isInt G.Dy)
    (hpiece : 4 * G.SliderW * G.SliderH ≤ min mem maxAlloc)
    (hcanvas : 4 * G.BacW * G.BacH ≤ min mem maxAlloc)
    (hres : (Resize img G.BacW G.BacH).Bounds = Rect 0 0 G.BacW G.BacH) :
    (∃ m, responseSlider_draw mem Resize img G = .ok (.png m) ∧
      m.Bounds = Rect 0 0 G.SliderW G.SliderH ∧
      ∀ x y, m.pix x y =
        if 0 ≤ x ∧ x < G.SliderW ∧ 0 ≤ y ∧ y < G.SliderH ∧
            0 ≤ G.Dx + x ∧ G.Dx + x < G.BacW ∧ 0 ≤ G.Dy + y ∧ G.Dy + y < G.BacH then
          drawNRGBASrc Pixel.zero ((Resize img G.BacW G.BacH).pix (G.Dx + x) (G.Dy + y))
        else Pixel.zero) ∧
    (∃ m, responseSliderBac_draw mem Resize img G = .ok (.png m) ∧
      m.Bounds = Rect 0 0 G.BacW G.BacH ∧
      ∀ x y, m.pix x y =
        if 0 ≤ x ∧ x < G.BacW ∧ 0 ≤ y ∧ y < G.BacH then
          if G.Dx ≤ x ∧ x < G.Dx + G.SliderW ∧ G.Dy ≤ y ∧ y < G.Dy + G.SliderH then
            drawAlphaOver (drawNRGBASrc Pixel.zero ((Resize img G.BacW G.BacH).pix x y))
              { R := 0, G := 0, B := 0, A := Fin.ofNat (100 % 256) }
          else drawNRGBASrc Pixel.zero ((Resize img G.BacW G.BacH).pix x y)
        else Pixel.zero) := by
  have hnn : 0 ≤ G.SliderW * G.SliderH := mul_nonneg (by omega) (by omega)
  have hmask : G.SliderW * G.SliderH ≤ min mem maxAlloc := by
    have e : 4 * G.SliderW * G.SliderH = 4 * (G.SliderW * G.SliderH) := mul_assoc _ _ _
    omega
  exact ⟨⟨_, responseSlider_draw_eq mem Resize img G hW hH hpiece, Draw_Bounds _ _ _ _ _,
      piece_pixel _ G hW hH hBW hBH hDx hDy hres⟩,
    ⟨_, responseSliderBac_draw_eq mem Resize img G ⟨by omega, hW.2⟩ ⟨by omega, hH.2⟩ hBW hBH
      hmask hcanvas, by rw [Draw_Bounds, Draw_Bounds],
      background_pixel Resize img G hW hH hBW hBH hDx hDy hres⟩⟩

/-- Witness of responseSlider_no_bounds_check: a geometry whose notch leaves the canvas,
with one gibibyte of memory. -/
theorem responseSlider_no_bounds_check_witness :
    ¬ notchInCanvas outsideNotch ∧
    (∃ m, responseSlider_draw sampleMem sampleResize sampleImage outsideNotch = .ok (.png m) ∧
      m.Bounds = Rect 0 0 outsideNotch.SliderW outsideNotch.SliderH ∧
      ∀ x y, m.pix x y =
        if 0 ≤ x ∧ x < outsideNotch.SliderW ∧ 0 ≤ y ∧ y < outsideNotch.SliderH ∧
            0 ≤ outsideNotch.Dx + x ∧ outsideNotch.Dx + x < outsideNotch.BacW ∧
            0 ≤ outsideNotch.Dy + y ∧ outsideNotch.Dy + y < outsideNotch.BacH then
          drawNRGBASrc Pixel.zero
            ((sampleResize sampleImage outsideNotch.BacW outsideNotch.BacH).pix
              (outsideNotch.Dx + x) (outsideNotch.Dy + y))
        else Pixel.zero) ∧
    (∃ m, responseSliderBac_draw sampleMem sampleResize sampleImage outsideNotch =
        .ok (.png m) ∧
      m.Bounds = Rect 0 0 outsideNotch.BacW outsideNotch.BacH ∧
      ∀ x y, m.pix x y =
        if 0 ≤ x ∧ x < outsideNotch.BacW ∧ 0 ≤ y ∧ y < outsideNotch.BacH then
          if outsideNotch.Dx ≤ x ∧ x < outsideNotch.Dx + outsideNotch.SliderW ∧
              outsideNotch.Dy ≤ y ∧ y < outsideNotch.Dy + outsideNotch.SliderH then
            drawAlphaOver
              (drawNRGBASrc Pixel.zero
                ((sampleResize sampleImage outsideNotch.BacW outsideNotch.BacH).pix x y))
              { R := 0, G := 0, B := 0, A := Fin.ofNat (100 % 256) }
          else
            drawNRGBASrc Pixel.zero
              ((sampleResize sampleImage outsideNotch.BacW outsideNotch.BacH).pix x y)
        else Pixel.zero) :=
  ⟨by decide,
    responseSlider_no_bounds_check sampleMem sampleResize sampleImage outsideNotch
      (by decide) (by decide) (by decide) (by decide) (by decide) (by decide) (by decide)
      (by decide) rfl⟩

/-- C10 (as stated) fails: the decoded geometry with canvas 400 x 200, piece 50 x 50 and
notch at (380, 180) is not contained in the canvas, yet responseSlider writes a PNG of
50 x 50 pixels (the pixel at (19, 19) taken from the canvas point (399, 199), the pixel at
(20, 19) left transparent), and responseSliderBac writes a PNG of 400 x 200 pixels (the
mask blended over the canvas point (399, 199), the last of the canvas); neither fails. -/
theorem responseSlider_outside_no_error :
    ¬ notchInCanvas outsideNotch ∧
    (∃ m, responseSlider_draw sampleMem sampleResize sampleImage outsideNotch = .ok (.png m) ∧
      m.Bounds = Rect 0 0 50 50 ∧
      m.pix 19 19 = { R := 201, G := 101, B := 50, A := 255 } ∧ m.pix 20 19 = Pixel.zero) ∧
    (∃ m, responseSliderBac_draw sampleMem sampleResize sampleImage outsideNotch =
        .ok (.png m) ∧
      m.Bounds = Rect 0 0 400 200 ∧
      m.pix 399 199 = { R := 223, G := 162, B := 130, A := 255 }) := by
  refine ⟨by decide, ⟨_, responseSlider_draw_eq sampleMem sampleResize sampleImage outsideNotch
    (by decide) (by decide) (by decide), Draw_Bounds _ _ _ _ _, by decide, by decide⟩,
    ⟨_, responseSliderBac_draw_eq sampleMem sampleResize sampleImage outsideNotch
      (by decide) (by decide) (by decide) (by decide) (by decide) (by decide),
      by rw [Draw_Bounds, Draw_Bounds]; rfl, by decide⟩⟩

/-! ## C11 -/

/-- C11 (as amended): in responseSliderBac, for every geometry whose notch is not empty
(SliderW > 0 and SliderH > 0) and lies inside the canvas, and every resized picture that
fills the canvas, every image written has at (Dx, Dy) the source-over blend of the mask of
alpha 100/255 over the pixel that the canvas holds there for the picture (its
alpha-premultiplied form, the pixel itself when it is opaque): per channel mask + original
* (255 - 100) / 255 in the arithmetic of image/draw. That pixel is never fully
transparent, and it is the mask alone exactly when the picture pixel is fully transparent.
An image is written when the canvas sides are below 2^32 and its pixel buffer of
4 * BacW * BacH bytes is within what make accepts and the runtime can obtain. -/
theorem responseSliderBac_notch_blend (mem : Int) (Resize : Resizer) (img : Image)
    (G : SliderInfo)
    (hBW : isInt G.BacW) (hBH : isInt G.BacH) (hW : 0 < G.SliderW) (hH : 0 < G.SliderH)
    (hin : notchInCanvas G)
    (hres : (Resize img G.BacW G.BacH).Bounds = Rect 0 0 G.BacW G.BacH) :
    (∀ m, responseSliderBac_draw mem Resize img G = .ok (.png m) →
      m.pix G.Dx G.Dy =
        specBlend (drawNRGBASrc Pixel.zero ((Resize img G.BacW G.BacH).pix G.Dx G.Dy)) ∧
      (((Resize img G.BacW G.BacH).pix G.Dx G.Dy).A = 255 →
        m.pix G.Dx G.Dy = specBlend ((Resize img G.BacW G.BacH).pix G.Dx G.Dy)) ∧
      m.pix G.Dx G.Dy ≠ Pixel.zero ∧
      (m.pix G.Dx G.Dy = maskAlone ↔ ((Resize img G.BacW G.BacH).pix G.Dx G.Dy).A = 0)) ∧
    (G.BacW < 4294967296 → G.BacH < 4294967296 → 4 * G.BacW * G.BacH ≤ min mem maxAlloc →
      ∃ m, responseSliderBac_draw mem Resize img G = .ok (.png m)) := by
  constructor
  · intro m hm
    have hp : m.pix G.Dx G.Dy =
        specBlend (drawNRGBASrc Pixel.zero ((Resize img G.BacW G.BacH).pix G.Dx G.Dy)) := by
      rw [responseSliderBac_draw_inv mem Resize img G m hm,
        notch_pixel (Resize img G.BacW G.BacH) G hBW.2 hBH.2 hW hH hin hres, drawAlphaOver_mask]
    refine ⟨hp, ?_, ?_, ?_⟩
    · intro ha
      rw [hp, drawNRGBASrc_opaque _ _ ha]
    · rw [hp]
      exact specBlend_ne_zero _
    · rw [hp, specBlend_eq_maskAlone, drawNRGBASrc_eq_zero]
  · intro h1 h2 h3
    obtain ⟨i1, i2, i3, i4⟩ := hin
    have hle : G.SliderW * G.SliderH ≤ G.BacW * G.BacH :=
      mul_le_mul (by omega) (by omega) (by omega) (by omega)
    have e : 4 * G.BacW * G.BacH = 4 * (G.BacW * G.BacH) := mul_assoc _ _ _
    have hnn : 0 ≤ G.BacW * G.BacH := mul_nonneg (by omega) (by omega)
    exact ⟨_, responseSliderBac_draw_eq mem Resize img G ⟨by omega, by omega⟩
      ⟨by omega, by omega⟩ ⟨by omega, h1⟩ ⟨by omega, h2⟩ (by omega) h3⟩

/-- Witness of responseSliderBac_notch_blend: the canvas of 400 x 200 pixels with the
notch of 50 x 50 pixels at (284, 127), over the opaque sample picture, with one gibibyte
of memory. -/
theorem responseSliderBac_notch_blend_witness :
    isInt insideNotch.BacW ∧ isInt insideNotch.BacH ∧ 0 < insideNotch.SliderW ∧
    0 < insideNotch.SliderH ∧ notchInCanvas insideNotch ∧
    (sampleResize sampleImage insideNotch.BacW insideNotch.BacH).Bounds =
      Rect 0 0 insideNotch.BacW insideNotch.BacH ∧
    ((∀ m, responseSliderBac_draw sampleMem sampleResize sampleImage insideNotch =
        .ok (.png m) →
      m.pix insideNotch.Dx insideNotch.Dy =
        specBlend (drawNRGBASrc Pixel.zero
          ((sampleResize sampleImage insideNotch.BacW insideNotch.BacH).pix
            insideNotch.Dx insideNotch.Dy)) ∧
      (((sampleResize sampleImage insideNotch.BacW insideNotch.BacH).pix
          insideNotch.Dx insideNotch.Dy).A = 255 →
        m.pix insideNotch.Dx insideNotch.Dy =
          specBlend ((sampleResize sampleImage insideNotch.BacW insideNotch.BacH).pix
            insideNotch.Dx insideNotch.Dy)) ∧
      m.pix insideNotch.Dx insideNotch.Dy ≠ Pixel.zero ∧
      (m.pix insideNotch.Dx insideNotch.Dy = maskAlone ↔
        ((sampleResize sampleImage insideNotch.BacW insideNotch.BacH).pix
          insideNotch.Dx insideNotch.Dy).A = 0)) ∧
    (insideNotch.BacW < 4294967296 → insideNotch.BacH < 4294967296 →
      4 * insideNotch.BacW * insideNotch.BacH ≤ min sampleMem maxAlloc →
      ∃ m, responseSliderBac_draw sampleMem sampleResize sampleImage insideNotch =
        .ok (.png m))) :=
  ⟨by decide, by decide, by decide, by decide, by decide, rfl,
    responseSliderBac_notch_blend sampleMem sampleResize sampleImage insideNotch
      (by decide) (by decide) (by decide) (by decide) (by decide) rfl⟩

/-- C11 (as stated) fails in two ways, both with the notch inside the canvas of 400 x 200
pixels. Over a fully transparent picture the image written has at (Dx, Dy) = (284, 127)
the pixel (100, 100, 100, 100), the mask alone. With an empty notch (a piece of 0 x 0
pixels at (284, 127)) the image written has there the picture pixel (201, 101, 50, 255)
itself and not its blend with the mask, (223, 162, 130, 255). -/
theorem responseSliderBac_mask_alone :
    (notchInCanvas insideNotch ∧
      ∃ m, responseSliderBac_draw sampleMem sampleResize transparentImage insideNotch =
          .ok (.png m) ∧
        m.pix 284 127 = maskAlone) ∧
    (notchInCanvas emptyNotch ∧
      ∃ m, responseSliderBac_draw sampleMem sampleResize sampleImage emptyNotch =
          .ok (.png m) ∧
        (sampleResize sampleImage 400 200).pix 284 127 = { R := 201, G := 101, B := 50, A := 255 } ∧
        m.pix 284 127 = { R := 201, G := 101, B := 50, A := 255 } ∧
        specBlend { R := 201, G := 101, B := 50, A := 255 } =
          { R := 223, G := 162, B := 130, A := 255 }) :=
  ⟨⟨by decide, _, responseSliderBac_draw_eq sampleMem sampleResize transparentImage insideNotch
      (by decide) (by decide) (by decide) (by decide) (by decide) (by decide), by decide⟩,
    ⟨by decide, _, responseSliderBac_draw_eq sampleMem sampleResize sampleImage emptyNotch
      (by decide) (by decide) (by decide) (by decide) (by decide) (by decide),
      by decide, by decide, by decide⟩⟩

/-! ## C12 -/

/-- C12 (what the code does): for a pool of n ≥ 2 matched files, getPic draws its index
with rand.Intn(len(files) - 1), so for every draw of the generator it returns a file at
an index below n - 1, in src/new/main.go and in src/old/main.go alike: the index n - 1 is
drawn for no value, and the last file of a listing without repetition is never returned.
Selection is not uniform over the matched set. -/
theorem getPic_never_last (dir : GoString) (fs : FileSystem) (r : Nat) (files : List GoString)
    (h : readAllPngFiles fs (dir ++ lit "/img") = .ok files) (hn : 2 ≤ files.length)
    (hmax : (files.length : Int) ≤ maxInt) :
    ∃ i file, i < files.length - 1 ∧ files[i]? = some file ∧
      getPic dir fs r = .ok (file, none) ∧ OldMain.getPic (.ok dir) fs r = .ok (file, none) ∧
      (files.Nodup → ∀ hne : files ≠ [], file ≠ files.getLast hne) := by
  obtain ⟨i, file, hi, hf, hdo⟩ := getPic_index files r hn hmax
  refine ⟨i, file, hi, hf, ?_, ?_, fun hnd hne => not_last_of_index files i file hi hf hnd hne⟩
  · unfold getPic
    rw [h]
    exact hdo
  · unfold OldMain.getPic
    dsimp only
    rw [h]
    exact hdo

/-- Witness of getPic_never_last: in the pool with a.png and b.png every draw gives
a.png; here the draw is 7. -/
theorem getPic_never_last_witness :
    readAllPngFiles samplePool (lit "/app" ++ lit "/img") =
      .ok [lit "/app/img/a.png", lit "/app/img/b.png"] ∧
    ∃ i file, i < 2 - 1 ∧
      [lit "/app/img/a.png", lit "/app/img/b.png"][i]? = some file ∧
      getPic (lit "/app") samplePool 7 = .ok (file, none) ∧
      OldMain.getPic (.ok (lit "/app")) samplePool 7 = .ok (file, none) ∧
      (([lit "/app/img/a.png", lit "/app/img/b.png"] : List GoString).Nodup →
        ∀ hne : ([lit "/app/img/a.png", lit "/app/img/b.png"] : List GoString) ≠ [],
          file ≠ List.getLast [lit "/app/img/a.png", lit "/app/img/b.png"] hne) :=
  ⟨by decide,
    getPic_never_last (lit "/app") samplePool 7 [lit "/app/img/a.png", lit "/app/img/b.png"]
      (by decide) (by decide) (by decide)⟩

/-! ## C13 -/

/-- C13: in getCode of src/new/main.go, for every width w whose product 200 * w does not
overflow the Go int, the two arguments passed to rand.Intn are w - 2*getSliderSize(w) and
200*w/400 - getSliderSize(w) (Go division), and both are strictly positive if and only if
w ≥ 62; geometry selection runs without a panic, for every draw, exactly when w ≥ 62, and
panics in rand.Intn for every w ≤ 61. -/
theorem getCode_plan_runs_iff (w : Int) (hlo : minInt ≤ 200 * w) (hhi : 200 * w ≤ maxInt) :
    (wrapInt (w - wrapInt (2 * getSliderSize w)) = w - 2 * getSliderSize w ∧
      wrapInt (getCode_hight w - getSliderSize w) =
        Int.tdiv (200 * w) 400 - getSliderSize w) ∧
    ((0 < w - 2 * getSliderSize w ∧ 0 < Int.tdiv (200 * w) 400 - getSliderSize w) ↔ 62 ≤ w) ∧
    (∀ r1 r2 : Nat, (∃ p, getCode_plan w r1 r2 = .ok p) ↔ 62 ≤ w) ∧
    (w ≤ 61 → ∀ r1 r2 : Nat, getCode_plan w r1 r2 = .error .intnInvalidArgument) := by
  obtain ⟨a1, a2⟩ := getCode_plan_args w hlo hhi
  have hpos := getCode_plan_args_pos w
  have hpanic : w ≤ 61 → ∀ r1 r2 : Nat, getCode_plan w r1 r2 = .error .intnInvalidArgument := by
    intro h61 r1 r2
    apply getCode_plan_panics
    rw [a1, a2]
    by_contra hc
    have : 62 ≤ w := hpos.mp ⟨by omega, by omega⟩
    omega
  refine ⟨⟨a1, a2⟩, hpos, ?_, hpanic⟩
  intro r1 r2
  constructor
  · rintro ⟨p, hp⟩
    by_contra hc
    rw [hpanic (by omega) r1 r2] at hp
    exact absurd hp (by simp)
  · intro h62
    obtain ⟨b1, b2⟩ := hpos.mpr h62
    exact getCode_plan_ok w r1 r2 (by rw [a1]; exact b1) (by rw [a2]; exact b2)

/-- Witness of getCode_plan_runs_iff: width 61 panics, for every draw. -/
theorem getCode_plan_runs_iff_witness :
    minInt ≤ 200 * (61 : Int) ∧ 200 * (61 : Int) ≤ maxInt ∧ (61 : Int) ≤ 61 ∧
    ∀ r1 r2 : Nat, getCode_plan 61 r1 r2 = .error .intnInvalidArgument :=
  ⟨by decide, by decide, by decide,
    (getCode_plan_runs_iff 61 (by decide) (by decide)).2.2.2 (by decide)⟩

end GoSlider
